import Mathlib

/-!
WPS External Registrar, `src/wps/wps_er.c`.

A shallow embedding of the External Registrar of `wps_er.c` and the proofs of
the properties its specification states.

Conventions of the embedding.

* A C string is the list of its characters before the terminating NUL.
* A record that C code reaches through a pointer carries that address in its
  `ptr` field; the event loop and the HTTP client key their entries by it.
* The linked lists `er->ap` and `ap->sta` are Lean lists in link order.
* The event loop, the HTTP client, the WPS engine and the allocator are not
  part of `wps_er.c`.  The timer table of the event loop is modelled as data;
  what an allocation or an engine call returns is an input of the function
  that makes the call.
-/

namespace WpsEr

/-! ## Data model -/

/-- The two timer callbacks `wps_er.c` registers with the event loop. -/
inductive eloop_handler where
  | ap_timeout
  | sta_timeout
deriving DecidableEq, Repr

/-- Modelled from the spec: one armed timer of the event loop (the event loop
is not in `wps_er.c`), as registered by
`register_timeout(secs, usecs, cb, d, ctx)`. -/
structure eloop_timeout where
  secs : Int
  usecs : Int
  handler : eloop_handler
  eloop_data : Nat
  user_ctx : Nat
deriving DecidableEq, Repr

/-- Modelled from the spec: `register_timeout(secs, usecs, cb, d, ctx)` arms one
more timer in the table. -/
def eloop_register_timeout (T : List eloop_timeout) (secs usecs : Int)
    (h : eloop_handler) (d ctx : Nat) : List eloop_timeout :=
  T ++ [{ secs := secs, usecs := usecs, handler := h, eloop_data := d, user_ctx := ctx }]

/-- The key `(cb, d, ctx)` of a timer matches. -/
def eloop_timeout.is_for (t : eloop_timeout) (h : eloop_handler) (d ctx : Nat) : Bool :=
  decide (t.handler = h) && decide (t.eloop_data = d) && decide (t.user_ctx = ctx)

/-- Modelled from the spec: `cancel_timeout(cb, d, ctx)` disarms every timer
registered with that callback and those two context values. -/
def eloop_cancel_timeout (T : List eloop_timeout) (h : eloop_handler) (d ctx : Nat) :
    List eloop_timeout :=
  T.filter (fun t => !(t.is_for h d ctx))

/-- IPv4 socket address (`struct sockaddr_in`). -/
structure sockaddr_in where
  sin_addr : Nat
  sin_port : Nat
deriving DecidableEq, Repr

/-- The completion callbacks handed to the HTTP client. -/
inductive http_cb where
  | dev_desc_cb
  | subscribe_cb
  | put_wlan_response_cb
  | set_sel_reg_cb
deriving DecidableEq, Repr

/-- Modelled from the spec: an outbound HTTP exchange in flight (the HTTP client
is not in `wps_er.c`).  `url` is set for `http_client_url`, `dst` for
`http_client_addr`; `req` is the request buffer, `arg` the third argument of the
call, `ctx` the address of the owning record. -/
structure http_client where
  url : Option (List Char)
  dst : Option sockaddr_in
  req : Option (List Char)
  arg : Nat
  cb : http_cb
  ctx : Nat
deriving DecidableEq, Repr

/-- Operation codes of `wps_process_msg`. -/
inductive wsc_op_code where
  | WSC_MSG
  | WSC_ACK
  | WSC_NACK
  | WSC_Done
deriving DecidableEq, Repr

/-- Results of `wps_process_msg`. -/
inductive wps_process_res where
  | WPS_DONE
  | WPS_CONTINUE
  | WPS_FAILURE
  | WPS_PENDING
deriving DecidableEq, Repr

/-- The fields of `struct wps_config` that `wps_er_sta_start` sets. -/
structure wps_config where
  wps : Nat
  registrar : Int
  peer_addr : List Nat
deriving DecidableEq, Repr

/-- Handle of a WPS engine instance (`struct wps_data`): the configuration it
was created with and the engine's own state, which `wps_er.c` never inspects. -/
structure wps_data where
  cfg : wps_config
  st : Nat
deriving DecidableEq, Repr

/-- Station record, `struct wps_er_sta`.  `m1_received` is an `int` used as a
flag; `next` is the list order and `ap` the record holding the list. -/
structure wps_er_sta where
  ptr : Nat
  addr : List Nat
  config_methods : Nat
  uuid : List Nat
  pri_dev_type : List Nat
  dev_passwd_id : Nat
  m1_received : Bool
  manufacturer : Option (List Nat)
  model_name : Option (List Nat)
  model_number : Option (List Nat)
  serial_number : Option (List Nat)
  dev_name : Option (List Nat)
  wps : Option wps_data
  http : Option http_client
deriving DecidableEq, Repr

/-- Access point record, `struct wps_er_ap`. -/
structure wps_er_ap where
  ptr : Nat
  sta : List wps_er_sta
  addr : Nat
  location : Option (List Char)
  http : Option http_client
  friendly_name : Option (List Char)
  manufacturer : Option (List Char)
  manufacturer_url : Option (List Char)
  model_description : Option (List Char)
  model_name : Option (List Char)
  model_number : Option (List Char)
  model_url : Option (List Char)
  serial_number : Option (List Char)
  udn : Option (List Char)
  upc : Option (List Char)
  scpd_url : Option (List Char)
  control_url : Option (List Char)
  event_sub_url : Option (List Char)
  subscribed : Int
  id : Nat
deriving DecidableEq, Repr

/-- The registrar context, `struct wps_er`.  `next_ap_id` is an `unsigned int`. -/
structure wps_er where
  ptr : Nat
  wps : Nat
  ip_addr_text : List Char
  multicast_sd : Int
  ssdp_sd : Int
  ap : List wps_er_ap
  http_port : Int
  next_ap_id : Nat
deriving DecidableEq, Repr

/-- Calls into the HTTP client and the WPS engine, in the order made. -/
inductive ext_call where
  | http_start (h : http_client)
  | http_free (h : http_client)
  | wps_init (cfg : wps_config)
  | wps_process_msg (w : wps_data) (op : wsc_op_code) (msg : List Nat)
  | wps_get_msg (w : wps_data)
  | wps_deinit (w : wps_data)
deriving DecidableEq, Repr

/-- The process state the registrar code reads and writes: its context, the
timer table of the event loop and the calls made to the collaborators. -/
structure Sys where
  er : wps_er
  timeouts : List eloop_timeout
  calls : List ext_call
deriving DecidableEq, Repr

/-- Width of `unsigned int`. -/
def UINT_MOD : Nat := 2 ^ 32

/-- State after `os_zalloc` of `struct wps_er` with the fields `wps_er_init`
sets before any AP is seen. -/
def er_fresh (ptr wps : Nat) (ip : List Char) (msd ssd port : Int) : Sys :=
  { er := { ptr := ptr, wps := wps, ip_addr_text := ip, multicast_sd := msd, ssdp_sd := ssd,
            ap := [], http_port := port, next_ap_id := 0 },
    timeouts := [], calls := [] }

/-! ## Stations: lookup and release -/

/-- The function `wps_er_sta_get`: first station of the AP with the given MAC. -/
def wps_er_sta_get (ap : wps_er_ap) (addr : List Nat) : Option wps_er_sta :=
  ap.sta.find? (fun sta => decide (sta.addr.take 6 = addr.take 6))

/-- The function `http_client_free`: nothing for NULL, otherwise the exchange is
aborted. -/
def http_client_free (calls : List ext_call) (h : Option http_client) : List ext_call :=
  match h with
  | none => calls
  | some c => calls ++ [ext_call.http_free c]

/-- The function `wps_er_sta_free`: deinitialise the engine if any, abort the
pending exchange, cancel the idle timer, release the record. -/
def wps_er_sta_free (s : Sys) (sta : wps_er_sta) : Sys :=
  let calls1 := match sta.wps with
    | some w => s.calls ++ [ext_call.wps_deinit w]
    | none => s.calls
  { s with
    calls := http_client_free calls1 sta.http,
    timeouts := eloop_cancel_timeout s.timeouts eloop_handler.sta_timeout sta.ptr 0 }

/-- The function `wps_er_sta_remove_all`: the list is detached from the AP and
every station of it is freed in order. -/
def wps_er_sta_remove_all (s : Sys) (ap : wps_er_ap) : Sys × wps_er_ap :=
  (ap.sta.foldl wps_er_sta_free s, { ap with sta := [] })

/-! ## AP registry -/

/-- The function `wps_er_ap_get`: first AP with the given IPv4 address. -/
def wps_er_ap_get (er : wps_er) (addr : Nat) : Option wps_er_ap :=
  er.ap.find? (fun ap => decide (ap.addr = addr))

/-- The function `wps_er_ap_get_id`: first AP with the given id. -/
def wps_er_ap_get_id (er : wps_er) (id : Nat) : Option wps_er_ap :=
  er.ap.find? (fun ap => decide (ap.id = id))

/-- The function `wps_er_ap_free`: cancel the expiry timer, abort the pending
exchange, free the stations, release the record.  The function does not touch
`er->ap`; memory is not modelled, so a record that is still linked when it is
freed stays in the list as it was. -/
def wps_er_ap_free (s : Sys) (ap : wps_er_ap) : Sys :=
  let s1 : Sys := { s with
    timeouts := eloop_cancel_timeout s.timeouts eloop_handler.ap_timeout s.er.ptr ap.ptr }
  let s2 : Sys := { s1 with calls := http_client_free s1.calls ap.http }
  (wps_er_sta_remove_all s2 ap).1

/-- The function `wps_er_ap_timeout`: the expiry callback; `ap` is the record
whose timer fired. -/
def wps_er_ap_timeout (s : Sys) (ap : wps_er_ap) : Sys :=
  wps_er_ap_free s ap

/-- What the allocating calls of `wps_er_ap_add` return: the address of the new
record (`os_zalloc`), whether `os_strdup` and `http_client_url` succeed. -/
structure ap_add_env where
  os_zalloc : Option Nat
  os_strdup : Bool
  http_client_url : Bool
deriving DecidableEq, Repr

/-- A record as `os_zalloc` returns it. -/
def ap_zalloc (p : Nat) : wps_er_ap :=
  { ptr := p, sta := [], addr := 0, location := none, http := none,
    friendly_name := none, manufacturer := none, manufacturer_url := none,
    model_description := none, model_name := none, model_number := none,
    model_url := none, serial_number := none, udn := none, upc := none,
    scpd_url := none, control_url := none, event_sub_url := none,
    subscribed := 0, id := 0 }

/-- The exchange `http_client_url(ap->location, NULL, 10000,
wps_er_http_dev_desc_cb, ap)` starts for the record at address `p`. -/
def dev_desc_get (p : Nat) (location : List Char) : http_client :=
  { url := some location, dst := none, req := none, arg := 10000,
    cb := http_cb.dev_desc_cb, ctx := p }

/-- The record `wps_er_ap_add` has filled in when it returns: zeroed by
`os_zalloc`, then `id`, `location`, `addr` and `http` assigned. -/
def ap_new (p id addr : Nat) (location : List Char) (h : Option http_client) : wps_er_ap :=
  { ap_zalloc p with id := id, location := some location, addr := addr, http := h }

/-- The function `wps_er_ap_add`. -/
def wps_er_ap_add (s : Sys) (addr : Nat) (location : List Char) (max_age : Int)
    (m : ap_add_env) : Sys :=
  match wps_er_ap_get s.er addr with
  | some ap =>
    let T := eloop_cancel_timeout s.timeouts eloop_handler.ap_timeout s.er.ptr ap.ptr
    { s with
      timeouts := eloop_register_timeout T max_age 0 eloop_handler.ap_timeout s.er.ptr ap.ptr }
  | none =>
    match m.os_zalloc with
    | none => s
    | some p =>
      let id := (s.er.next_ap_id + 1) % UINT_MOD
      let er1 : wps_er := { s.er with next_ap_id := id }
      if m.os_strdup = false then { s with er := er1 }
      else
        let h : Option http_client :=
          if m.http_client_url then some (dev_desc_get p location) else none
        { er := { er1 with ap := ap_new p id addr location h :: er1.ap },
          timeouts :=
            (eloop_register_timeout s.timeouts max_age 0 eloop_handler.ap_timeout s.er.ptr p),
          calls := (match h with
            | some c => s.calls ++ [ext_call.http_start c]
            | none => s.calls) }

/-- The loop of `wps_er_ap_remove`: unlink the first AP with the address and
hand it back. -/
def ap_unlink (addr : Nat) : List wps_er_ap → Option wps_er_ap × List wps_er_ap
  | [] => (none, [])
  | ap :: rest =>
    if ap.addr = addr then (some ap, rest)
    else ((ap_unlink addr rest).1, ap :: (ap_unlink addr rest).2)

/-- The function `wps_er_ap_remove`. -/
def wps_er_ap_remove (s : Sys) (addr : Nat) : Sys :=
  match (ap_unlink addr s.er.ap).1 with
  | none => s
  | some ap =>
    wps_er_ap_free { s with er := { s.er with ap := (ap_unlink addr s.er.ap).2 } } ap

/-- The function `wps_er_ap_remove_all`. -/
def wps_er_ap_remove_all (s : Sys) : Sys :=
  s.er.ap.foldl wps_er_ap_free { s with er := { s.er with ap := [] } }

/-! ## C library string functions -/

/-- The C string held in a buffer: the characters before the first NUL. -/
def c_str (buf : List Char) : List Char :=
  buf.takeWhile (fun c => c != Char.ofNat 0)

/-- The function `tolower` in the C locale. -/
def c_tolower (c : Char) : Char :=
  if 65 ≤ c.toNat ∧ c.toNat ≤ 90 then Char.ofNat (c.toNat + 32) else c

/-- The function `isspace` in the C locale. -/
def c_isspace (c : Char) : Bool :=
  c.toNat == 32 || (9 ≤ c.toNat && c.toNat ≤ 13)

/-- The function `os_strncmp` on C strings: zero when the first `n` characters agree. -/
def os_strncmp : List Char → List Char → Nat → Int
  | _, _, 0 => 0
  | [], [], _ + 1 => 0
  | [], b :: _, _ + 1 => - (b.toNat : Int)
  | a :: _, [], _ + 1 => (a.toNat : Int)
  | a :: as, b :: bs, n + 1 =>
    if a = b then os_strncmp as bs n else (a.toNat : Int) - (b.toNat : Int)

/-- The function `os_strncasecmp` on C strings: `os_strncmp` after `tolower`. -/
def os_strncasecmp : List Char → List Char → Nat → Int
  | _, _, 0 => 0
  | [], [], _ + 1 => 0
  | [], b :: _, _ + 1 => - ((c_tolower b).toNat : Int)
  | a :: _, [], _ + 1 => ((c_tolower a).toNat : Int)
  | a :: as, b :: bs, n + 1 =>
    if c_tolower a = c_tolower b then os_strncasecmp as bs n
    else ((c_tolower a).toNat : Int) - ((c_tolower b).toNat : Int)

/-- The function `os_strstr`: the rest of the string from the first occurrence of `needle`,
or `none` (NULL) when it does not occur. -/
def os_strstr : List Char → List Char → Option (List Char)
  | [], needle => if needle = [] then some [] else none
  | c :: rest, needle =>
    if needle.isPrefixOf (c :: rest) then some (c :: rest) else os_strstr rest needle

/-- The decimal digits at the head of a string, accumulated onto `acc`. -/
def atoi_digits : List Char → Int → Int
  | [], acc => acc
  | c :: rest, acc =>
    if 48 ≤ c.toNat ∧ c.toNat ≤ 57 then atoi_digits rest (acc * 10 + ((c.toNat : Int) - 48))
    else acc

/-- The function `atoi`: leading white space, an optional sign, decimal digits.  The value
is not reduced to the range of `int` (C leaves overflow undefined). -/
def atoi (s : List Char) : Int :=
  match s.dropWhile c_isspace with
  | [] => 0
  | c :: rest =>
    if c = '-' then - atoi_digits rest 0
    else if c = '+' then atoi_digits rest 0
    else atoi_digits (c :: rest) 0

/-! ## SSDP listener -/

/-- The two URNs `wps_er_ssdp_rx` looks for. -/
def urn_wfadevice : List Char := "schemas-wifialliance-org:device:WFADevice:1".toList

/-- The service URN `wps_er_ssdp_rx` looks for. -/
def urn_wfawlanconfig_service : List Char :=
  "schemas-wifialliance-org:service:WFAWLANConfig:1".toList

/-- The locals of `wps_er_ssdp_rx` that the header loop sets. -/
structure ssdp_vars where
  wfa : Bool
  byebye : Bool
  max_age : Int
  location : Option (List Char)
deriving DecidableEq, Repr

/-- Initial values of the locals: `wfa = 0, byebye = 0, max_age = -1,
location = NULL`. -/
def ssdp_vars_init : ssdp_vars :=
  { wfa := false, byebye := false, max_age := -1, location := none }

/-- The line just cut at `pos`: when the character before the newline is a
carriage return it is overwritten with NUL as well.  `cur` is the line in
reverse. -/
def ssdp_cut (cur : List Char) : List Char :=
  match cur with
  | c :: rest => if c = '\r' then rest.reverse else (c :: rest).reverse
  | [] => []

/-- The strings `start` takes in the loop of `wps_er_ssdp_rx`, in order: the
buffer is cut at every newline, and the loop stops when `*start` is NUL.  `cur`
collects the current line in reverse. -/
def ssdp_lines : List Char → List Char → List (List Char)
  | [], cur => if cur = [] then [] else [cur.reverse]
  | c :: rest, cur =>
    if c = '\n' then ssdp_cut cur :: ssdp_lines rest [] else ssdp_lines rest (c :: cur)

/-- One pass of the loop body of `wps_er_ssdp_rx` over the line at `start`. -/
def ssdp_line (v : ssdp_vars) (start : List Char) : ssdp_vars :=
  let v1 : ssdp_vars :=
    if (os_strstr start urn_wfadevice).isSome then { v with wfa := true } else v
  let v2 : ssdp_vars :=
    if (os_strstr start urn_wfawlanconfig_service).isSome then { v1 with wfa := true } else v1
  if os_strncasecmp start "LOCATION:".toList 9 = 0 then
    { v2 with location := some ((start.drop 9).dropWhile (fun c => c == ' ')) }
  else if os_strncasecmp start "NTS:".toList 4 = 0 then
    if (os_strstr start "ssdp:byebye".toList).isSome then { v2 with byebye := true } else v2
  else if os_strncasecmp start "CACHE-CONTROL:".toList 14 = 0 then
    match os_strstr ((start.drop 9).dropWhile (fun c => c == ' ')) "max-age=".toList with
    | none => v2
    | some pos2 => { v2 with max_age := atoi (pos2.drop 8) }
  else v2

/-- The header loop of `wps_er_ssdp_rx` over the received string. -/
def ssdp_scan (buf : List Char) : ssdp_vars :=
  (ssdp_lines buf []).foldl ssdp_line ssdp_vars_init

/-- The first-line check of `wps_er_ssdp_rx`: what the datagram must start with
depends on the socket it came from. -/
def ssdp_first_line_ok (er : wps_er) (sd : Int) (buf : List Char) : Bool :=
  if sd = er.multicast_sd then decide (os_strncmp buf "HTTP/1.1 200 OK".toList 15 = 0)
  else decide (os_strncmp buf "NOTIFY ".toList 7 = 0)

/-- The function `wps_er_ssdp_rx`.  `nread` and `data` are what `recvfrom` returned and
stored, `src` is the sender address it reported; `m` is what the allocations of
`wps_er_ap_add` return. -/
def wps_er_ssdp_rx (s : Sys) (sd : Int) (nread : Int) (data : List Char) (src : Nat)
    (m : ap_add_env) : Sys :=
  if nread ≤ 0 then s
  else
    let buf := c_str (data.take nread.toNat)
    if ssdp_first_line_ok s.er sd buf = false then s
    else
      let v := ssdp_scan buf
      if v.wfa = false then s
      else if v.byebye then wps_er_ap_remove s src
      else
        match v.location with
        | none => s
        | some location =>
          if v.max_age < 1 then s
          else wps_er_ap_add s src location v.max_age m

/-- The NOTIFY of scenario S1 of the specification. -/
def notify_s1 : List Char :=
  ("NOTIFY * HTTP/1.1\r\nNT: urn:schemas-wifialliance-org:device:WFADevice:1\r\n" ++
   "LOCATION: http://192.0.2.5:80/desc.xml\r\nCACHE-CONTROL: max-age=1800\r\n\r\n").toList

/-! ## Station records -/

/-- The attributes `wps_parse_msg` reports (`struct wps_parse_attr`), as far as
`wps_er.c` reads them.  A pointer member is `none` when NULL; a byte string
carries its length. -/
structure wps_parse_attr where
  msg_type : Option Nat
  config_methods : Option (Nat × Nat)
  uuid_e : Option (List Nat)
  primary_dev_type : Option (List Nat)
  dev_password_id : Option (Nat × Nat)
  manufacturer : Option (List Nat)
  model_name : Option (List Nat)
  model_number : Option (List Nat)
  serial_number : Option (List Nat)
  dev_name : Option (List Nat)
deriving DecidableEq, Repr

/-- The macro `WPA_GET_BE16`: the 16-bit value of two bytes, most significant first. -/
def WPA_GET_BE16 (a : Nat × Nat) : Nat :=
  (a.1 % 256) * 256 + a.2 % 256

/-- The call `os_memcpy(dst, src, n)` on byte arrays. -/
def os_memcpy (dst src : List Nat) (n : Nat) : List Nat :=
  src.take n ++ dst.drop n

/-- What the allocating calls on the station path return: the address of a new
station record (`os_zalloc`), whether each `os_malloc` of a string succeeds,
and whether `base64_encode`, `wpabuf_alloc` and `http_client_addr` succeed when
a reply is sent. -/
structure sta_env where
  os_zalloc : Option Nat
  malloc_manufacturer : Bool
  malloc_model_name : Bool
  malloc_model_number : Bool
  malloc_serial_number : Bool
  malloc_dev_name : Bool
  wpabuf_alloc : Bool
  http_client_addr : Bool
deriving DecidableEq, Repr

/-- A station record as `os_zalloc` returns it. -/
def sta_zalloc (p : Nat) : wps_er_sta :=
  { ptr := p, addr := List.replicate 6 0, config_methods := 0,
    uuid := List.replicate 16 0, pri_dev_type := List.replicate 8 0,
    dev_passwd_id := 0, m1_received := false,
    manufacturer := none, model_name := none, model_number := none,
    serial_number := none, dev_name := none, wps := none, http := none }

/-- One of the five string blocks of `wps_er_add_sta_data`: when the attribute
is present the old string is freed and replaced by a NUL-terminated copy, or by
NULL when `os_malloc` fails. -/
def sta_set_str (old : Option (List Nat)) (attr : Option (List Nat)) (malloc_ok : Bool) :
    Option (List Nat) :=
  match attr with
  | none => old
  | some a => if malloc_ok then some (a ++ [0]) else none

/-- The field updates of `wps_er_add_sta_data` on the record it found or
created (everything between the lookup and the timer calls). -/
def sta_set_data (sta : wps_er_sta) (attr : wps_parse_attr) (probe_req : Int) (m : sta_env) :
    wps_er_sta :=
  let sta1 : wps_er_sta := if probe_req = 0 then { sta with m1_received := true } else sta
  let sta2 : wps_er_sta :=
    match attr.config_methods with
    | some a =>
      if probe_req = 0 ∨ sta1.m1_received = false then
        { sta1 with config_methods := WPA_GET_BE16 a }
      else sta1
    | none => sta1
  let sta3 : wps_er_sta :=
    match attr.uuid_e with
    | some a =>
      if probe_req = 0 ∨ sta2.m1_received = false then
        { sta2 with uuid := os_memcpy sta2.uuid a 16 }
      else sta2
    | none => sta2
  let sta4 : wps_er_sta :=
    match attr.primary_dev_type with
    | some a =>
      if probe_req = 0 ∨ sta3.m1_received = false then
        { sta3 with pri_dev_type := os_memcpy sta3.pri_dev_type a 8 }
      else sta3
    | none => sta3
  let sta5 : wps_er_sta :=
    match attr.dev_password_id with
    | some a =>
      if probe_req = 0 ∨ sta4.m1_received = false then
        { sta4 with dev_passwd_id := WPA_GET_BE16 a }
      else sta4
    | none => sta4
  { sta5 with
    manufacturer := sta_set_str sta5.manufacturer attr.manufacturer m.malloc_manufacturer,
    model_name := sta_set_str sta5.model_name attr.model_name m.malloc_model_name,
    model_number := sta_set_str sta5.model_number attr.model_number m.malloc_model_number,
    serial_number := sta_set_str sta5.serial_number attr.serial_number m.malloc_serial_number,
    dev_name := sta_set_str sta5.dev_name attr.dev_name m.malloc_dev_name }

/-- The record `wps_er_add_sta_data` creates for a new MAC: zeroed by
`os_zalloc`, the six bytes of the MAC copied in. -/
def sta_new (p : Nat) (addr : List Nat) : wps_er_sta :=
  { sta_zalloc p with addr := os_memcpy (sta_zalloc p).addr addr 6 }

/-- Write through the pointer `wps_er_sta_get` returned: the first station of
the list with the MAC is the record written. -/
def sta_store (addr : List Nat) (new : wps_er_sta) : List wps_er_sta → List wps_er_sta
  | [] => []
  | x :: rest =>
    if x.addr.take 6 = addr.take 6 then new :: rest else x :: sta_store addr new rest

/-- The function `wps_er_add_sta_data`: the state, the AP with its station list, and the
station returned (`none` for NULL). -/
def wps_er_add_sta_data (s : Sys) (ap : wps_er_ap) (addr : List Nat) (attr : wps_parse_attr)
    (probe_req : Int) (m : sta_env) : Sys × wps_er_ap × Option wps_er_sta :=
  let rearm (sta : wps_er_sta) : List eloop_timeout :=
    eloop_register_timeout
      (eloop_cancel_timeout s.timeouts eloop_handler.sta_timeout sta.ptr 0)
      300 0 eloop_handler.sta_timeout sta.ptr 0
  match wps_er_sta_get ap addr with
  | some sta0 =>
    let sta := sta_set_data sta0 attr probe_req m
    ({ s with timeouts := rearm sta }, { ap with sta := sta_store addr sta ap.sta }, some sta)
  | none =>
    match m.os_zalloc with
    | none => (s, ap, none)
    | some p =>
      let sta := sta_set_data (sta_new p addr) attr probe_req m
      ({ s with timeouts := rearm sta }, { ap with sta := sta :: ap.sta }, some sta)

/-- The function `wps_er_sta_timeout`: the idle-timer callback. -/
def wps_er_sta_timeout (s : Sys) (sta : wps_er_sta) : Sys :=
  wps_er_sta_free s sta

/-! ## Collaborators -/

/-- The functions and constants `wps_er.c` takes from the rest of the program:
the attribute parser, the WPS engine, the URL parser, the base64 encoder and
the message-type codes of `wps_defs.h`.  A `none` result stands for NULL (or
for the negative return of `wps_parse_msg`). -/
structure collab where
  wps_parse_msg : List Nat → Option wps_parse_attr
  wps_init : wps_config → Option wps_data
  wps_process_msg : wps_data → wsc_op_code → List Nat → wps_process_res × wps_data
  wps_get_msg : wps_data → Option (List Nat) × wps_data
  http_client_url_parse : List Char → Option (sockaddr_in × List Char)
  base64_encode : List Nat → Option (List Char)
  WPS_M1 : Nat
  WPS_WSC_ACK : Nat
  WPS_WSC_NACK : Nat
  WPS_WSC_DONE : Nat

/-! ## SOAP requests -/

/-- The output of `printf("%d")` of a natural number. -/
def c_decimal (n : Nat) : List Char :=
  Nat.toDigits 10 n

/-- The value of `(int) n`. -/
def to_int32 (n : Nat) : Int :=
  ((n + 2 ^ 31) % 2 ^ 32 : Nat) - 2 ^ 31

/-- The output of `printf("%d")` of an `int`. -/
def c_printf_d (i : Int) : List Char :=
  if i < 0 then '-' :: c_decimal i.natAbs else c_decimal i.natAbs

/-- The output of `printf("%02x")` of a byte. -/
def c_hex2 (b : Nat) : List Char :=
  [Nat.digitChar ((b % 256) / 16), Nat.digitChar (b % 16)]

/-- The format `MACSTR` with `MAC2STR(a)`: six bytes in hexadecimal, colon separated. -/
def mac2str (a : List Nat) : List Char :=
  c_hex2 (a.getD 0 0) ++ ':' :: c_hex2 (a.getD 1 0) ++ ':' :: c_hex2 (a.getD 2 0) ++
  ':' :: c_hex2 (a.getD 3 0) ++ ':' :: c_hex2 (a.getD 4 0) ++ ':' :: c_hex2 (a.getD 5 0)

/-- The function `inet_ntoa`: dotted quad, the first octet being the most significant byte
of the address value. -/
def inet_ntoa (a : Nat) : List Char :=
  c_decimal (a / 2 ^ 24 % 256) ++ '.' :: c_decimal (a / 2 ^ 16 % 256) ++
  '.' :: c_decimal (a / 2 ^ 8 % 256) ++ '.' :: c_decimal (a % 256)

/-- The constant `soap_prefix`. -/
def soap_prefix : List Char :=
  ("<?xml version=\"1.0\"?>\n" ++
   "<s:Envelope xmlns:s=\"http://schemas.xmlsoap.org/soap/envelope/\" " ++
   "s:encodingStyle=\"http://schemas.xmlsoap.org/soap/encoding/\">\n" ++
   "<s:Body>\n").toList

/-- The constant `soap_postfix`. -/
def soap_postfix : List Char :=
  "</s:Body>\n</s:Envelope>\n".toList

/-- The constant `urn_wfawlanconfig`. -/
def urn_wfawlanconfig : List Char :=
  "urn:schemas-wifialliance-org:service:WFAWLANConfig:1".toList

/-- The function `wps_er_soap_hdr`: the buffer written so far, with `len_ptr` and `body_ptr`
as offsets into it; `none` when the encoding or the buffer allocation fails.
The buffer is a plain list, without the capacity of the `wpabuf`. -/
def wps_er_soap_hdr (X : collab) (msg : List Nat) (name path : List Char) (dst : sockaddr_in)
    (wpabuf_alloc : Bool) : Option (List Char × Nat × Nat) :=
  match X.base64_encode msg with
  | none => none
  | some encoded =>
    if wpabuf_alloc = false then none
    else
      let b1 : List Char :=
        "POST ".toList ++ path ++ " HTTP/1.1\r\nHost: ".toList ++ inet_ntoa dst.sin_addr ++
        ":".toList ++ c_decimal dst.sin_port ++
        "\r\nContent-Type: text/xml; charset=\"utf-8\"\r\nContent-Length: ".toList
      let b2 : List Char :=
        b1 ++ "        \r\nSOAPACTION: \"".toList ++ urn_wfawlanconfig ++ "#".toList ++ name ++
        "\"\r\n\r\n".toList
      let b3 : List Char :=
        b2 ++ soap_prefix ++ "<u:".toList ++ name ++ " xmlns:u=\"".toList ++
        urn_wfawlanconfig ++ "\">\n".toList ++
        "<NewMessage>".toList ++ encoded ++ "</NewMessage>\n".toList
      some (b3, b1.length, b2.length)

/-- The function `wps_er_soap_end`: close the envelope, print the body length into the
10-byte `len_buf` and copy its characters to `len_ptr`. -/
def wps_er_soap_end (buf name : List Char) (len_ptr body_ptr : Nat) : List Char :=
  let buf1 : List Char := buf ++ "</u:".toList ++ name ++ ">\n".toList ++ soap_postfix
  let len_buf : List Char := (c_printf_d (to_int32 (buf1.length - body_ptr))).take 9
  buf1.take len_ptr ++ len_buf ++ buf1.drop (len_ptr + len_buf.length)

/-! ## Station sessions -/

/-- Modelled from the spec: the event type of an EAP WLANEvent, the constant
`UPNP_WPS_WLANEVENT_TYPE_EAP` of `wps_upnp.h`, is 2. -/
def UPNP_WPS_WLANEVENT_TYPE_EAP : Nat := 2

/-- The function `wps_er_sta_send_msg`: the station after the call; `ap` is `sta->ap`. -/
def wps_er_sta_send_msg (X : collab) (s : Sys) (ap : wps_er_ap) (sta : wps_er_sta)
    (msg : List Nat) (m : sta_env) : Sys × wps_er_sta :=
  if sta.http.isSome then (s, sta)
  else
    match ap.control_url with
    | none => (s, sta)
    | some control_url =>
      match X.http_client_url_parse control_url with
      | none => (s, sta)
      | some (dst, path) =>
        match wps_er_soap_hdr X msg "PutWLANResponse".toList path dst m.wpabuf_alloc with
        | none => (s, sta)
        | some (buf, len_ptr, body_ptr) =>
          let buf1 : List Char :=
            buf ++ "<NewWLANEventType>".toList ++ c_decimal UPNP_WPS_WLANEVENT_TYPE_EAP ++
            "</NewWLANEventType>\n".toList
          let buf2 : List Char :=
            buf1 ++ "<NewWLANEventMAC>".toList ++ mac2str sta.addr ++
            "</NewWLANEventMAC>\n".toList
          let req := wps_er_soap_end buf2 "PutWLANResponse".toList len_ptr body_ptr
          if m.http_client_addr then
            let h : http_client :=
              { url := none, dst := some dst, req := some req, arg := 1000,
                cb := http_cb.put_wlan_response_cb, ctx := sta.ptr }
            ({ s with calls := s.calls ++ [ext_call.http_start h] }, { sta with http := some h })
          else (s, sta)

/-- The function `wps_er_sta_process`; `none` when `sta->wps` is NULL, which the engine is
handed unchecked. -/
def wps_er_sta_process (X : collab) (s : Sys) (ap : wps_er_ap) (sta : wps_er_sta)
    (msg : List Nat) (op_code : wsc_op_code) (m : sta_env) : Option (Sys × wps_er_sta) :=
  match sta.wps with
  | none => none
  | some w =>
    let r := X.wps_process_msg w op_code msg
    let s1 : Sys := { s with calls := s.calls ++ [ext_call.wps_process_msg w op_code msg] }
    let sta1 : wps_er_sta := { sta with wps := some r.2 }
    if r.1 = wps_process_res.WPS_CONTINUE then
      let g := X.wps_get_msg r.2
      let s2 : Sys := { s1 with calls := s1.calls ++ [ext_call.wps_get_msg r.2] }
      let sta2 : wps_er_sta := { sta1 with wps := some g.2 }
      match g.1 with
      | some next => some (wps_er_sta_send_msg X s2 ap sta2 next m)
      | none => some (s2, sta2)
    else some (s1, sta1)

/-- The function `wps_er_sta_start`; `er` supplies `sta->ap->er->wps`. -/
def wps_er_sta_start (X : collab) (s : Sys) (ap : wps_er_ap) (sta : wps_er_sta)
    (msg : List Nat) (m : sta_env) : Option (Sys × wps_er_sta) :=
  let s1 : Sys :=
    match sta.wps with
    | some w => { s with calls := s.calls ++ [ext_call.wps_deinit w] }
    | none => s
  let cfg : wps_config := { wps := s.er.wps, registrar := 1, peer_addr := sta.addr }
  let s2 : Sys := { s1 with calls := s1.calls ++ [ext_call.wps_init cfg] }
  match X.wps_init cfg with
  | none => some (s2, { sta with wps := none })
  | some w => wps_er_sta_process X s2 ap { sta with wps := some w } msg wsc_op_code.WSC_MSG m

/-- The function `wps_er_process_wlanevent_probe_req`. -/
def wps_er_process_wlanevent_probe_req (X : collab) (s : Sys) (ap : wps_er_ap)
    (addr : List Nat) (msg : List Nat) (m : sta_env) : Sys × wps_er_ap :=
  match X.wps_parse_msg msg with
  | none => (s, ap)
  | some attr =>
    let r := wps_er_add_sta_data s ap addr attr 1 m
    (r.1, r.2.1)

/-- The op-code `wps_er_process_wlanevent_eap` selects for a message that is
not M1. -/
def eap_op_code (X : collab) (msg_type : Option Nat) : wsc_op_code :=
  match msg_type with
  | none => wsc_op_code.WSC_MSG
  | some t =>
    if t = X.WPS_WSC_ACK then wsc_op_code.WSC_ACK
    else if t = X.WPS_WSC_NACK then wsc_op_code.WSC_NACK
    else if t = X.WPS_WSC_DONE then wsc_op_code.WSC_Done
    else wsc_op_code.WSC_MSG

/-- The function `wps_er_process_wlanevent_eap`.  The result is `none` when the function
dereferences the NULL that `wps_er_add_sta_data` returned. -/
def wps_er_process_wlanevent_eap (X : collab) (s : Sys) (ap : wps_er_ap)
    (addr : List Nat) (msg : List Nat) (m : sta_env) : Option (Sys × wps_er_ap) :=
  match X.wps_parse_msg msg with
  | none => some (s, ap)
  | some attr =>
    let r := wps_er_add_sta_data s ap addr attr 0 m
    match r.2.2 with
    | none => none
    | some sta =>
      if attr.msg_type = some X.WPS_M1 then
        (wps_er_sta_start X r.1 r.2.1 sta msg m).map
          (fun q => (q.1, { r.2.1 with sta := sta_store addr q.2 r.2.1.sta }))
      else if sta.wps.isSome then
        (wps_er_sta_process X r.1 r.2.1 sta msg (eap_op_code X attr.msg_type) m).map
          (fun q => (q.1, { r.2.1 with sta := sta_store addr q.2 r.2.1.sta }))
      else some (r.1, r.2.1)

/-! ## WLANEvent -/

/-- Modelled from the spec: `hex2num`, the value of a hexadecimal digit (the
MAC parser is not in `wps_er.c`). -/
def hex2num (c : Nat) : Option Nat :=
  if 48 ≤ c ∧ c ≤ 57 then some (c - 48)
  else if 97 ≤ c ∧ c ≤ 102 then some (c - 97 + 10)
  else if 65 ≤ c ∧ c ≤ 70 then some (c - 65 + 10)
  else none

/-- Modelled from the spec: the loop of the MAC parser, `k` bytes to go. -/
def hwaddr_aton_loop : Nat → List Nat → Option (List Nat)
  | 0, _ => some []
  | k + 1, a :: b :: rest =>
    match hex2num a, hex2num b with
    | some x, some y =>
      if k = 0 then some [x * 16 + y]
      else
        match rest with
        | c :: rest1 =>
          if c = 58 then (hwaddr_aton_loop k rest1).map (fun l => (x * 16 + y) :: l) else none
        | [] => none
    | _, _ => none
  | _ + 1, _ => none

/-- Modelled from the spec: `hwaddr_aton`, the parser of the 17-character ASCII
MAC `xx:xx:xx:xx:xx:xx` (it is not in `wps_er.c`); `none` for a parse failure. -/
def hwaddr_aton (txt : List Nat) : Option (List Nat) :=
  hwaddr_aton_loop 6 txt

/-- The function `wps_er_process_wlanevent` on the decoded event buffer. -/
def wps_er_process_wlanevent (X : collab) (s : Sys) (ap : wps_er_ap) (event : List Nat)
    (m : sta_env) : Option (Sys × wps_er_ap) :=
  if event.length < 1 + 17 then some (s, ap)
  else
    let wlan_event_type := event.headD 0
    match hwaddr_aton (event.drop 1) with
    | none => some (s, ap)
    | some wlan_event_mac =>
      let msg := event.drop (1 + 17)
      if wlan_event_type = 1 then
        some (wps_er_process_wlanevent_probe_req X s ap wlan_event_mac msg m)
      else if wlan_event_type = 2 then
        wps_er_process_wlanevent_eap X s ap wlan_event_mac msg m
      else some (s, ap)

/-- The values of the locals after the header loop, for what `recvfrom` stored. -/
def ssdp_rx_vars (nread : Int) (data : List Char) : ssdp_vars :=
  ssdp_scan (c_str (data.take nread.toNat))

/-! ## Registry runs -/

/-- Modelled from the spec: when the expiry timer keyed to the record at address
`p` fires, the event loop takes it out of its table and runs the callback
`wps_er_ap_timeout(er, ap)`. -/
def eloop_fire_ap_timeout (s : Sys) (p : Nat) : Sys :=
  match s.timeouts.find? (fun t => t.is_for eloop_handler.ap_timeout s.er.ptr p),
        s.er.ap.find? (fun ap => decide (ap.ptr = p)) with
  | some t, some ap => wps_er_ap_timeout { s with timeouts := s.timeouts.erase t } ap
  | _, _ => s

/-- The operations that touch the AP registry. -/
inductive reg_op where
  | add (addr : Nat) (location : List Char) (max_age : Int) (m : ap_add_env)
  | remove (addr : Nat)
  | remove_all
  | timeout (p : Nat)
deriving DecidableEq, Repr

/-- One registry operation. -/
def reg_step (s : Sys) : reg_op → Sys
  | reg_op.add addr location max_age m => wps_er_ap_add s addr location max_age m
  | reg_op.remove addr => wps_er_ap_remove s addr
  | reg_op.remove_all => wps_er_ap_remove_all s
  | reg_op.timeout p => eloop_fire_ap_timeout s p

/-- A sequence of registry operations. -/
def reg_run (s : Sys) (ops : List reg_op) : Sys :=
  ops.foldl reg_step s

/-- The id of the AP a step linked into the registry, if it linked one. -/
def ap_created (s s1 : Sys) : List Nat :=
  if s1.er.ap.length = s.er.ap.length + 1 then (s1.er.ap.take 1).map (fun ap => ap.id) else []

/-- The ids of the APs created along a run, in order of creation. -/
def reg_run_ids : Sys → List reg_op → List Nat
  | _, [] => []
  | s, op :: ops => ap_created s (reg_step s op) ++ reg_run_ids (reg_step s op) ops

/-- Number of `wps_er_ap_add` calls in a run. -/
def reg_adds : List reg_op → Nat
  | [] => 0
  | reg_op.add _ _ _ _ :: ops => reg_adds ops + 1
  | _ :: ops => reg_adds ops

/-- Every `wps_er_ap_add` of the run gets its copy of the location string. -/
def reg_strdup_ok : List reg_op → Bool
  | [] => true
  | reg_op.add _ _ _ m :: ops => m.os_strdup && reg_strdup_ok ops
  | _ :: ops => reg_strdup_ok ops

/-- Number of armed expiry timers keyed to the AP record at address `p`. -/
def ap_timer_count (s : Sys) (p : Nat) : Nat :=
  (s.timeouts.filter (fun t => t.is_for eloop_handler.ap_timeout s.er.ptr p)).length

/-- The timer invariant of the registry: every AP in the list has exactly one
armed expiry timer, and every armed expiry timer is keyed to an AP in the list. -/
def ap_timers_ok (s : Sys) : Bool :=
  s.er.ap.all (fun ap => ap_timer_count s ap.ptr == 1) &&
  s.timeouts.all (fun t =>
    t.handler != eloop_handler.ap_timeout ||
    (t.eloop_data == s.er.ptr && s.er.ap.any (fun ap => ap.ptr == t.user_ctx)))

/-- No two APs of the registry have the same IPv4 address. -/
def ap_addr_unique (er : wps_er) : Prop :=
  (er.ap.map (fun ap => ap.addr)).Nodup

instance (er : wps_er) : Decidable (ap_addr_unique er) :=
  inferInstanceAs (Decidable ((er.ap.map (fun ap : wps_er_ap => ap.addr)).Nodup))

/-- Allocations that all succeed, the new record being at address `p`. -/
def env_ok (p : Nat) : ap_add_env :=
  { os_zalloc := some p, os_strdup := true, http_client_url := true }

/-- The record allocation succeeds at `p`, the copy of the location fails. -/
def env_strdup_fails (p : Nat) : ap_add_env :=
  { os_zalloc := some p, os_strdup := false, http_client_url := true }

/-- The record allocation fails. -/
def env_zalloc_fails : ap_add_env :=
  { os_zalloc := none, os_strdup := true, http_client_url := true }

/-- A freshly initialised registrar: sockets 3 and 4, HTTP port 49152. -/
def er0 : Sys :=
  er_fresh 4096 8192 "192.0.2.1".toList 3 4 49152

/-- The location of scenario S1. -/
def loc_s1 : List Char := "http://192.0.2.5:80/desc.xml".toList

/-- The registrar after the discovery of scenario S1: one AP, from 192.0.2.5. -/
def er1 : Sys :=
  wps_er_ap_add er0 3221225989 loc_s1 1800 (env_ok 12288)

/-- The AP record the discovery of scenario S1 creates. -/
def ap1 : wps_er_ap :=
  ap_new 12288 1 3221225989 loc_s1 (some (dev_desc_get 12288 loc_s1))

/-- A run in which the first `wps_er_ap_add` gets its record but not the copy
of the location, and the second one succeeds. -/
def ops_strdup_fails_first : List reg_op :=
  [reg_op.add 3221225989 loc_s1 1800 (env_strdup_fails 12288),
   reg_op.add 3221225989 loc_s1 1800 (env_ok 12288)]

/-- The AP at 192.0.2.5 is discovered and says byebye, `k` times over. -/
def reg_cycles : Nat → List reg_op
  | 0 => []
  | k + 1 =>
    reg_op.add 3221225989 loc_s1 1800 (env_ok 12288) :: reg_op.remove 3221225989 ::
      reg_cycles k

/-- The AP is discovered and says byebye 2^32 times, and is discovered again. -/
def ops_wrap : List reg_op :=
  reg_cycles UINT_MOD ++ [reg_op.add 3221225989 loc_s1 1800 (env_ok 12288)]

/-- A short run: discovery, byebye, discovery. -/
def ops_short : List reg_op :=
  [reg_op.add 3221225989 loc_s1 1800 (env_ok 12288), reg_op.remove 3221225989,
   reg_op.add 3221225989 loc_s1 1800 (env_ok 12288)]

/-- Discovery events for one address and location, each with its max-age and
with what its allocations return, applied through `wps_er_ap_add` in order. -/
def discover (s : Sys) (a : Nat) (location : List Char) (events : List (Int × ap_add_env)) :
    Sys :=
  events.foldl (fun st e => wps_er_ap_add st a location e.1 e.2) s

/-- The record and the location copy are allocated, the HTTP client is not. -/
def env_http_fails (p : Nat) : ap_add_env :=
  { os_zalloc := some p, os_strdup := true, http_client_url := false }

/-! ## Station examples -/

/-- Station allocations that all succeed, a new record being at address `p`. -/
def sta_env_ok (p : Nat) : sta_env :=
  { os_zalloc := some p, malloc_manufacturer := true, malloc_model_name := true,
    malloc_model_number := true, malloc_serial_number := true, malloc_dev_name := true,
    wpabuf_alloc := true, http_client_addr := true }

/-- The MAC `02:00:00:00:00:01` of scenarios S4 and S5. -/
def mac_s4 : List Nat := [2, 0, 0, 0, 0, 1]

/-- A station that has sent an M1: `m1_received` is set, manufacturer "Old",
device name "Foo", config methods 0x0080. -/
def sta_m1 : wps_er_sta :=
  { sta_zalloc 20480 with
    addr := mac_s4, m1_received := true, config_methods := 128,
    manufacturer := some [79, 108, 100, 0], dev_name := some [70, 111, 111, 0] }

/-- The AP of scenario S1 with that station in its list. -/
def ap1_sta : wps_er_ap :=
  { ap1 with sta := [sta_m1] }

/-- Attributes of a Probe Request: all four fixed fields and two strings,
manufacturer "New" and device name "Bar". -/
def attr_probe : wps_parse_attr :=
  { msg_type := none, config_methods := some (1, 8), uuid_e := some (List.replicate 16 7),
    primary_dev_type := some (List.replicate 8 9), dev_password_id := some (0, 4),
    manufacturer := some [78, 101, 119], model_name := none, model_number := none,
    serial_number := none, dev_name := some [66, 97, 114] }

/-- One call of `wps_er_add_sta_data`: the MAC, the attributes, the
`probe_req` flag and what the allocations return. -/
structure sta_upsert where
  addr : List Nat
  attr : wps_parse_attr
  probe_req : Int
  m : sta_env
deriving DecidableEq, Repr

/-- A sequence of `wps_er_add_sta_data` calls on one AP. -/
def sta_upserts (s : Sys) (ap : wps_er_ap) (ups : List sta_upsert) : Sys × wps_er_ap :=
  ups.foldl
    (fun st u =>
      ((wps_er_add_sta_data st.1 st.2 u.addr u.attr u.probe_req u.m).1,
       (wps_er_add_sta_data st.1 st.2 u.addr u.attr u.probe_req u.m).2.1))
    (s, ap)

/-- Attributes of an M1 with nothing but the message type. -/
def attr_m1 : wps_parse_attr :=
  { msg_type := some 4, config_methods := none, uuid_e := none, primary_dev_type := none,
    dev_password_id := none, manufacturer := none, model_name := none, model_number := none,
    serial_number := none, dev_name := none }

/-- A stand-in for the collaborators, to evaluate the station path on concrete
events: the parser reports the payload as the device name and its first byte as
the message type, the engine always continues with the reply `[16, 74]`. -/
def collab0 : collab :=
  { wps_parse_msg := fun msg =>
      some { attr_m1 with msg_type := msg.head?, dev_name := some msg },
    wps_init := fun cfg => some { cfg := cfg, st := 0 },
    wps_process_msg := fun w _ _ => (wps_process_res.WPS_CONTINUE, { w with st := w.st + 1 }),
    wps_get_msg := fun w => (some [16, 74], w),
    http_client_url_parse := fun _ => some ({ sin_addr := 3221225989, sin_port := 80 }, ['/']),
    base64_encode := fun msg => some (msg.map (fun b => Char.ofNat (65 + b % 26))),
    WPS_M1 := 4, WPS_WSC_ACK := 13, WPS_WSC_NACK := 14, WPS_WSC_DONE := 15 }

/-- The text `02:00:00:00:00:01` as bytes. -/
def mac_s4_text : List Nat := "02:00:00:00:00:01".toList.map Char.toNat

/-- The WLANEvent of scenario S4: type 1, the MAC text, the payload "Foo". -/
def event_s4 : List Nat := 1 :: (mac_s4_text ++ [70, 111, 111])

/-- An EAP WLANEvent from the same station: type 2, the MAC text, one byte. -/
def event_eap : List Nat := 2 :: (mac_s4_text ++ [4])

/-- A WLANEvent of unknown type 3. -/
def event_type3 : List Nat := 3 :: (mac_s4_text ++ [70, 111, 111])

/-! ## Calls to the collaborators -/

/-- The messages fed to WPS engine instances, in order: the instance, the
op-code and the message of every `wps_process_msg` call. -/
def fed_msgs : List ext_call → List (wps_data × wsc_op_code × List Nat)
  | [] => []
  | ext_call.wps_process_msg w op msg :: rest => (w, op, msg) :: fed_msgs rest
  | _ :: rest => fed_msgs rest

/-- The configurations `wps_init` was called with, in order. -/
def wps_inits : List ext_call → List wps_config
  | [] => []
  | ext_call.wps_init cfg :: rest => cfg :: wps_inits rest
  | _ :: rest => wps_inits rest

/-- The engine instances handed to `wps_deinit`, in order. -/
def wps_deinits : List ext_call → List wps_data
  | [] => []
  | ext_call.wps_deinit w :: rest => w :: wps_deinits rest
  | _ :: rest => wps_deinits rest

/-- The outbound HTTP exchanges started, in order. -/
def http_starts : List ext_call → List http_client
  | [] => []
  | ext_call.http_start h :: rest => h :: http_starts rest
  | _ :: rest => http_starts rest

/-- The handles a station record holds: its address, its engine instance and
its pending HTTP exchange. -/
def sta_handles (sta : wps_er_sta) : Nat × Option wps_data × Option http_client :=
  (sta.ptr, sta.wps, sta.http)

/-- The six bytes `wps_er_sta_get` compares. -/
def sta_key (sta : wps_er_sta) : List Nat :=
  sta.addr.take 6

/-- Modelled from the spec: when the idle timer keyed to the station record at
address `p` fires, the event loop takes it out of its table and runs the
callback `wps_er_sta_timeout(sta, NULL)`.  The callback is given the station
only; `ap` is the AP whose list holds it, which the callback does not write. -/
def eloop_fire_sta_timeout (s : Sys) (ap : wps_er_ap) (p : Nat) : Sys × wps_er_ap :=
  match s.timeouts.find? (fun t => t.is_for eloop_handler.sta_timeout p 0),
        ap.sta.find? (fun sta => decide (sta.ptr = p)) with
  | some t, some sta => (wps_er_sta_timeout { s with timeouts := s.timeouts.erase t } sta, ap)
  | _, _ => (s, ap)

/-- The state and the AP after the Probe Request of scenario S4. -/
def er_s4 : Sys × wps_er_ap :=
  wps_er_process_wlanevent_probe_req collab0 er1 ap1 mac_s4 [70, 111, 111] (sta_env_ok 24576)

/-- Station allocations in which `os_zalloc` of the record fails. -/
def sta_env_zalloc_fails : sta_env :=
  { sta_env_ok 0 with os_zalloc := none }

/-- The stand-in collaborators with a WPS engine that refuses every M1:
`wps_init` returns NULL. -/
def collab_init_fails : collab :=
  { collab0 with wps_init := fun _ => none }

/-! ## Requests to an AP -/

/-- What the allocating calls of a request to an AP return: whether
`wpabuf_alloc` of the request buffer and `http_client_addr` succeed. -/
structure ap_req_env where
  wpabuf_alloc : Bool
  http_client_addr : Bool
deriving DecidableEq, Repr

/-- The exchange `http_client_addr(&dst, req, 1000, wps_er_http_subscribe_cb,
ap)` starts for the record at address `p`. -/
def subscribe_req (p : Nat) (dst : sockaddr_in) (req : List Char) : http_client :=
  { url := none, dst := some dst, req := some req, arg := 1000,
    cb := http_cb.subscribe_cb, ctx := p }

/-- The function `wps_er_subscribe`; `s.er` is `ap->er`.  The request buffer is a
plain list, without the capacity of the `wpabuf`. -/
def wps_er_subscribe (X : collab) (s : Sys) (ap : wps_er_ap) (m : ap_req_env) :
    Sys × wps_er_ap :=
  match ap.event_sub_url with
  | none => (s, ap)
  | some event_sub_url =>
    if ap.http.isSome then (s, ap)
    else
      match X.http_client_url_parse event_sub_url with
      | none => (s, ap)
      | some (dst, path) =>
        if m.wpabuf_alloc = false then (s, ap)
        else
          let req : List Char :=
            "SUBSCRIBE ".toList ++ path ++ " HTTP/1.1\r\nHOST: ".toList ++
            inet_ntoa dst.sin_addr ++ ":".toList ++ c_decimal dst.sin_port ++
            "\r\nCALLBACK: <http://".toList ++ s.er.ip_addr_text ++ ":".toList ++
            c_printf_d s.er.http_port ++ "/event/".toList ++ c_printf_d (to_int32 ap.id) ++
            ">\r\nNT: upnp:event\r\nTIMEOUT: Second-".toList ++ c_printf_d 1800 ++
            "\r\n\r\n".toList
          if m.http_client_addr then
            ({ s with calls := s.calls ++ [ext_call.http_start (subscribe_req ap.ptr dst req)] },
             { ap with http := some (subscribe_req ap.ptr dst req) })
          else (s, ap)

/-- The exchange `http_client_addr(&dst, buf, 1000, wps_er_http_set_sel_reg_cb,
ap)` starts for the record at address `p`. -/
def set_sel_reg_req (p : Nat) (dst : sockaddr_in) (req : List Char) : http_client :=
  { url := none, dst := some dst, req := some req, arg := 1000,
    cb := http_cb.set_sel_reg_cb, ctx := p }

/-- The function `wps_er_send_set_sel_reg`. -/
def wps_er_send_set_sel_reg (X : collab) (s : Sys) (ap : wps_er_ap) (msg : List Nat)
    (m : ap_req_env) : Sys × wps_er_ap :=
  match ap.control_url with
  | none => (s, ap)
  | some control_url =>
    if ap.http.isSome then (s, ap)
    else
      match X.http_client_url_parse control_url with
      | none => (s, ap)
      | some (dst, path) =>
        match wps_er_soap_hdr X msg "SetSelectedRegistrar".toList path dst m.wpabuf_alloc with
        | none => (s, ap)
        | some (buf, len_ptr, body_ptr) =>
          let req := wps_er_soap_end buf "SetSelectedRegistrar".toList len_ptr body_ptr
          if m.http_client_addr then
            ({ s with calls := s.calls ++ [ext_call.http_start (set_sel_reg_req ap.ptr dst req)] },
             { ap with http := some (set_sel_reg_req ap.ptr dst req) })
          else (s, ap)

/-! ## Selected registrar -/

/-- The attribute codes of `wps_defs.h` that `wps_er_set_sel_reg` writes, and
`wps_build_version` of the attribute builder: the bytes it appends to the
message, or `none` when it reports a failure. -/
structure wps_attrs where
  ATTR_SELECTED_REGISTRAR : Nat
  ATTR_DEV_PASSWORD_ID : Nat
  ATTR_SELECTED_REGISTRAR_CONFIG_METHODS : Nat
  wps_build_version : Option (List Nat)

/-- Modelled from the spec: `wpabuf_put_be16` appends a 16-bit value, most
significant byte first (the buffer functions are not in `wps_er.c`). -/
def wpabuf_put_be16 (buf : List Nat) (data : Nat) : List Nat :=
  buf ++ [data / 256 % 256, data % 256]

/-- Modelled from the spec: `wpabuf_put_u8` appends one byte. -/
def wpabuf_put_u8 (buf : List Nat) (data : Nat) : List Nat :=
  buf ++ [data % 256]

/-- The function `wps_er_build_selected_registrar`: the message and the value
returned. -/
def wps_er_build_selected_registrar (K : wps_attrs) (msg : List Nat) (sel_reg : Int) :
    List Nat × Int :=
  (wpabuf_put_u8 (wpabuf_put_be16 (wpabuf_put_be16 msg K.ATTR_SELECTED_REGISTRAR) 1)
    (if sel_reg ≠ 0 then 1 else 0), 0)

/-- The function `wps_er_build_dev_password_id`. -/
def wps_er_build_dev_password_id (K : wps_attrs) (msg : List Nat) (dev_passwd_id : Nat) :
    List Nat × Int :=
  (wpabuf_put_be16 (wpabuf_put_be16 (wpabuf_put_be16 msg K.ATTR_DEV_PASSWORD_ID) 2)
    dev_passwd_id, 0)

/-- The function `wps_er_build_sel_reg_config_methods`. -/
def wps_er_build_sel_reg_config_methods (K : wps_attrs) (msg : List Nat)
    (sel_reg_config_methods : Nat) : List Nat × Int :=
  (wpabuf_put_be16
    (wpabuf_put_be16 (wpabuf_put_be16 msg K.ATTR_SELECTED_REGISTRAR_CONFIG_METHODS) 2)
    sel_reg_config_methods, 0)

/-- The message `wps_er_set_sel_reg` builds in its buffer of 500 bytes: the
chain of the four builders, `none` as soon as one returns non-zero. -/
def set_sel_reg_msg (K : wps_attrs) (sel_reg : Int) (dev_passwd_id sel_reg_config_methods : Nat) :
    Option (List Nat) :=
  match K.wps_build_version with
  | none => none
  | some msg0 =>
    let r1 := wps_er_build_selected_registrar K msg0 sel_reg
    if r1.2 ≠ 0 then none
    else
      let r2 := wps_er_build_dev_password_id K r1.1 dev_passwd_id
      if r2.2 ≠ 0 then none
      else
        let r3 := wps_er_build_sel_reg_config_methods K r2.1 sel_reg_config_methods
        if r3.2 ≠ 0 then none else some r3.1

/-- What the allocating calls of `wps_er_set_sel_reg` return: `wpabuf_alloc` of
the message, and the allocations of the request to the AP at address `p`. -/
structure sel_reg_env where
  wpabuf_alloc : Bool
  ap : Nat → ap_req_env

/-- The loop of `wps_er_set_sel_reg` over the AP list: the state and the
records after `wps_er_send_set_sel_reg` has run on each AP in list order. -/
def set_sel_reg_loop (X : collab) (msg : List Nat) (m : Nat → ap_req_env) :
    Sys → List wps_er_ap → Sys × List wps_er_ap
  | s, [] => (s, [])
  | s, ap :: rest =>
    ((set_sel_reg_loop X msg m (wps_er_send_set_sel_reg X s ap msg (m ap.ptr)).1 rest).1,
     (wps_er_send_set_sel_reg X s ap msg (m ap.ptr)).2 ::
       (set_sel_reg_loop X msg m (wps_er_send_set_sel_reg X s ap msg (m ap.ptr)).1 rest).2)

/-- The function `wps_er_set_sel_reg`. -/
def wps_er_set_sel_reg (X : collab) (K : wps_attrs) (s : Sys) (sel_reg : Int)
    (dev_passwd_id sel_reg_config_methods : Nat) (m : sel_reg_env) : Sys :=
  if m.wpabuf_alloc = false then s
  else
    match set_sel_reg_msg K sel_reg dev_passwd_id sel_reg_config_methods with
    | none => s
    | some msg =>
      let r := set_sel_reg_loop X msg m.ap s s.er.ap
      { r.1 with er := { r.1.er with ap := r.2 } }

/-- An AP a control request can be sent to: it has a control URL, no exchange
is pending on it and the URL parser accepts the URL; the value is the parsed
destination and path. -/
def ap_ctrl_target (X : collab) (ap : wps_er_ap) : Option (sockaddr_in × List Char) :=
  match ap.control_url with
  | none => none
  | some control_url => if ap.http.isSome then none else X.http_client_url_parse control_url

/-- The SetSelectedRegistrar POST for one AP and one message: addressed to the
parsed control URL, the request being the SOAP header closed by
`wps_er_soap_end`; `none` when the AP cannot be sent to. -/
def set_sel_reg_post (X : collab) (msg : List Nat) (ap : wps_er_ap) : Option http_client :=
  (ap_ctrl_target X ap).bind (fun t =>
    (wps_er_soap_hdr X msg "SetSelectedRegistrar".toList t.2 t.1 true).map (fun b =>
      set_sel_reg_req ap.ptr t.1
        (wps_er_soap_end b.1 "SetSelectedRegistrar".toList b.2.1 b.2.2)))

/-- The attribute codes of the WPS specification (0x1041, 0x1012, 0x1053) and
the version attribute `10 4a 00 01 10`. -/
def attrs0 : wps_attrs :=
  { ATTR_SELECTED_REGISTRAR := 4161, ATTR_DEV_PASSWORD_ID := 4114,
    ATTR_SELECTED_REGISTRAR_CONFIG_METHODS := 4179,
    wps_build_version := some [16, 74, 0, 1, 16] }

/-- An AP whose description has been fetched: no exchange pending, control and
event URLs known. -/
def ap_described (p id addr : Nat) (location control_url event_sub_url : List Char) :
    wps_er_ap :=
  { ap_new p id addr location none with
    control_url := some control_url, event_sub_url := some event_sub_url }

/-- A registrar that knows two APs, both with their description fetched
(scenario S6): 192.0.2.5 with id 1 and 192.0.2.6 with id 2. -/
def er_s6 : Sys :=
  { er0 with er := { er0.er with
      next_ap_id := 2,
      ap := [ap_described 16384 2 3221225990 "http://192.0.2.6:80/desc.xml".toList
               "http://192.0.2.6:80/ctl".toList "http://192.0.2.6:80/evt".toList,
             ap_described 12288 1 3221225989 loc_s1
               "http://192.0.2.5:80/ctl".toList "http://192.0.2.5:80/evt".toList] } }

/-- Allocations of `wps_er_set_sel_reg` that all succeed. -/
def sel_reg_env_ok : sel_reg_env :=
  { wpabuf_alloc := true, ap := fun _ => { wpabuf_alloc := true, http_client_addr := true } }

/-! ## Layout of a SOAP request -/

/-- The request line and the headers up to and including `Content-Length: `. -/
def soap_req_head (path : List Char) (dst : sockaddr_in) : List Char :=
  "POST ".toList ++ path ++ " HTTP/1.1\r\nHost: ".toList ++ inet_ntoa dst.sin_addr ++
  ":".toList ++ c_decimal dst.sin_port ++
  "\r\nContent-Type: text/xml; charset=\"utf-8\"\r\nContent-Length: ".toList

/-- The placeholder of eight spaces reserved for the length. -/
def soap_req_pad : List Char :=
  List.replicate 8 ' '

/-- The end of the `Content-Length` line, the `SOAPACTION` header and the blank
line that ends the headers. -/
def soap_req_action (name : List Char) : List Char :=
  "\r\nSOAPACTION: \"".toList ++ urn_wfawlanconfig ++ "#".toList ++ name ++
  "\"\r\n\r\n".toList

/-- The body up to and including the `NewMessage` element. -/
def soap_req_open (name enc : List Char) : List Char :=
  soap_prefix ++ "<u:".toList ++ name ++ " xmlns:u=\"".toList ++ urn_wfawlanconfig ++
  "\">\n".toList ++ "<NewMessage>".toList ++ enc ++ "</NewMessage>\n".toList

/-- The closing tag of the action element and the end of the envelope. -/
def soap_req_close (name : List Char) : List Char :=
  "</u:".toList ++ name ++ ">\n".toList ++ soap_postfix

/-- The body of the request: everything after the blank line. -/
def soap_req_body (name enc children : List Char) : List Char :=
  soap_req_open name enc ++ children ++ soap_req_close name

/-- The destination 192.0.2.5:80 of the AP of scenario S1. -/
def dst_s1 : sockaddr_in :=
  { sin_addr := 3221225989, sin_port := 80 }

/-- The stand-in collaborators with an encoder that keeps the length of base64
only: four characters for every three bytes of input, rounded up. -/
def collab_len : collab :=
  { collab0 with
    base64_encode := fun msg => some (List.replicate (4 * ((msg.length + 2) / 3)) 'A') }

/-- A message of 75,000,000 bytes; its base64 text has 10^8 characters. -/
def msg_75m : List Nat :=
  List.replicate 75000000 0

/-- The header `wps_er_soap_hdr` builds for the two-byte message `10 4a`, action
SetSelectedRegistrar, path `/` and the destination of scenario S1. -/
def soap_hdr_s6 : List Char × Nat × Nat :=
  (wps_er_soap_hdr collab0 [16, 74] "SetSelectedRegistrar".toList ['/'] dst_s1 true).getD
    ([], 0, 0)

/-! ## Event endpoint -/

/-- The request the HTTP server hands to `wps_er_http_req`: what
`http_request_get_type`, `http_request_get_uri` and `http_request_get_data`
return for it. -/
structure http_request where
  hdr_type : Nat
  uri : List Char
  data : List Char
deriving DecidableEq, Repr

/-- What `wps_er.c` takes from the HTTP server and the XML helpers: the code of
`HTTPREAD_HDR_TYPE_NOTIFY`, `xml_get_base64_item` (the decoded item of the body
with the given name, `none` for NULL) and the text `format_date` writes. -/
structure http_collab where
  HTTPREAD_HDR_TYPE_NOTIFY : Nat
  xml_get_base64_item : List Char → List Char → Option (List Nat)
  format_date : List Char

/-- What the allocating calls made while a request is handled return:
`wpabuf_alloc` of the response buffer, and the allocations of the station
path. -/
structure http_env where
  wpabuf_alloc : Bool
  sta : sta_env
deriving DecidableEq, Repr

/-- The function `http_put_date`. -/
def http_put_date (H : http_collab) (buf : List Char) : List Char :=
  buf ++ "Date: ".toList ++ H.format_date ++ "\r\n".toList

/-- The function `wps_er_http_resp_not_found`: the response handed to
`http_request_send_and_deinit`, or `none` when the request is dropped with
`http_request_deinit`.  The buffer is a plain list, without the capacity of the
`wpabuf`. -/
def wps_er_http_resp_not_found (H : http_collab) (wpabuf_alloc : Bool) : Option (List Char) :=
  if wpabuf_alloc = false then none
  else
    some (http_put_date H
      ("HTTP/1.1 404 Not Found\r\n".toList ++
       "Server: unspecified, UPnP/1.0, unspecified\r\n".toList ++
       "Connection: close\r\n".toList) ++ "\r\n".toList)

/-- The function `wps_er_http_resp_ok`. -/
def wps_er_http_resp_ok (H : http_collab) (wpabuf_alloc : Bool) : Option (List Char) :=
  if wpabuf_alloc = false then none
  else
    some (http_put_date H
      ("HTTP/1.1 200 OK\r\n".toList ++
       "Server: unspecified, UPnP/1.0, unspecified\r\n".toList ++
       "Connection: close\r\n".toList ++
       "Content-Length: 0\r\n".toList) ++ "\r\n".toList)

/-- Write through the pointer `wps_er_ap_get_id` returned: the first AP of the
list with the id is the record written. -/
def ap_store (id : Nat) (new : wps_er_ap) : List wps_er_ap → List wps_er_ap
  | [] => []
  | x :: rest => if x.id = id then new :: rest else x :: ap_store id new rest

/-- The function `wps_er_http_event`: the state and the response sent (`none`
for a request dropped without response); the result is `none` when
`wps_er_process_wlanevent` does not return. -/
def wps_er_http_event (X : collab) (H : http_collab) (s : Sys) (req : http_request)
    (ap_id : Nat) (m : http_env) : Option (Sys × Option (List Char)) :=
  match wps_er_ap_get_id s.er ap_id with
  | none => some (s, wps_er_http_resp_not_found H m.wpabuf_alloc)
  | some ap =>
    match H.xml_get_base64_item req.data "WLANEvent".toList with
    | none => some (s, wps_er_http_resp_ok H m.wpabuf_alloc)
    | some event =>
      match wps_er_process_wlanevent X s ap event m.sta with
      | none => none
      | some r =>
        some ({ r.1 with er := { r.1.er with ap := ap_store ap_id r.2 r.1.er.ap } },
              wps_er_http_resp_ok H m.wpabuf_alloc)

/-- The function `wps_er_http_notify`; the `int` that `atoi` returns is
converted to the `unsigned int` parameter of `wps_er_http_event`. -/
def wps_er_http_notify (X : collab) (H : http_collab) (s : Sys) (req : http_request)
    (m : http_env) : Option (Sys × Option (List Char)) :=
  if os_strncmp req.uri "/event/".toList 7 = 0 then
    wps_er_http_event X H s req (atoi (req.uri.drop 7) % (UINT_MOD : Int)).toNat m
  else some (s, wps_er_http_resp_not_found H m.wpabuf_alloc)

/-- The function `wps_er_http_req`. -/
def wps_er_http_req (X : collab) (H : http_collab) (s : Sys) (req : http_request)
    (m : http_env) : Option (Sys × Option (List Char)) :=
  if req.hdr_type = H.HTTPREAD_HDR_TYPE_NOTIFY then wps_er_http_notify X H s req m
  else if m.wpabuf_alloc = false then some (s, none)
  else
    some (s, some (http_put_date H
      ("HTTP/1.1 501 Unimplemented\r\n".toList ++ "Connection: close\r\n".toList) ++
      "\r\n".toList))

/-- A stand-in for the HTTP server and the XML helpers: NOTIFY has code 9, the
body of a request is the `WLANEvent` item itself (no item for an empty body)
and the date is fixed. -/
def http_collab0 : http_collab :=
  { HTTPREAD_HDR_TYPE_NOTIFY := 9,
    xml_get_base64_item := fun data _ =>
      if data = [] then none else some (data.map Char.toNat),
    format_date := "Sat, 01 Jan 2000 00:00:00 GMT".toList }

/-- A NOTIFY for `/event/1` whose WLANEvent is the EAP event `event_eap`. -/
def notify_eap : http_request :=
  { hdr_type := 9, uri := "/event/1".toList, data := event_eap.map Char.ofNat }

/-! ## SSDP examples -/

/-- A datagram that is not a NOTIFY but carries the WFA URN, a byebye NTS
header, a LOCATION header and a max-age (163 characters). -/
def msearch_wfa : List Char :=
  ("M-SEARCH * HTTP/1.1\r\nNT: urn:schemas-wifialliance-org:device:WFADevice:1\r\n" ++
   "NTS: ssdp:byebye\r\nLOCATION: http://192.0.2.5:80/desc.xml\r\n" ++
   "CACHE-CONTROL: max-age=1800\r\n\r\n").toList

/-- A NOTIFY whose only occurrence of a WFA URN is in its request line (136
characters). -/
def notify_urn_first_line : List Char :=
  ("NOTIFY urn:schemas-wifialliance-org:device:WFADevice:1 HTTP/1.1\r\n" ++
   "LOCATION: http://192.0.2.5:80/desc.xml\r\nCACHE-CONTROL: max-age=1800\r\n\r\n").toList

/-- A NOTIFY without any WFA URN (118 characters). -/
def notify_no_urn : List Char :=
  ("NOTIFY * HTTP/1.1\r\nHOST: 239.255.255.250:1900\r\n" ++
   "LOCATION: http://192.0.2.5:80/desc.xml\r\nCACHE-CONTROL: max-age=1800\r\n\r\n").toList

/-- The loop body with a clean CACHE-CONTROL parser, as the specification
recommends it: the same as `ssdp_line`, except that after matching the 14-byte
header name it skips all 14 bytes (not 9) before it skips the spaces, searches
for `max-age=` and converts the decimal after it. -/
def ssdp_line_clean (v : ssdp_vars) (start : List Char) : ssdp_vars :=
  let v1 : ssdp_vars :=
    if (os_strstr start urn_wfadevice).isSome then { v with wfa := true } else v
  let v2 : ssdp_vars :=
    if (os_strstr start urn_wfawlanconfig_service).isSome then { v1 with wfa := true } else v1
  if os_strncasecmp start "LOCATION:".toList 9 = 0 then
    { v2 with location := some ((start.drop 9).dropWhile (fun c => c == ' ')) }
  else if os_strncasecmp start "NTS:".toList 4 = 0 then
    if (os_strstr start "ssdp:byebye".toList).isSome then { v2 with byebye := true } else v2
  else if os_strncasecmp start "CACHE-CONTROL:".toList 14 = 0 then
    match os_strstr ((start.drop 14).dropWhile (fun c => c == ' ')) "max-age=".toList with
    | none => v2
    | some pos2 => { v2 with max_age := atoi (pos2.drop 8) }
  else v2

/-- A CACHE-CONTROL header line in mixed case with two directives. -/
def cache_control_line : List Char :=
  "Cache-Control: no-cache, max-age=1800".toList

/-! ## Completion of the description fetch -/

/-- The completion events the callbacks of `wps_er.c` distinguish
(`enum http_client_event`). -/
inductive http_client_event where
  | HTTP_CLIENT_OK
  | HTTP_CLIENT_FAILED
  | HTTP_CLIENT_INVALID_REPLY
  | HTTP_CLIENT_TIMEOUT
deriving DecidableEq, Repr

/-- What `wps_er_parse_device_description` takes from the XML and HTTP helpers:
`xml_get_first_item` (the text of the first element with the given name,
`none` for NULL) and `http_link_update` (the URL made absolute against the
base). -/
structure desc_collab where
  xml_get_first_item : List Char → List Char → Option (List Char)
  http_link_update : Option (List Char) → Option (List Char) → Option (List Char)

/-- The function `wps_er_parse_device_description`; `reply` is the body of the
description. -/
def wps_er_parse_device_description (D : desc_collab) (ap : wps_er_ap) (reply : List Char) :
    wps_er_ap :=
  { ap with
    friendly_name := D.xml_get_first_item reply "friendlyName".toList,
    manufacturer := D.xml_get_first_item reply "manufacturer".toList,
    manufacturer_url := D.xml_get_first_item reply "manufacturerURL".toList,
    model_description := D.xml_get_first_item reply "modelDescription".toList,
    model_name := D.xml_get_first_item reply "modelName".toList,
    model_number := D.xml_get_first_item reply "modelNumber".toList,
    model_url := D.xml_get_first_item reply "modelURL".toList,
    serial_number := D.xml_get_first_item reply "serialNumber".toList,
    udn := D.xml_get_first_item reply "UDN".toList,
    upc := D.xml_get_first_item reply "UPC".toList,
    scpd_url := D.http_link_update (D.xml_get_first_item reply "SCPDURL".toList) ap.location,
    control_url :=
      D.http_link_update (D.xml_get_first_item reply "controlURL".toList) ap.location,
    event_sub_url :=
      D.http_link_update (D.xml_get_first_item reply "eventSubURL".toList) ap.location }

/-- The `switch` of `wps_er_http_dev_desc_cb`: the record after it and the
value of `subscribe`; `body` is what `http_client_get_body` returns. -/
def dev_desc_switch (D : desc_collab) (ap : wps_er_ap) (event : http_client_event)
    (body : Option (List Char)) : wps_er_ap × Bool :=
  match event with
  | http_client_event.HTTP_CLIENT_OK =>
    match body with
    | none => (ap, false)
    | some reply => (wps_er_parse_device_description D ap reply, true)
  | http_client_event.HTTP_CLIENT_FAILED => (ap, false)
  | http_client_event.HTTP_CLIENT_INVALID_REPLY => (ap, false)
  | http_client_event.HTTP_CLIENT_TIMEOUT => (ap, false)

/-- The function `wps_er_http_dev_desc_cb`; `ap` is the record the callback
was registered with. -/
def wps_er_http_dev_desc_cb (X : collab) (D : desc_collab) (s : Sys) (ap : wps_er_ap)
    (event : http_client_event) (body : Option (List Char)) (m : ap_req_env) :
    Sys × wps_er_ap :=
  let r := dev_desc_switch D ap event body
  let s1 : Sys := { s with calls := http_client_free s.calls r.1.http }
  let ap1 : wps_er_ap := { r.1 with http := none }
  if r.2 then wps_er_subscribe X s1 ap1 m else (s1, ap1)

/-- A stand-in for the XML and HTTP helpers on the description of scenario S3:
every item is looked up in a fixed table, and a link is put behind
`http://192.0.2.5:80`. -/
def desc_collab0 : desc_collab :=
  { xml_get_first_item := fun _ name =>
      if name = "friendlyName".toList then some "AP-One".toList
      else if name = "controlURL".toList then some "/ctl".toList
      else if name = "eventSubURL".toList then some "/evt".toList
      else if name = "SCPDURL".toList then some "/scpd".toList
      else none,
    http_link_update := fun url _ => url.map (fun u => "http://192.0.2.5:80".toList ++ u) }

/-- The description fields and service URLs of an AP record are all unset. -/
def ap_desc_unset (ap : wps_er_ap) : Prop :=
  ap.friendly_name = none ∧ ap.manufacturer = none ∧ ap.manufacturer_url = none ∧
  ap.model_description = none ∧ ap.model_name = none ∧ ap.model_number = none ∧
  ap.model_url = none ∧ ap.serial_number = none ∧ ap.udn = none ∧ ap.upc = none ∧
  ap.scpd_url = none ∧ ap.control_url = none ∧ ap.event_sub_url = none

/-! ## Teardown -/

/-- The calls that tear one station down: `wps_deinit` of its registrar
instance if it has one, then the abort of its pending exchange if it has one. -/
def sta_teardown_calls (sta : wps_er_sta) : List ext_call :=
  (match sta.wps with
    | some w => [ext_call.wps_deinit w]
    | none => []) ++
  (match sta.http with
    | some h => [ext_call.http_free h]
    | none => [])

/-- The teardown calls of a station list, in list order. -/
def sta_list_teardown_calls : List wps_er_sta → List ext_call
  | [] => []
  | sta :: rest => sta_teardown_calls sta ++ sta_list_teardown_calls rest

/-- The calls that tear one AP down: the abort of its pending exchange if it
has one, then the teardown of its stations. -/
def ap_teardown_calls (ap : wps_er_ap) : List ext_call :=
  (match ap.http with
    | some h => [ext_call.http_free h]
    | none => []) ++ sta_list_teardown_calls ap.sta

/-- The teardown calls of an AP list, in list order. -/
def ap_list_teardown_calls : List wps_er_ap → List ext_call
  | [] => []
  | ap :: rest => ap_teardown_calls ap ++ ap_list_teardown_calls rest

/-- The timer belongs to the AP: it is the expiry timer of the record or the
idle timer of one of its stations. -/
def ap_owns_timer (er_ptr : Nat) (ap : wps_er_ap) (t : eloop_timeout) : Bool :=
  t.is_for eloop_handler.ap_timeout er_ptr ap.ptr ||
  ap.sta.any (fun sta => t.is_for eloop_handler.sta_timeout sta.ptr 0)

/-- The AP of scenario S1 holding a station with a registrar instance, a
pending exchange and an idle timer, in a state where the timers of the AP and
of the station are armed. -/
def ap_busy : wps_er_ap :=
  { ap1 with sta :=
      [{ sta_m1 with
         wps := some { cfg := { wps := 8192, registrar := 1, peer_addr := mac_s4 }, st := 1 },
         http := some (
           { url := none, dst := some dst_s1, req := some [], arg := 1000,
             cb := http_cb.put_wlan_response_cb, ctx := 20480 }) }] }

/-- The registrar holding `ap_busy`, with the station's idle timer armed. -/
def er_busy : Sys :=
  { er1 with
    er := { er1.er with ap := [ap_busy] },
    timeouts := eloop_register_timeout er1.timeouts 300 0 eloop_handler.sta_timeout 20480 0 }

/-! # Properties -/

/-! ## SSDP dispatch -/

theorem ssdp_line_max_age (v : ssdp_vars) (start : List Char)
    (h : os_strncasecmp start "CACHE-CONTROL:".toList 14 ≠ 0) :
    (ssdp_line v start).max_age = v.max_age := by
  unfold ssdp_line
  simp only [h, if_false]
  split_ifs <;> rfl

theorem ssdp_fold_max_age (lines : List (List Char)) (v : ssdp_vars)
    (h : ∀ l ∈ lines, os_strncasecmp l "CACHE-CONTROL:".toList 14 ≠ 0) :
    (lines.foldl ssdp_line v).max_age = v.max_age := by
  induction lines generalizing v with
  | nil => rfl
  | cons l ls ih =>
    rw [List.foldl_cons, ih _ (fun x hx => h x (List.mem_cons_of_mem _ hx)),
      ssdp_line_max_age _ _ (h l (List.mem_cons_self _ _))]

/-- C1: for a datagram that passes the first-line check of `wps_er_ssdp_rx`,
the values `wfa`, `byebye`, `location` and `max_age` of the header loop decide
the effect in this order: not `wfa` leaves the state as it is; else `byebye`
gives `wps_er_ap_remove` of the source address, whatever `location` and
`max_age` are; else no `location` leaves the state as it is; else `max_age < 1`
leaves it as it is (`max_age` is `-1` when no line is a CACHE-CONTROL header);
otherwise the result is `wps_er_ap_add` of the source, location and max-age. -/
theorem wps_er_ssdp_rx_dispatch (s : Sys) (sd nread : Int) (data : List Char) (src : Nat)
    (m : ap_add_env) (hn : 0 < nread)
    (hfirst : ssdp_first_line_ok s.er sd (c_str (data.take nread.toNat)) = true) :
    ((ssdp_rx_vars nread data).wfa = false → wps_er_ssdp_rx s sd nread data src m = s) ∧
    ((ssdp_rx_vars nread data).wfa = true → (ssdp_rx_vars nread data).byebye = true →
      wps_er_ssdp_rx s sd nread data src m = wps_er_ap_remove s src) ∧
    ((ssdp_rx_vars nread data).wfa = true → (ssdp_rx_vars nread data).byebye = false →
      (ssdp_rx_vars nread data).location = none →
      wps_er_ssdp_rx s sd nread data src m = s) ∧
    ((ssdp_rx_vars nread data).wfa = true → (ssdp_rx_vars nread data).byebye = false →
      (ssdp_rx_vars nread data).max_age < 1 →
      wps_er_ssdp_rx s sd nread data src m = s) ∧
    (∀ location, (ssdp_rx_vars nread data).wfa = true →
      (ssdp_rx_vars nread data).byebye = false →
      (ssdp_rx_vars nread data).location = some location →
      1 ≤ (ssdp_rx_vars nread data).max_age →
      wps_er_ssdp_rx s sd nread data src m =
        wps_er_ap_add s src location (ssdp_rx_vars nread data).max_age m) ∧
    ((∀ line ∈ ssdp_lines (c_str (data.take nread.toNat)) [],
        os_strncasecmp line "CACHE-CONTROL:".toList 14 ≠ 0) →
      (ssdp_rx_vars nread data).max_age = -1) := by
  have hn1 : ¬ nread ≤ 0 := not_le.mpr hn
  refine ⟨?_, ?_, ?_, ?_, ?_, ?_⟩
  · intro hw
    unfold ssdp_rx_vars at hw
    simp [wps_er_ssdp_rx, hn1, hfirst, hw]
  · intro hw hb
    unfold ssdp_rx_vars at hw hb
    simp [wps_er_ssdp_rx, hn1, hfirst, hw, hb]
  · intro hw hb hl
    unfold ssdp_rx_vars at hw hb hl
    simp [wps_er_ssdp_rx, hn1, hfirst, hw, hb, hl]
  · intro hw hb hm
    unfold ssdp_rx_vars at hw hb hm
    simp only [wps_er_ssdp_rx, hn1, hfirst, hw, hb, if_false]
    cases hloc : (ssdp_scan (c_str (List.take nread.toNat data))).location with
    | none => simp
    | some l => simp [hm]
  · intro location hw hb hl hm
    unfold ssdp_rx_vars at hw hb hl hm ⊢
    simp [wps_er_ssdp_rx, hn1, hfirst, hw, hb, hl, not_lt.mpr hm]
  · intro h
    unfold ssdp_rx_vars ssdp_scan
    rw [ssdp_fold_max_age _ _ h]
    rfl

/-- C1, witness: the NOTIFY of scenario S1 received on the SSDP listener of a
fresh registrar passes the first-line check and is dispatched to
`wps_er_ap_add`. -/
theorem wps_er_ssdp_rx_dispatch_witness :
    (0 : Int) < 143 ∧
    ssdp_first_line_ok er0.er 4 (c_str (notify_s1.take (143 : Int).toNat)) = true ∧
    wps_er_ssdp_rx er0 4 143 notify_s1 3221225989 (env_ok 12288) =
      wps_er_ap_add er0 3221225989 loc_s1 (ssdp_rx_vars 143 notify_s1).max_age
        (env_ok 12288) :=
  ⟨by decide, by decide,
   (wps_er_ssdp_rx_dispatch er0 4 143 notify_s1 3221225989 (env_ok 12288)
      (by decide) (by decide)).2.2.2.2.1 loc_s1 (by decide) (by decide) (by decide)
      (by decide)⟩

/-! ## Timer table -/

theorem eloop_cancel_filter_same (T : List eloop_timeout) (h : eloop_handler) (d c : Nat) :
    (eloop_cancel_timeout T h d c).filter (fun t => t.is_for h d c) = [] := by
  unfold eloop_cancel_timeout
  rw [List.filter_filter]
  simp

theorem eloop_cancel_filter_other (T : List eloop_timeout) (h : eloop_handler) (d c : Nat) :
    (eloop_cancel_timeout T h d c).filter (fun t => !(t.is_for h d c)) =
      T.filter (fun t => !(t.is_for h d c)) := by
  unfold eloop_cancel_timeout
  rw [List.filter_filter]
  simp

theorem eloop_timeout_is_for_self (secs usecs : Int) (h : eloop_handler) (d c : Nat) :
    eloop_timeout.is_for
      { secs := secs, usecs := usecs, handler := h, eloop_data := d, user_ctx := c } h d c
      = true := by
  simp [eloop_timeout.is_for]

/-! ## Registry lookups -/

theorem wps_er_ap_get_some (er : wps_er) (a : Nat) (ap : wps_er_ap)
    (h : wps_er_ap_get er a = some ap) : ap ∈ er.ap ∧ ap.addr = a := by
  unfold wps_er_ap_get at h
  exact ⟨List.mem_of_find?_eq_some h, by simpa using List.find?_some h⟩

theorem wps_er_ap_get_of_mem (er : wps_er) (a : Nat)
    (h : a ∈ er.ap.map (fun ap => ap.addr)) : ∃ ap, wps_er_ap_get er a = some ap := by
  unfold wps_er_ap_get
  cases hf : er.ap.find? (fun ap => decide (ap.addr = a)) with
  | some ap => exact ⟨ap, rfl⟩
  | none =>
    exfalso
    rw [List.find?_eq_none] at hf
    obtain ⟨x, hx, hxa⟩ := List.mem_map.mp h
    exact hf x hx (by simpa using hxa)

theorem wps_er_ap_get_none (er : wps_er) (a : Nat)
    (h : a ∉ er.ap.map (fun ap => ap.addr)) : wps_er_ap_get er a = none := by
  unfold wps_er_ap_get
  rw [List.find?_eq_none]
  intro x hx hxa
  exact h (List.mem_map.mpr ⟨x, hx, by simpa using hxa⟩)

/-! ## Re-advertisement of a known AP -/

/-- C2: when the registry already holds an AP with address `a`,
`wps_er_ap_add(a, location, max_age)` changes nothing but the timer table: the
registrar context (the AP list, every AP record, `next_ap_id`) and the calls to
the HTTP client are as before, the timers keyed to the AP found are replaced by
a single one of `max_age` seconds, and every other timer is kept. -/
theorem wps_er_ap_add_known (s : Sys) (a : Nat) (location : List Char) (max_age : Int)
    (m : ap_add_env) (h : a ∈ s.er.ap.map (fun ap => ap.addr)) :
    ∃ ap, wps_er_ap_get s.er a = some ap ∧ ap ∈ s.er.ap ∧ ap.addr = a ∧
      (wps_er_ap_add s a location max_age m).er = s.er ∧
      (wps_er_ap_add s a location max_age m).calls = s.calls ∧
      (wps_er_ap_add s a location max_age m).timeouts.filter
          (fun t => t.is_for eloop_handler.ap_timeout s.er.ptr ap.ptr) =
        [{ secs := max_age, usecs := 0, handler := eloop_handler.ap_timeout,
           eloop_data := s.er.ptr, user_ctx := ap.ptr }] ∧
      (wps_er_ap_add s a location max_age m).timeouts.filter
          (fun t => !(t.is_for eloop_handler.ap_timeout s.er.ptr ap.ptr)) =
        s.timeouts.filter (fun t => !(t.is_for eloop_handler.ap_timeout s.er.ptr ap.ptr)) := by
  obtain ⟨ap, hget⟩ := wps_er_ap_get_of_mem s.er a h
  obtain ⟨hmem, haddr⟩ := wps_er_ap_get_some s.er a ap hget
  refine ⟨ap, hget, hmem, haddr, ?_, ?_, ?_, ?_⟩
  · simp [wps_er_ap_add, hget]
  · simp [wps_er_ap_add, hget]
  · simp only [wps_er_ap_add, hget, eloop_register_timeout, List.filter_append,
      eloop_cancel_filter_same, List.nil_append]
    simp [List.filter, eloop_timeout_is_for_self]
  · simp only [wps_er_ap_add, hget, eloop_register_timeout, List.filter_append,
      eloop_cancel_filter_other]
    simp [List.filter, eloop_timeout_is_for_self]

/-- C2, witness: the AP of scenario S1 is advertised again with max-age 900. -/
theorem wps_er_ap_add_known_witness :
    3221225989 ∈ er1.er.ap.map (fun ap => ap.addr) ∧
    (wps_er_ap_add er1 3221225989 loc_s1 900 (env_ok 16384)).er = er1.er ∧
    (wps_er_ap_add er1 3221225989 loc_s1 900 (env_ok 16384)).calls = er1.calls := by
  obtain ⟨_, _, _, _, h1, h2, _, _⟩ :=
    wps_er_ap_add_known er1 3221225989 loc_s1 900 (env_ok 16384) (by decide)
  exact ⟨by decide, h1, h2⟩

/-! ## AP ids -/

theorem wps_er_sta_free_er (s : Sys) (sta : wps_er_sta) : (wps_er_sta_free s sta).er = s.er :=
  rfl

theorem sta_free_foldl_er (l : List wps_er_sta) (s : Sys) :
    (l.foldl wps_er_sta_free s).er = s.er := by
  induction l generalizing s with
  | nil => rfl
  | cons x xs ih => rw [List.foldl_cons, ih, wps_er_sta_free_er]

theorem wps_er_ap_free_er (s : Sys) (ap : wps_er_ap) : (wps_er_ap_free s ap).er = s.er := by
  simp [wps_er_ap_free, wps_er_sta_remove_all, sta_free_foldl_er]

theorem ap_free_foldl_er (l : List wps_er_ap) (s : Sys) :
    (l.foldl wps_er_ap_free s).er = s.er := by
  induction l generalizing s with
  | nil => rfl
  | cons x xs ih => rw [List.foldl_cons, ih, wps_er_ap_free_er]

theorem ap_unlink_length (a : Nat) (l : List wps_er_ap) :
    (ap_unlink a l).2.length ≤ l.length := by
  induction l with
  | nil => simp [ap_unlink]
  | cons x xs ih =>
    unfold ap_unlink
    split_ifs
    · simp
    · simpa using ih

theorem wps_er_ap_remove_er (s : Sys) (a : Nat) :
    (wps_er_ap_remove s a).er = s.er ∨
    (wps_er_ap_remove s a).er = { s.er with ap := (ap_unlink a s.er.ap).2 } := by
  unfold wps_er_ap_remove
  cases (ap_unlink a s.er.ap).1 with
  | none => exact Or.inl rfl
  | some ap => exact Or.inr (by rw [wps_er_ap_free_er])

theorem wps_er_ap_remove_all_er (s : Sys) :
    (wps_er_ap_remove_all s).er = { s.er with ap := [] } := by
  unfold wps_er_ap_remove_all
  rw [ap_free_foldl_er]

theorem eloop_fire_ap_timeout_er (s : Sys) (p : Nat) :
    (eloop_fire_ap_timeout s p).er = s.er := by
  unfold eloop_fire_ap_timeout
  split
  · unfold wps_er_ap_timeout
    rw [wps_er_ap_free_er]
  · rfl

/-- What `wps_er_ap_add` does to the registrar context: nothing, or it uses up
an id without linking a record, or it links a record under the next id. -/
theorem wps_er_ap_add_er (s : Sys) (a : Nat) (location : List Char) (max_age : Int)
    (m : ap_add_env) :
    (wps_er_ap_add s a location max_age m).er = s.er ∨
    ((wps_er_ap_add s a location max_age m).er =
        { s.er with next_ap_id := (s.er.next_ap_id + 1) % UINT_MOD } ∧ m.os_strdup = false) ∨
    (∃ ap : wps_er_ap, ap.id = (s.er.next_ap_id + 1) % UINT_MOD ∧
      (wps_er_ap_add s a location max_age m).er =
        { s.er with next_ap_id := (s.er.next_ap_id + 1) % UINT_MOD, ap := ap :: s.er.ap }) := by
  unfold wps_er_ap_add
  cases wps_er_ap_get s.er a with
  | some ap => exact Or.inl rfl
  | none =>
    cases m.os_zalloc with
    | none => exact Or.inl rfl
    | some p =>
      cases hs : m.os_strdup with
      | false => exact Or.inr (Or.inl ⟨by simp, rfl⟩)
      | true =>
        exact Or.inr (Or.inr ⟨ap_new p ((s.er.next_ap_id + 1) % UINT_MOD) a location
          (if m.http_client_url then some (dev_desc_get p location) else none), rfl, rfl⟩)

/-- One step of a run: either no AP is created and the counter does not go
back, or the AP created has the id after the counter. -/
theorem reg_step_ids (s : Sys) (op : reg_op)
    (h : s.er.next_ap_id + reg_adds [op] < UINT_MOD) :
    (ap_created s (reg_step s op) = [] ∧
      s.er.next_ap_id ≤ (reg_step s op).er.next_ap_id ∧
      (reg_step s op).er.next_ap_id ≤ s.er.next_ap_id + reg_adds [op] ∧
      (reg_strdup_ok [op] = true → (reg_step s op).er.next_ap_id = s.er.next_ap_id)) ∨
    (ap_created s (reg_step s op) = [s.er.next_ap_id + 1] ∧
      (reg_step s op).er.next_ap_id = s.er.next_ap_id + 1 ∧ reg_adds [op] = 1) := by
  cases op with
  | add a location max_age m =>
    have hlt : s.er.next_ap_id + 1 < UINT_MOD := by simpa [reg_adds] using h
    have hmod : (s.er.next_ap_id + 1) % UINT_MOD = s.er.next_ap_id + 1 := Nat.mod_eq_of_lt hlt
    rcases wps_er_ap_add_er s a location max_age m with he | ⟨he, hs⟩ | ⟨ap, hid, he⟩
    · left
      simp [reg_step, ap_created, he, reg_adds]
    · left
      simp [reg_step, ap_created, he, reg_adds, hmod, reg_strdup_ok, hs]
    · right
      simp [reg_step, ap_created, he, reg_adds, hmod, hid]
  | remove a =>
    left
    rcases wps_er_ap_remove_er s a with he | he
    · simp [reg_step, ap_created, he, reg_adds]
    · have hlen := ap_unlink_length a s.er.ap
      refine ⟨?_, ?_, ?_, ?_⟩
      · simp only [reg_step, ap_created, he]
        rw [if_neg (by omega)]
      · simp [reg_step, he]
      · simp [reg_step, he]
      · simp [reg_step, he]
  | remove_all =>
    left
    simp [reg_step, ap_created, wps_er_ap_remove_all_er, reg_adds]
  | timeout p =>
    left
    simp [reg_step, ap_created, eloop_fire_ap_timeout_er, reg_adds]

theorem reg_adds_cons (op : reg_op) (ops : List reg_op) :
    reg_adds (op :: ops) = reg_adds [op] + reg_adds ops := by
  cases op <;> simp [reg_adds]
  omega

theorem reg_strdup_ok_cons (op : reg_op) (ops : List reg_op) :
    reg_strdup_ok (op :: ops) = (reg_strdup_ok [op] && reg_strdup_ok ops) := by
  cases op <;> simp [reg_strdup_ok]

/-- Along a run that does not exhaust the 32-bit counter the ids created are
increasing and all above the counter the run started from. -/
theorem reg_run_ids_increasing (ops : List reg_op) (s : Sys)
    (h : s.er.next_ap_id + reg_adds ops < UINT_MOD) :
    (reg_run_ids s ops).Pairwise (fun i j => i < j) ∧
    ∀ i ∈ reg_run_ids s ops, s.er.next_ap_id < i := by
  induction ops generalizing s with
  | nil => simp [reg_run_ids]
  | cons op ops ih =>
    rw [reg_adds_cons] at h
    have hop : s.er.next_ap_id + reg_adds [op] < UINT_MOD := by omega
    rcases reg_step_ids s op hop with ⟨hc, hle, hle2, -⟩ | ⟨hc, hn, hadd⟩
    · have hrest := ih (reg_step s op) (by omega)
      simp only [reg_run_ids, hc, List.nil_append]
      exact ⟨hrest.1, fun i hi => lt_of_le_of_lt hle (hrest.2 i hi)⟩
    · have hrest := ih (reg_step s op) (by omega)
      simp only [reg_run_ids, hc, List.singleton_append, List.pairwise_cons, List.mem_cons]
      refine ⟨⟨fun j hj => ?_, hrest.1⟩, ?_⟩
      · have := hrest.2 j hj
        omega
      · rintro i (rfl | hi)
        · omega
        · have := hrest.2 i hi
          omega

/-- When no copy of a location fails, the first AP created from a counter at
zero has id 1. -/
theorem reg_run_ids_head (ops : List reg_op) (s : Sys) (h0 : s.er.next_ap_id = 0)
    (hok : reg_strdup_ok ops = true) :
    ∀ i ∈ (reg_run_ids s ops).head?, i = 1 := by
  induction ops generalizing s with
  | nil => simp [reg_run_ids]
  | cons op ops ih =>
    rw [reg_strdup_ok_cons, Bool.and_eq_true] at hok
    have hop : s.er.next_ap_id + reg_adds [op] < UINT_MOD := by
      have : reg_adds [op] ≤ 1 := by cases op <;> simp [reg_adds]
      rw [h0]
      unfold UINT_MOD
      omega
    rcases reg_step_ids s op hop with ⟨hc, -, -, hkeep⟩ | ⟨hc, -, -⟩
    · simp only [reg_run_ids, hc, List.nil_append]
      exact ih (reg_step s op) (by rw [hkeep hok.1, h0]) hok.2
    · simp [reg_run_ids, hc, h0]

theorem reg_run_ids_cons (s : Sys) (op : reg_op) (ops : List reg_op) :
    reg_run_ids s (op :: ops) =
      ap_created s (reg_step s op) ++ reg_run_ids (reg_step s op) ops :=
  rfl

theorem reg_run_ids_append (xs ys : List reg_op) (s : Sys) :
    reg_run_ids s (xs ++ ys) = reg_run_ids s xs ++ reg_run_ids (reg_run s xs) ys := by
  induction xs generalizing s with
  | nil => simp [reg_run_ids, reg_run]
  | cons x xs ih =>
    show ap_created s (reg_step s x) ++ reg_run_ids (reg_step s x) (xs ++ ys) = _
    rw [ih]
    simp [reg_run_ids, reg_run]

theorem wps_er_ap_add_er_congr (s t : Sys) (h : s.er = t.er) (a : Nat) (location : List Char)
    (max_age : Int) (m : ap_add_env) :
    (wps_er_ap_add s a location max_age m).er = (wps_er_ap_add t a location max_age m).er := by
  unfold wps_er_ap_add
  rw [h]
  cases wps_er_ap_get t.er a with
  | some ap => simp [h]
  | none =>
    cases m.os_zalloc with
    | none => simp [h]
    | some p => cases m.os_strdup <;> simp [h]

theorem ap_created_congr (s t s1 t1 : Sys) (h : s.er = t.er) (h1 : s1.er = t1.er) :
    ap_created s s1 = ap_created t t1 := by
  unfold ap_created
  rw [h, h1]

/-- After `k` rounds of discovery and byebye on an empty registry the registry
is empty again and the counter has advanced by `k` modulo 2^32. -/
theorem reg_cycles_run (k : Nat) (s : Sys) (hap : s.er.ap = [])
    (hlt : s.er.next_ap_id < UINT_MOD) :
    (reg_run s (reg_cycles k)).er =
      { s.er with next_ap_id := (s.er.next_ap_id + k) % UINT_MOD } := by
  induction k generalizing s with
  | zero =>
    simp only [reg_cycles, reg_run, List.foldl_nil, Nat.add_zero]
    rw [Nat.mod_eq_of_lt hlt]
  | succ k ih =>
    have hstep : (reg_step (reg_step s (reg_op.add 3221225989 loc_s1 1800 (env_ok 12288)))
        (reg_op.remove 3221225989)).er =
        { s.er with next_ap_id := (s.er.next_ap_id + 1) % UINT_MOD } := by
      simp [reg_step, wps_er_ap_add, wps_er_ap_get, hap, env_ok, wps_er_ap_remove, ap_unlink,
        ap_new, wps_er_ap_free_er]
    have := ih (reg_step (reg_step s (reg_op.add 3221225989 loc_s1 1800 (env_ok 12288)))
      (reg_op.remove 3221225989)) (by rw [hstep]; exact hap)
      (by rw [hstep]; exact Nat.mod_lt _ (by unfold UINT_MOD; norm_num))
    simp only [reg_cycles, reg_run, List.foldl_cons] at this ⊢
    rw [this, hstep]
    simp only [Nat.add_mod_mod, Nat.mod_add_mod]
    congr 2
    omega

/-- The ids of the run `ops_wrap`: the first and the last AP created both get
id 1. -/
theorem ops_wrap_ids :
    ∃ mid : List Nat, reg_run_ids er0 ops_wrap = 1 :: (mid ++ [1]) := by
  have hM : UINT_MOD = (UINT_MOD - 1) + 1 := by unfold UINT_MOD; norm_num
  have hend : (reg_run er0 (reg_cycles UINT_MOD)).er = er0.er := by
    rw [reg_cycles_run UINT_MOD er0 rfl (by unfold UINT_MOD; decide)]
    simp [er0, er_fresh]
  have hlast : reg_run_ids (reg_run er0 (reg_cycles UINT_MOD))
      [reg_op.add 3221225989 loc_s1 1800 (env_ok 12288)] = [1] := by
    simp only [reg_run_ids, List.append_nil, reg_step]
    rw [ap_created_congr _ er0 _ (wps_er_ap_add er0 3221225989 loc_s1 1800 (env_ok 12288)) hend
      (wps_er_ap_add_er_congr _ _ hend _ _ _ _)]
    decide
  have hc : reg_cycles UINT_MOD =
      reg_op.add 3221225989 loc_s1 1800 (env_ok 12288) :: reg_op.remove 3221225989 ::
        reg_cycles (UINT_MOD - 1) := by
    conv_lhs => rw [hM]
    rw [reg_cycles]
  have h1 : ap_created er0 (reg_step er0 (reg_op.add 3221225989 loc_s1 1800 (env_ok 12288)))
      = [1] := by decide
  refine ⟨ap_created (reg_step er0 (reg_op.add 3221225989 loc_s1 1800 (env_ok 12288)))
      (reg_step (reg_step er0 (reg_op.add 3221225989 loc_s1 1800 (env_ok 12288)))
        (reg_op.remove 3221225989)) ++
    reg_run_ids (reg_step (reg_step er0 (reg_op.add 3221225989 loc_s1 1800 (env_ok 12288)))
        (reg_op.remove 3221225989)) (reg_cycles (UINT_MOD - 1)), ?_⟩
  unfold ops_wrap
  rw [reg_run_ids_append, hlast, hc, reg_run_ids_cons, reg_run_ids_cons, h1]
  simp only [List.cons_append, List.nil_append, List.append_assoc]

/-- C3, counterexample: a failed copy of the location uses up id 1, so the first
AP created has id 2; and after 2^32 rounds of discovery and byebye the counter
has wrapped, so the next AP gets id 1 again: the ids created along that run are
neither increasing nor distinct. -/
theorem ap_ids_counterexample :
    reg_run_ids er0 ops_strdup_fails_first = [2] ∧
    ¬ (reg_run_ids er0 ops_wrap).Pairwise (fun i j => i < j) ∧
    ¬ (reg_run_ids er0 ops_wrap).Nodup := by
  obtain ⟨mid, h⟩ := ops_wrap_ids
  refine ⟨by decide, ?_, ?_⟩
  · rw [h]
    intro hp
    have := (List.pairwise_cons.mp hp).1 1 (by simp)
    omega
  · rw [h]
    intro hn
    exact (List.nodup_cons.mp hn).1 (by simp)

/-- C3 (amended): from a freshly initialised registrar, along every sequence of
registry operations with fewer than 2^32 calls of `wps_er_ap_add`, the ids of
the APs created are strictly increasing in order of creation, hence never
assigned twice, also after a removal; every id is at least 1; and the first AP
created has id 1 when no copy of a location string failed. -/
theorem ap_ids_strictly_increasing (ptr wps : Nat) (ip : List Char) (msd ssd port : Int)
    (ops : List reg_op) (h : reg_adds ops < UINT_MOD) :
    (reg_run_ids (er_fresh ptr wps ip msd ssd port) ops).Pairwise (fun i j => i < j) ∧
    (reg_run_ids (er_fresh ptr wps ip msd ssd port) ops).Nodup ∧
    (∀ i ∈ reg_run_ids (er_fresh ptr wps ip msd ssd port) ops, 1 ≤ i) ∧
    (reg_strdup_ok ops = true →
      ∀ i ∈ (reg_run_ids (er_fresh ptr wps ip msd ssd port) ops).head?, i = 1) := by
  have hinc := reg_run_ids_increasing ops (er_fresh ptr wps ip msd ssd port)
    (by simpa [er_fresh] using h)
  refine ⟨hinc.1, ?_, ?_, ?_⟩
  · exact hinc.1.imp (fun hij => Nat.ne_of_lt hij)
  · intro i hi
    have := hinc.2 i hi
    omega
  · intro hok
    exact reg_run_ids_head ops _ rfl hok

/-- C3, witness: discovery, byebye and discovery again give the ids 1 and 2. -/
theorem ap_ids_strictly_increasing_witness :
    reg_adds ops_short < UINT_MOD ∧
    (reg_run_ids er0 ops_short).Pairwise (fun i j => i < j) ∧
    reg_run_ids er0 ops_short = [1, 2] :=
  ⟨by decide,
   (ap_ids_strictly_increasing 4096 8192 "192.0.2.1".toList 3 4 49152 ops_short (by decide)).1,
   by decide⟩

/-! ## The timer invariant -/

theorem ap_timers_ok_iff (s : Sys) :
    ap_timers_ok s = true ↔
      (∀ ap ∈ s.er.ap, ap_timer_count s ap.ptr = 1) ∧
      (∀ t ∈ s.timeouts, t.handler = eloop_handler.ap_timeout →
        t.eloop_data = s.er.ptr ∧ ∃ ap ∈ s.er.ap, ap.ptr = t.user_ctx) := by
  simp only [ap_timers_ok, Bool.and_eq_true, List.all_eq_true, beq_iff_eq, Bool.or_eq_true,
    bne_iff_ne, ne_eq, List.any_eq_true]
  constructor
  · rintro ⟨h1, h2⟩
    refine ⟨h1, fun t ht hh => ?_⟩
    rcases h2 t ht with h | h
    · exact absurd hh h
    · exact h
  · rintro ⟨h1, h2⟩
    refine ⟨h1, fun t ht => ?_⟩
    by_cases hh : t.handler = eloop_handler.ap_timeout
    · exact Or.inr (h2 t ht hh)
    · exact Or.inl hh

theorem filter_cancel_other_key (T : List eloop_timeout) (h : eloop_handler) (d c q : Nat)
    (hq : q ≠ c) :
    (eloop_cancel_timeout T h d c).filter (fun t => t.is_for h d q) =
      T.filter (fun t => t.is_for h d q) := by
  simp only [eloop_cancel_timeout, List.filter_filter]
  apply List.filter_congr
  intro t _
  cases hqt : t.is_for h d q with
  | false => simp
  | true =>
    simp only [eloop_timeout.is_for, Bool.and_eq_true, decide_eq_true_eq] at hqt
    have : t.user_ctx ≠ c := by rw [hqt.2]; exact hq
    simp [eloop_timeout.is_for, this]

theorem mem_eloop_cancel (T : List eloop_timeout) (h : eloop_handler) (d c : Nat)
    (t : eloop_timeout) (ht : t ∈ eloop_cancel_timeout T h d c) :
    t ∈ T ∧ t.is_for h d c = false := by
  simpa [eloop_cancel_timeout] using ht

theorem filter_register (T : List eloop_timeout) (secs usecs : Int) (h : eloop_handler)
    (d c q : Nat) :
    ((eloop_register_timeout T secs usecs h d c).filter (fun t => t.is_for h d q)).length =
      (T.filter (fun t => t.is_for h d q)).length + (if c = q then 1 else 0) := by
  simp only [eloop_register_timeout, List.filter_append, List.length_append]
  congr 1
  by_cases hc : c = q
  · subst hc
    simp [List.filter, eloop_timeout_is_for_self]
  · simp [List.filter, eloop_timeout.is_for, hc]

/-- The function `wps_er_ap_add` keeps the timer invariant, a new record being at an address
of no record in the list. -/
theorem wps_er_ap_add_timers_ok (s : Sys) (a : Nat) (location : List Char) (max_age : Int)
    (m : ap_add_env) (hok : ap_timers_ok s = true)
    (hfresh : ∀ p, m.os_zalloc = some p → p ∉ s.er.ap.map (fun ap => ap.ptr)) :
    ap_timers_ok (wps_er_ap_add s a location max_age m) = true := by
  rw [ap_timers_ok_iff] at hok ⊢
  obtain ⟨h1, h2⟩ := hok
  cases hg : wps_er_ap_get s.er a with
  | some ap =>
    have hap := (wps_er_ap_get_some s.er a ap hg).1
    have hs : wps_er_ap_add s a location max_age m =
        { s with timeouts := (eloop_register_timeout
            (eloop_cancel_timeout s.timeouts eloop_handler.ap_timeout s.er.ptr ap.ptr)
            max_age 0 eloop_handler.ap_timeout s.er.ptr ap.ptr) } := by
      simp [wps_er_ap_add, hg]
    rw [hs]
    refine ⟨fun y hy => ?_, fun t ht hh => ?_⟩
    · show ((eloop_register_timeout _ _ _ _ _ _).filter _).length = 1
      rw [filter_register]
      by_cases hyp : y.ptr = ap.ptr
      · rw [hyp, eloop_cancel_filter_same, if_pos rfl]
        rfl
      · rw [filter_cancel_other_key _ _ _ _ _ hyp, if_neg (Ne.symm hyp)]
        exact h1 y hy
    · have ht1 : t ∈ eloop_register_timeout
          (eloop_cancel_timeout s.timeouts eloop_handler.ap_timeout s.er.ptr ap.ptr)
          max_age 0 eloop_handler.ap_timeout s.er.ptr ap.ptr := ht
      simp only [eloop_register_timeout, List.mem_append, List.mem_singleton] at ht1
      rcases ht1 with ht1 | ht1
      · exact h2 t (mem_eloop_cancel _ _ _ _ t ht1).1 hh
      · subst ht1
        exact ⟨rfl, ap, hap, rfl⟩
  | none =>
    cases hz : m.os_zalloc with
    | none =>
      have hs : wps_er_ap_add s a location max_age m = s := by simp [wps_er_ap_add, hg, hz]
      rw [hs]
      exact ⟨h1, h2⟩
    | some p =>
      have hp := hfresh p hz
      cases hd : m.os_strdup with
      | false =>
        have hs : wps_er_ap_add s a location max_age m =
            { s with er := { s.er with next_ap_id := (s.er.next_ap_id + 1) % UINT_MOD } } := by
          simp [wps_er_ap_add, hg, hz, hd]
        rw [hs]
        exact ⟨h1, h2⟩
      | true =>
        have hs : wps_er_ap_add s a location max_age m =
            { er := { s.er with
                next_ap_id := (s.er.next_ap_id + 1) % UINT_MOD,
                ap := (ap_new p ((s.er.next_ap_id + 1) % UINT_MOD) a location
                  (if m.http_client_url then some (dev_desc_get p location) else none)
                  :: s.er.ap) },
              timeouts :=
                (eloop_register_timeout s.timeouts max_age 0 eloop_handler.ap_timeout
                  s.er.ptr p),
              calls := (wps_er_ap_add s a location max_age m).calls } := by
          simp [wps_er_ap_add, hg, hz, hd]
        rw [hs]
        have hcount0 : (s.timeouts.filter
            (fun t => t.is_for eloop_handler.ap_timeout s.er.ptr p)) = [] := by
          rw [List.filter_eq_nil_iff]
          intro t ht hfor
          simp only [eloop_timeout.is_for, Bool.and_eq_true, decide_eq_true_eq] at hfor
          obtain ⟨-, y, hy, hyp⟩ := h2 t ht hfor.1.1
          exact hp (List.mem_map.mpr ⟨y, hy, by rw [hyp, hfor.2]⟩)
        refine ⟨fun y hy => ?_, fun t ht hh => ?_⟩
        · show ((eloop_register_timeout _ _ _ _ _ _).filter _).length = 1
          rw [filter_register]
          rcases List.mem_cons.mp hy with rfl | hy
          · show (List.filter (fun t => t.is_for eloop_handler.ap_timeout s.er.ptr p)
              s.timeouts).length + (if p = p then 1 else 0) = 1
            rw [hcount0, if_pos rfl]
            rfl
          · have hyp : y.ptr ≠ p := fun e => hp (List.mem_map.mpr ⟨y, hy, e⟩)
            rw [if_neg (Ne.symm hyp)]
            exact h1 y hy
        · have ht1 : t ∈ eloop_register_timeout s.timeouts max_age 0
              eloop_handler.ap_timeout s.er.ptr p := ht
          simp only [eloop_register_timeout, List.mem_append, List.mem_singleton] at ht1
          rcases ht1 with ht1 | ht1
          · obtain ⟨e1, y, hy, hyp⟩ := h2 t ht1 hh
            exact ⟨e1, y, List.mem_cons_of_mem _ hy, hyp⟩
          · subst ht1
            exact ⟨rfl, _, List.mem_cons_self _ _, rfl⟩

/-! ## Release of an AP -/

theorem sta_free_foldl_timeouts_filter (q : eloop_timeout → Bool)
    (hq : ∀ t, q t = true → t.handler = eloop_handler.ap_timeout)
    (l : List wps_er_sta) (s : Sys) :
    (l.foldl wps_er_sta_free s).timeouts.filter q = s.timeouts.filter q := by
  induction l generalizing s with
  | nil => rfl
  | cons x xs ih =>
    rw [List.foldl_cons, ih]
    simp only [wps_er_sta_free, eloop_cancel_timeout, List.filter_filter]
    apply List.filter_congr
    intro t _
    cases hqt : q t with
    | false => simp
    | true =>
      have := hq t hqt
      simp [eloop_timeout.is_for, this]

theorem wps_er_ap_free_timer_count (s : Sys) (ap : wps_er_ap) (q : Nat) :
    ap_timer_count (wps_er_ap_free s ap) q = if q = ap.ptr then 0 else ap_timer_count s q := by
  unfold ap_timer_count
  rw [wps_er_ap_free_er]
  simp only [wps_er_ap_free, wps_er_sta_remove_all]
  rw [sta_free_foldl_timeouts_filter _ (fun t ht => by
    simp only [eloop_timeout.is_for, Bool.and_eq_true, decide_eq_true_eq] at ht
    exact ht.1.1)]
  split_ifs with hqp
  · subst hqp
    simp only [eloop_cancel_filter_same, List.length_nil]
  · simp only [eloop_cancel_timeout, List.filter_filter]
    congr 1
    apply List.filter_congr
    intro t _
    cases hqt : t.is_for eloop_handler.ap_timeout s.er.ptr q with
    | false => simp
    | true =>
      simp only [eloop_timeout.is_for, Bool.and_eq_true, decide_eq_true_eq] at hqt
      have : t.user_ctx ≠ ap.ptr := by rw [hqt.2]; exact hqp
      simp [eloop_timeout.is_for, this]

theorem ap_unlink_fst (a : Nat) (l : List wps_er_ap) :
    (ap_unlink a l).1 = l.find? (fun x => decide (x.addr = a)) := by
  induction l with
  | nil => rfl
  | cons x xs ih =>
    unfold ap_unlink
    by_cases hx : x.addr = a
    · simp [hx]
    · simp [hx, ih]

theorem ap_unlink_snd (a : Nat) (l : List wps_er_ap)
    (h : (l.map (fun ap => ap.addr)).Nodup) :
    (ap_unlink a l).2 = l.filter (fun x => decide (x.addr ≠ a)) := by
  induction l with
  | nil => rfl
  | cons x xs ih =>
    rw [List.map_cons, List.nodup_cons] at h
    unfold ap_unlink
    by_cases hx : x.addr = a
    · simp only [hx, if_true, ne_eq, not_true_eq_false, decide_False, Bool.false_eq_true,
        not_false_eq_true, List.filter_cons_of_neg]
      symm
      rw [List.filter_eq_self]
      intro y hy
      have : y.addr ≠ a := by
        intro hya
        exact h.1 (List.mem_map.mpr ⟨y, hy, by rw [hya, hx]⟩)
      simpa using this
    · simp [hx, ih h.2]

theorem ap_unlink_not_mem (a : Nat) (l : List wps_er_ap) (h : ∀ x ∈ l, x.addr ≠ a) :
    ap_unlink a l = (none, l) := by
  induction l with
  | nil => rfl
  | cons x xs ih =>
    unfold ap_unlink
    have hx : x.addr ≠ a := h x (List.mem_cons_self _ _)
    rw [if_neg hx, ih (fun y hy => h y (List.mem_cons_of_mem _ hy))]

theorem ap_unlink_sublist (a : Nat) (l : List wps_er_ap) : (ap_unlink a l).2.Sublist l := by
  induction l with
  | nil => exact List.Sublist.refl _
  | cons x xs ih =>
    unfold ap_unlink
    split_ifs
    · exact List.sublist_cons_self x xs
    · exact ih.cons₂ x

/-- Every registry operation keeps the addresses of the registry distinct. -/
theorem reg_step_addr_unique (s : Sys) (op : reg_op) (h : ap_addr_unique s.er) :
    ap_addr_unique (reg_step s op).er := by
  unfold ap_addr_unique at h ⊢
  cases op with
  | add a location max_age m =>
    simp only [reg_step, wps_er_ap_add]
    cases hg : wps_er_ap_get s.er a with
    | some ap => exact h
    | none =>
      cases m.os_zalloc with
      | none => exact h
      | some p =>
        cases m.os_strdup with
        | false => exact h
        | true =>
          have hno : a ∉ s.er.ap.map (fun ap => ap.addr) := by
            intro hmem
            obtain ⟨ap, hap⟩ := wps_er_ap_get_of_mem s.er a hmem
            rw [hg] at hap
            exact Option.noConfusion hap
          simpa [ap_new] using And.intro hno h
  | remove a =>
    rcases wps_er_ap_remove_er s a with he | he
    · rw [reg_step, he]
      exact h
    · rw [reg_step, he]
      exact h.sublist ((ap_unlink_sublist a s.er.ap).map _)
  | remove_all =>
    rw [reg_step, wps_er_ap_remove_all_er]
    exact List.nodup_nil
  | timeout p =>
    rw [reg_step, eloop_fire_ap_timeout_er]
    exact h

/-- In every state a run of registry operations reaches from a fresh
registrar, the addresses of the registry are distinct. -/
theorem reg_run_addr_unique (ops : List reg_op) (s : Sys) (h : ap_addr_unique s.er) :
    ap_addr_unique (reg_run s ops).er := by
  induction ops generalizing s with
  | nil => exact h
  | cons op ops ih => exact ih (reg_step s op) (reg_step_addr_unique s op h)

theorem sta_free_foldl_timeouts_mem (l : List wps_er_sta) (s : Sys) (t : eloop_timeout)
    (ht : t ∈ (l.foldl wps_er_sta_free s).timeouts) : t ∈ s.timeouts := by
  induction l generalizing s with
  | nil => exact ht
  | cons x xs ih =>
    have := ih (wps_er_sta_free s x) ht
    exact (mem_eloop_cancel _ _ _ _ t this).1

theorem mem_wps_er_ap_free_timeouts (s : Sys) (ap : wps_er_ap) (t : eloop_timeout)
    (ht : t ∈ (wps_er_ap_free s ap).timeouts) :
    t ∈ s.timeouts ∧ t.is_for eloop_handler.ap_timeout s.er.ptr ap.ptr = false := by
  simp only [wps_er_ap_free, wps_er_sta_remove_all] at ht
  exact mem_eloop_cancel _ _ _ _ t (sta_free_foldl_timeouts_mem _ _ t ht)

theorem ap_unlink_ptr_ne (a : Nat) (l : List wps_er_ap) (ap : wps_er_ap)
    (hn : (l.map (fun x => x.ptr)).Nodup) (h1 : (ap_unlink a l).1 = some ap) :
    ∀ y ∈ (ap_unlink a l).2, y.ptr ≠ ap.ptr := by
  induction l with
  | nil => intro y hy; simp [ap_unlink] at hy
  | cons x xs ih =>
    rw [List.map_cons, List.nodup_cons] at hn
    unfold ap_unlink at h1 ⊢
    by_cases hx : x.addr = a
    · rw [if_pos hx] at h1 ⊢
      have hxa : x = ap := Option.some.inj h1
      intro y hy hyp
      exact hn.1 (List.mem_map.mpr ⟨y, hy, by rw [hyp, hxa]⟩)
    · rw [if_neg hx] at h1 ⊢
      intro y hy
      rcases List.mem_cons.mp hy with rfl | hy
      · intro hyp
        have hap : ap ∈ xs := by
          rw [ap_unlink_fst] at h1
          exact List.mem_of_find?_eq_some h1
        exact hn.1 (List.mem_map.mpr ⟨ap, hap, hyp.symm⟩)
      · exact ih hn.2 h1 y hy

theorem ap_unlink_mem_of_ne (a : Nat) (l : List wps_er_ap) (ap y : wps_er_ap)
    (h1 : (ap_unlink a l).1 = some ap) (hy : y ∈ l) (hne : y.ptr ≠ ap.ptr) :
    y ∈ (ap_unlink a l).2 := by
  induction l with
  | nil => simp at hy
  | cons x xs ih =>
    unfold ap_unlink at h1 ⊢
    by_cases hx : x.addr = a
    · rw [if_pos hx] at h1 ⊢
      have hxa : x = ap := Option.some.inj h1
      rcases List.mem_cons.mp hy with rfl | hy
      · exact absurd (by rw [hxa]) hne
      · exact hy
    · rw [if_neg hx] at h1 ⊢
      rcases List.mem_cons.mp hy with rfl | hy
      · exact List.mem_cons_self _ _
      · exact List.mem_cons_of_mem _ (ih h1 hy)

/-- The function `wps_er_ap_remove` keeps the timer invariant, the records being at distinct
addresses. -/
theorem wps_er_ap_remove_timers_ok (s : Sys) (a : Nat) (hok : ap_timers_ok s = true)
    (hn : (s.er.ap.map (fun x => x.ptr)).Nodup) :
    ap_timers_ok (wps_er_ap_remove s a) = true := by
  unfold wps_er_ap_remove
  cases hf : (ap_unlink a s.er.ap).1 with
  | none => exact hok
  | some ap =>
    rw [ap_timers_ok_iff] at hok ⊢
    obtain ⟨h1, h2⟩ := hok
    refine ⟨fun y hy => ?_, fun t ht hh => ?_⟩
    · rw [wps_er_ap_free_er] at hy
      rw [wps_er_ap_free_timer_count, if_neg (ap_unlink_ptr_ne a s.er.ap ap hn hf y hy)]
      exact h1 y ((ap_unlink_sublist a s.er.ap).subset hy)
    · obtain ⟨hT, hfor⟩ := mem_wps_er_ap_free_timeouts _ ap t ht
      obtain ⟨e1, y, hy, hyp⟩ := h2 t hT hh
      rw [wps_er_ap_free_er]
      refine ⟨e1, y, ?_, hyp⟩
      apply ap_unlink_mem_of_ne a s.er.ap ap y hf hy
      intro hyap
      have : t.is_for eloop_handler.ap_timeout s.er.ptr ap.ptr = true := by
        simp [eloop_timeout.is_for, hh, e1, ← hyap, hyp]
      rw [this] at hfor
      exact Bool.noConfusion hfor

theorem mem_ap_free_foldl_timeouts (l : List wps_er_ap) (s : Sys) (t : eloop_timeout)
    (ht : t ∈ (l.foldl wps_er_ap_free s).timeouts) :
    t ∈ s.timeouts ∧ ∀ y ∈ l, t.is_for eloop_handler.ap_timeout s.er.ptr y.ptr = false := by
  induction l generalizing s with
  | nil => exact ⟨ht, fun y hy => by simp at hy⟩
  | cons x xs ih =>
    obtain ⟨h1, h2⟩ := ih (wps_er_ap_free s x) ht
    obtain ⟨h3, h4⟩ := mem_wps_er_ap_free_timeouts s x t h1
    rw [wps_er_ap_free_er] at h2
    refine ⟨h3, fun y hy => ?_⟩
    rcases List.mem_cons.mp hy with rfl | hy
    · exact h4
    · exact h2 y hy

/-- The function `wps_er_ap_remove_all` keeps the timer invariant: the list is empty and no
expiry timer is left. -/
theorem wps_er_ap_remove_all_timers_ok (s : Sys) (hok : ap_timers_ok s = true) :
    ap_timers_ok (wps_er_ap_remove_all s) = true := by
  rw [ap_timers_ok_iff] at hok ⊢
  obtain ⟨-, h2⟩ := hok
  refine ⟨fun y hy => ?_, fun t ht hh => ?_⟩
  · rw [wps_er_ap_remove_all_er] at hy
    simp at hy
  · unfold wps_er_ap_remove_all at ht
    obtain ⟨hT, hfor⟩ := mem_ap_free_foldl_timeouts s.er.ap _ t ht
    obtain ⟨e1, y, hy, hyp⟩ := h2 t hT hh
    have := hfor y hy
    simp [eloop_timeout.is_for, hh, e1, hyp] at this

/-! ## Expiry -/

/-- C4: evaluation at the failing input.  After the discovery of scenario S1
the timer invariant holds; when the expiry timer of the AP fires,
`wps_er_ap_timeout` frees the record without unlinking it, so the AP is still
in the list and has no timer: the invariant is broken.  On the same state
`wps_er_ap_remove` and `wps_er_ap_remove_all` keep it, as they and
`wps_er_ap_add` do on every state (`wps_er_ap_remove_timers_ok`,
`wps_er_ap_remove_all_timers_ok`, `wps_er_ap_add_timers_ok`). -/
theorem ap_timeout_breaks_timer_invariant :
    ap_timers_ok er1 = true ∧
    ap_timers_ok (eloop_fire_ap_timeout er1 12288) = false ∧
    (eloop_fire_ap_timeout er1 12288).er.ap = [ap1] ∧
    ap_timer_count (eloop_fire_ap_timeout er1 12288) 12288 = 0 ∧
    ap_timers_ok (wps_er_ap_remove er1 3221225989) = true ∧
    ap_timers_ok (wps_er_ap_remove_all er1) = true := by
  decide

/-- C5: evaluation at the failing input.  `wps_er_ap_timeout` never changes the
registrar context, so the AP whose timer fired stays linked in `er->ap`: after
the expiry of the AP of scenario S1 both `wps_er_ap_get` with its address and
`wps_er_ap_get_id` with its id still return it, whereas `wps_er_ap_remove`
unlinks it. -/
theorem ap_timeout_keeps_ap_linked :
    (∀ (s : Sys) (ap : wps_er_ap), (wps_er_ap_timeout s ap).er = s.er) ∧
    wps_er_ap_get (eloop_fire_ap_timeout er1 12288).er 3221225989 = some ap1 ∧
    wps_er_ap_get_id (eloop_fire_ap_timeout er1 12288).er 1 = some ap1 ∧
    (eloop_fire_ap_timeout er1 12288).timeouts = [] ∧
    (wps_er_ap_remove er1 3221225989).er.ap = [] := by
  refine ⟨fun s ap => wps_er_ap_free_er s ap, ?_, ?_, ?_, ?_⟩ <;> decide

/-! ## ByeBye -/

/-- C6: in a registry whose APs have distinct addresses, after
`wps_er_ap_remove(a)` no AP with address `a` is in the list, the other APs are
the same records in the same order and nothing else of the registrar context
changes; no expiry timer is armed for the removed AP and the expiry timers of
the other records are as before; when no AP has address `a` the state is
unchanged. -/
theorem wps_er_ap_remove_spec (s : Sys) (a : Nat) (h : ap_addr_unique s.er) :
    (∀ x ∈ (wps_er_ap_remove s a).er.ap, x.addr ≠ a) ∧
    (wps_er_ap_remove s a).er =
      { s.er with ap := s.er.ap.filter (fun x => decide (x.addr ≠ a)) } ∧
    (∀ x ∈ s.er.ap, x.addr = a → ap_timer_count (wps_er_ap_remove s a) x.ptr = 0) ∧
    (∀ x ∈ s.er.ap, x.addr = a → ∀ q, q ≠ x.ptr →
      ap_timer_count (wps_er_ap_remove s a) q = ap_timer_count s q) ∧
    ((∀ x ∈ s.er.ap, x.addr ≠ a) → wps_er_ap_remove s a = s) := by
  have her : (wps_er_ap_remove s a).er =
      { s.er with ap := s.er.ap.filter (fun x => decide (x.addr ≠ a)) } := by
    unfold wps_er_ap_remove
    cases hf : (ap_unlink a s.er.ap).1 with
    | none =>
      rw [ap_unlink_fst, List.find?_eq_none] at hf
      have : s.er.ap.filter (fun x => decide (x.addr ≠ a)) = s.er.ap := by
        rw [List.filter_eq_self]
        intro y hy
        simpa using hf y hy
      show s.er = _
      rw [this]
    | some ap =>
      simp only [wps_er_ap_free_er]
      rw [ap_unlink_snd a s.er.ap h]
  have hcount : ∀ x ∈ s.er.ap, x.addr = a → ∀ q,
      ap_timer_count (wps_er_ap_remove s a) q = if q = x.ptr then 0 else ap_timer_count s q := by
    intro x hx hxa q
    unfold wps_er_ap_remove
    cases hf : (ap_unlink a s.er.ap).1 with
    | none =>
      rw [ap_unlink_fst, List.find?_eq_none] at hf
      exact absurd hxa (by simpa using hf x hx)
    | some ap =>
      rw [ap_unlink_fst] at hf
      have hap : ap ∈ s.er.ap ∧ ap.addr = a :=
        ⟨List.mem_of_find?_eq_some hf, by simpa using List.find?_some hf⟩
      have hxap : x = ap :=
        List.inj_on_of_nodup_map h hx hap.1 (by rw [hxa, hap.2])
      simp only [wps_er_ap_free_timer_count, hxap]
      rfl
  refine ⟨?_, her, ?_, ?_, ?_⟩
  · intro x hx
    rw [her] at hx
    simpa using (List.mem_filter.mp hx).2
  · intro x hx hxa
    rw [hcount x hx hxa, if_pos rfl]
  · intro x hx hxa q hq
    rw [hcount x hx hxa, if_neg hq]
  · intro hno
    unfold wps_er_ap_remove
    rw [ap_unlink_not_mem a s.er.ap hno]

/-- C6, witness: the byebye of scenario S2 after the discovery of S1. -/
theorem wps_er_ap_remove_spec_witness :
    ap_addr_unique er1.er ∧
    (wps_er_ap_remove er1 3221225989).er =
      { er1.er with ap := er1.er.ap.filter (fun x => decide (x.addr ≠ 3221225989)) } ∧
    (wps_er_ap_remove er1 3221225989).er.ap = [] ∧
    (wps_er_ap_remove er1 3221225989).timeouts = [] :=
  ⟨by decide, (wps_er_ap_remove_spec er1 3221225989 (by decide)).2.1, by decide, by decide⟩

/-! ## Repeated discovery -/

/-- The function `wps_er_ap_add` for an address the lookup finds. -/
theorem wps_er_ap_add_of_get (s : Sys) (a : Nat) (location : List Char) (max_age : Int)
    (m : ap_add_env) (ap : wps_er_ap) (hget : wps_er_ap_get s.er a = some ap) :
    (wps_er_ap_add s a location max_age m).er = s.er ∧
    (wps_er_ap_add s a location max_age m).calls = s.calls ∧
    (wps_er_ap_add s a location max_age m).timeouts.filter
        (fun t => t.is_for eloop_handler.ap_timeout s.er.ptr ap.ptr) =
      [{ secs := max_age, usecs := 0, handler := eloop_handler.ap_timeout,
         eloop_data := s.er.ptr, user_ctx := ap.ptr }] := by
  refine ⟨?_, ?_, ?_⟩
  · simp [wps_er_ap_add, hget]
  · simp [wps_er_ap_add, hget]
  · simp only [wps_er_ap_add, hget, eloop_register_timeout, List.filter_append,
      eloop_cancel_filter_same, List.nil_append]
    simp [List.filter, eloop_timeout_is_for_self]

theorem discover_known (rest : List (Int × ap_add_env)) (st : Sys) (a : Nat)
    (location : List Char) (ap : wps_er_ap) (last : Int)
    (hget : wps_er_ap_get st.er a = some ap)
    (ht : st.timeouts.filter (fun t => t.is_for eloop_handler.ap_timeout st.er.ptr ap.ptr) =
      [{ secs := last, usecs := 0, handler := eloop_handler.ap_timeout,
         eloop_data := st.er.ptr, user_ctx := ap.ptr }]) :
    (discover st a location rest).er = st.er ∧
    (discover st a location rest).calls = st.calls ∧
    (discover st a location rest).timeouts.filter
        (fun t => t.is_for eloop_handler.ap_timeout st.er.ptr ap.ptr) =
      [{ secs := (rest.map Prod.fst).getLastD last, usecs := 0,
         handler := eloop_handler.ap_timeout, eloop_data := st.er.ptr, user_ctx := ap.ptr }] := by
  induction rest generalizing st last with
  | nil => exact ⟨rfl, rfl, ht⟩
  | cons e es ih =>
    obtain ⟨h1, h2, h3⟩ := wps_er_ap_add_of_get st a location e.1 e.2 ap hget
    have := ih (wps_er_ap_add st a location e.1 e.2) e.1 (by rw [h1]; exact hget)
      (by rw [h1]; exact h3)
    rw [h1, h2] at this
    have hd : discover st a location (e :: es) =
        discover (wps_er_ap_add st a location e.1 e.2) a location es := rfl
    rw [hd, List.map_cons, List.getLastD_cons]
    exact this

/-- C7 (amended): for a registry with no AP at address `a`, when the first of
the discovery events for `(a, location)` gets its record at an address `p` no
timer is keyed to, its copy of the location and its HTTP client, then after the
events with max-ages `m1` and those of `rest`, whatever the allocations of the
later events return, the list holds exactly one AP with address `a`, the record
the first event linked (id `next_ap_id + 1`, the location given), one
description GET has been started and nothing else, and the one expiry timer
armed for that AP is set to the max-age of the last event. -/
theorem ap_discovery_idempotent (s : Sys) (a : Nat) (location : List Char) (m1 : Int)
    (e1 : ap_add_env) (p : Nat) (rest : List (Int × ap_add_env))
    (hno : a ∉ s.er.ap.map (fun ap => ap.addr))
    (hz : e1.os_zalloc = some p) (hs : e1.os_strdup = true) (hh : e1.http_client_url = true)
    (hfresh : ap_timer_count s p = 0) :
    (discover s a location ((m1, e1) :: rest)).er =
      { s.er with
        next_ap_id := (s.er.next_ap_id + 1) % UINT_MOD,
        ap := ap_new p ((s.er.next_ap_id + 1) % UINT_MOD) a location
                (some (dev_desc_get p location)) :: s.er.ap } ∧
    (discover s a location ((m1, e1) :: rest)).er.ap.filter (fun x => decide (x.addr = a)) =
      [ap_new p ((s.er.next_ap_id + 1) % UINT_MOD) a location
        (some (dev_desc_get p location))] ∧
    (discover s a location ((m1, e1) :: rest)).calls =
      s.calls ++ [ext_call.http_start (dev_desc_get p location)] ∧
    (discover s a location ((m1, e1) :: rest)).timeouts.filter
        (fun t => t.is_for eloop_handler.ap_timeout s.er.ptr p) =
      [{ secs := (rest.map Prod.fst).getLastD m1, usecs := 0,
         handler := eloop_handler.ap_timeout, eloop_data := s.er.ptr, user_ctx := p }] := by
  have hget := wps_er_ap_get_none s.er a hno
  have hf0 : s.timeouts.filter (fun t => t.is_for eloop_handler.ap_timeout s.er.ptr p) = [] :=
    List.length_eq_zero.mp hfresh
  have hs1 : wps_er_ap_add s a location m1 e1 =
      { er := { s.er with
          next_ap_id := (s.er.next_ap_id + 1) % UINT_MOD,
          ap := ap_new p ((s.er.next_ap_id + 1) % UINT_MOD) a location
                  (some (dev_desc_get p location)) :: s.er.ap },
        timeouts := eloop_register_timeout s.timeouts m1 0 eloop_handler.ap_timeout s.er.ptr p,
        calls := s.calls ++ [ext_call.http_start (dev_desc_get p location)] } := by
    simp [wps_er_ap_add, hget, hz, hs, hh]
  have hk := discover_known rest (wps_er_ap_add s a location m1 e1) a location
    (ap_new p ((s.er.next_ap_id + 1) % UINT_MOD) a location (some (dev_desc_get p location)))
    m1
    (by rw [hs1]; simp [wps_er_ap_get, ap_new])
    (by
      rw [hs1]
      simp only [eloop_register_timeout, List.filter_append]
      have hp : (ap_new p ((s.er.next_ap_id + 1) % UINT_MOD) a location
          (some (dev_desc_get p location))).ptr = p := rfl
      rw [hp, hf0]
      simp [List.filter, eloop_timeout_is_for_self])
  have hd : discover s a location ((m1, e1) :: rest) =
      discover (wps_er_ap_add s a location m1 e1) a location rest := rfl
  rw [hd]
  obtain ⟨k1, k2, k3⟩ := hk
  have he : (wps_er_ap_add s a location m1 e1).er =
      { s.er with
        next_ap_id := (s.er.next_ap_id + 1) % UINT_MOD,
        ap := ap_new p ((s.er.next_ap_id + 1) % UINT_MOD) a location
                (some (dev_desc_get p location)) :: s.er.ap } := by rw [hs1]
  have hc : (wps_er_ap_add s a location m1 e1).calls =
      s.calls ++ [ext_call.http_start (dev_desc_get p location)] := by rw [hs1]
  have hptr : (wps_er_ap_add s a location m1 e1).er.ptr = s.er.ptr := by rw [he]
  have hp : (ap_new p ((s.er.next_ap_id + 1) % UINT_MOD) a location
      (some (dev_desc_get p location))).ptr = p := rfl
  rw [hp, hptr] at k3
  refine ⟨k1.trans he, ?_, k2.trans hc, k3⟩
  rw [k1.trans he]
  have hrest : s.er.ap.filter (fun x => decide (x.addr = a)) = [] := by
    rw [List.filter_eq_nil_iff]
    intro x hx hxa
    exact hno (List.mem_map.mpr ⟨x, hx, by simpa using hxa⟩)
  simp [List.filter, ap_new, hrest]

/-- C7, witness: the AP of scenario S1 is advertised three times, with max-ages
1800, 900 and 1200; the expiry timer is set to 1200 seconds. -/
theorem ap_discovery_idempotent_witness :
    3221225989 ∉ er0.er.ap.map (fun ap => ap.addr) ∧
    (env_ok 12288).os_zalloc = some 12288 ∧ (env_ok 12288).os_strdup = true ∧
    (env_ok 12288).http_client_url = true ∧ ap_timer_count er0 12288 = 0 ∧
    (discover er0 3221225989 loc_s1
        [(1800, env_ok 12288), (900, env_zalloc_fails), (1200, env_ok 16384)]).timeouts.filter
        (fun t => t.is_for eloop_handler.ap_timeout er0.er.ptr 12288) =
      [{ secs := ([(900, env_zalloc_fails), (1200, env_ok 16384)].map Prod.fst).getLastD 1800,
         usecs := 0, handler := eloop_handler.ap_timeout, eloop_data := er0.er.ptr,
         user_ctx := 12288 }] :=
  ⟨by decide, rfl, rfl, rfl, by decide,
   (ap_discovery_idempotent er0 3221225989 loc_s1 1800 (env_ok 12288) 12288
      [(900, env_zalloc_fails), (1200, env_ok 16384)] (by decide) rfl rfl rfl
      (by decide)).2.2.2⟩

/-- C7, counterexample: when the record allocation of the only discovery event
fails no AP exists afterwards; when the first event cannot copy the location
the AP is the one the second event creates, with id 2; when the HTTP client
cannot be allocated the AP exists and no description GET has been started. -/
theorem ap_discovery_counterexample :
    (discover er0 3221225989 loc_s1 [(1800, env_zalloc_fails)]).er.ap = [] ∧
    (discover er0 3221225989 loc_s1
      [(1800, env_strdup_fails 12288), (900, env_ok 12288)]).er.ap.map (fun ap => ap.id)
      = [2] ∧
    (discover er0 3221225989 loc_s1 [(1800, env_http_fails 12288)]).er.ap.length = 1 ∧
    (discover er0 3221225989 loc_s1 [(1800, env_http_fails 12288)]).calls = [] := by
  decide

/-! ## Station attributes -/

theorem sta_set_data_m1 (sta : wps_er_sta) (attr : wps_parse_attr) (probe_req : Int)
    (m : sta_env) :
    (sta_set_data sta attr probe_req m).m1_received =
      if probe_req = 0 then true else sta.m1_received := by
  unfold sta_set_data
  cases attr.config_methods <;> cases attr.uuid_e <;> cases attr.primary_dev_type <;>
    cases attr.dev_password_id <;> by_cases hp : probe_req = 0 <;>
    cases hm : sta.m1_received <;> simp [hp, hm]

theorem sta_set_data_addr (sta : wps_er_sta) (attr : wps_parse_attr) (probe_req : Int)
    (m : sta_env) :
    (sta_set_data sta attr probe_req m).addr = sta.addr ∧
    (sta_set_data sta attr probe_req m).ptr = sta.ptr ∧
    (sta_set_data sta attr probe_req m).wps = sta.wps ∧
    (sta_set_data sta attr probe_req m).http = sta.http := by
  unfold sta_set_data
  cases attr.config_methods <;> cases attr.uuid_e <;> cases attr.primary_dev_type <;>
    cases attr.dev_password_id <;> by_cases hp : probe_req = 0 <;>
    cases hm : sta.m1_received <;> simp [hp, hm]

/-- The fields a Probe Request leaves alone once an M1 has been seen, and what
it does to the five strings. -/
theorem sta_set_data_probe (sta : wps_er_sta) (attr : wps_parse_attr) (probe_req : Int)
    (m : sta_env) (hp : probe_req ≠ 0) (hm : sta.m1_received = true) :
    (sta_set_data sta attr probe_req m).config_methods = sta.config_methods ∧
    (sta_set_data sta attr probe_req m).uuid = sta.uuid ∧
    (sta_set_data sta attr probe_req m).pri_dev_type = sta.pri_dev_type ∧
    (sta_set_data sta attr probe_req m).dev_passwd_id = sta.dev_passwd_id ∧
    (sta_set_data sta attr probe_req m).manufacturer =
      sta_set_str sta.manufacturer attr.manufacturer m.malloc_manufacturer ∧
    (sta_set_data sta attr probe_req m).model_name =
      sta_set_str sta.model_name attr.model_name m.malloc_model_name ∧
    (sta_set_data sta attr probe_req m).model_number =
      sta_set_str sta.model_number attr.model_number m.malloc_model_number ∧
    (sta_set_data sta attr probe_req m).serial_number =
      sta_set_str sta.serial_number attr.serial_number m.malloc_serial_number ∧
    (sta_set_data sta attr probe_req m).dev_name =
      sta_set_str sta.dev_name attr.dev_name m.malloc_dev_name := by
  unfold sta_set_data
  cases attr.config_methods <;> cases attr.uuid_e <;> cases attr.primary_dev_type <;>
    cases attr.dev_password_id <;> simp [hp, hm]

theorem sta_store_get_same (addr : List Nat) (new : wps_er_sta) (l : List wps_er_sta)
    (old : wps_er_sta)
    (hold : l.find? (fun sta => decide (sta.addr.take 6 = addr.take 6)) = some old)
    (hnew : new.addr.take 6 = addr.take 6) :
    (sta_store addr new l).find? (fun sta => decide (sta.addr.take 6 = addr.take 6)) =
      some new := by
  induction l with
  | nil => simp at hold
  | cons x xs ih =>
    unfold sta_store
    by_cases hx : x.addr.take 6 = addr.take 6
    · simp [hx, hnew]
    · rw [List.find?_cons_of_neg _ (by simpa using hx)] at hold
      rw [if_neg hx, List.find?_cons_of_neg _ (by simpa using hx)]
      exact ih hold

theorem sta_store_get_other (addr x : List Nat) (new : wps_er_sta) (l : List wps_er_sta)
    (hnew : new.addr.take 6 = addr.take 6) (hne : addr.take 6 ≠ x.take 6) :
    (sta_store addr new l).find? (fun sta => decide (sta.addr.take 6 = x.take 6)) =
      l.find? (fun sta => decide (sta.addr.take 6 = x.take 6)) := by
  induction l with
  | nil => rfl
  | cons y ys ih =>
    unfold sta_store
    by_cases hy : y.addr.take 6 = addr.take 6
    · have h1 : ¬ new.addr.take 6 = x.take 6 := by rw [hnew]; exact hne
      have h2 : ¬ y.addr.take 6 = x.take 6 := by rw [hy]; exact hne
      rw [if_pos hy, List.find?_cons_of_neg _ (by simpa using h1),
        List.find?_cons_of_neg _ (by simpa using h2)]
    · rw [if_neg hy]
      by_cases hyx : y.addr.take 6 = x.take 6
      · rw [List.find?_cons_of_pos _ (by simpa using hyx),
          List.find?_cons_of_pos _ (by simpa using hyx)]
      · rw [List.find?_cons_of_neg _ (by simpa using hyx),
          List.find?_cons_of_neg _ (by simpa using hyx)]
        exact ih

/-- The function `wps_er_add_sta_data` for a MAC the lookup finds. -/
theorem wps_er_add_sta_data_found (s : Sys) (ap : wps_er_ap) (addr : List Nat)
    (attr : wps_parse_attr) (probe_req : Int) (m : sta_env) (sta : wps_er_sta)
    (hget : wps_er_sta_get ap addr = some sta) :
    (wps_er_add_sta_data s ap addr attr probe_req m).2.2 =
      some (sta_set_data sta attr probe_req m) ∧
    (wps_er_add_sta_data s ap addr attr probe_req m).2.1 =
      { ap with sta := sta_store addr (sta_set_data sta attr probe_req m) ap.sta } ∧
    wps_er_sta_get (wps_er_add_sta_data s ap addr attr probe_req m).2.1 addr =
      some (sta_set_data sta attr probe_req m) := by
  have h1 : (wps_er_add_sta_data s ap addr attr probe_req m).2.1 =
      { ap with sta := sta_store addr (sta_set_data sta attr probe_req m) ap.sta } := by
    simp [wps_er_add_sta_data, hget]
  refine ⟨by simp [wps_er_add_sta_data, hget], h1, ?_⟩
  rw [h1]
  unfold wps_er_sta_get at hget ⊢
  have hkey : sta.addr.take 6 = addr.take 6 := by simpa using List.find?_some hget
  exact sta_store_get_same addr _ ap.sta sta hget
    (by rw [(sta_set_data_addr sta attr probe_req m).1]; exact hkey)

/-- C8 (amended): for a station the lookup finds with `m1_received` set,
`wps_er_add_sta_data` with a non-zero `probe_req` returns that station with
`config_methods`, `uuid`, `pri_dev_type` and `dev_passwd_id` unchanged and
`m1_received` still set; each of the five strings is kept when the attribute is
absent and replaced by the copy of the attribute (or by NULL when its
allocation fails) when it is present. -/
theorem probe_req_keeps_fixed_fields (s : Sys) (ap : wps_er_ap) (addr : List Nat)
    (attr : wps_parse_attr) (probe_req : Int) (m : sta_env) (sta : wps_er_sta)
    (hget : wps_er_sta_get ap addr = some sta) (hm : sta.m1_received = true)
    (hp : probe_req ≠ 0) :
    ∃ sta1, (wps_er_add_sta_data s ap addr attr probe_req m).2.2 = some sta1 ∧
      wps_er_sta_get (wps_er_add_sta_data s ap addr attr probe_req m).2.1 addr = some sta1 ∧
      sta1.m1_received = true ∧
      sta1.config_methods = sta.config_methods ∧ sta1.uuid = sta.uuid ∧
      sta1.pri_dev_type = sta.pri_dev_type ∧ sta1.dev_passwd_id = sta.dev_passwd_id ∧
      sta1.manufacturer =
        sta_set_str sta.manufacturer attr.manufacturer m.malloc_manufacturer ∧
      sta1.model_name = sta_set_str sta.model_name attr.model_name m.malloc_model_name ∧
      sta1.model_number =
        sta_set_str sta.model_number attr.model_number m.malloc_model_number ∧
      sta1.serial_number =
        sta_set_str sta.serial_number attr.serial_number m.malloc_serial_number ∧
      sta1.dev_name = sta_set_str sta.dev_name attr.dev_name m.malloc_dev_name ∧
      (attr.manufacturer = none → sta1.manufacturer = sta.manufacturer) ∧
      (attr.model_name = none → sta1.model_name = sta.model_name) ∧
      (attr.model_number = none → sta1.model_number = sta.model_number) ∧
      (attr.serial_number = none → sta1.serial_number = sta.serial_number) ∧
      (attr.dev_name = none → sta1.dev_name = sta.dev_name) := by
  obtain ⟨h1, -, h3⟩ := wps_er_add_sta_data_found s ap addr attr probe_req m sta hget
  obtain ⟨f1, f2, f3, f4, g1, g2, g3, g4, g5⟩ := sta_set_data_probe sta attr probe_req m hp hm
  refine ⟨_, h1, h3, ?_, f1, f2, f3, f4, g1, g2, g3, g4, g5, ?_, ?_, ?_, ?_, ?_⟩
  · rw [sta_set_data_m1, if_neg hp, hm]
  · intro h; rw [g1, h]; rfl
  · intro h; rw [g2, h]; rfl
  · intro h; rw [g3, h]; rfl
  · intro h; rw [g4, h]; rfl
  · intro h; rw [g5, h]; rfl

/-- C8, witness: a Probe Request for the station that has sent an M1 leaves its
config methods at 0x0080. -/
theorem probe_req_keeps_fixed_fields_witness :
    wps_er_sta_get ap1_sta mac_s4 = some sta_m1 ∧ sta_m1.m1_received = true ∧
    (1 : Int) ≠ 0 ∧
    ((wps_er_add_sta_data er1 ap1_sta mac_s4 attr_probe 1 (sta_env_ok 24576)).2.2).map
      (fun sta => sta.config_methods) = some 128 := by
  obtain ⟨sta1, h1, _, _, h4, _⟩ :=
    probe_req_keeps_fixed_fields er1 ap1_sta mac_s4 attr_probe 1 (sta_env_ok 24576) sta_m1
      (by decide) (by decide) (by decide)
  refine ⟨by decide, by decide, by decide, ?_⟩
  rw [h1, Option.map_some', h4]
  rfl

/-- C8, counterexample: the station has `m1_received` set, and the Probe
Request overwrites its manufacturer "Old" with "New" and its device name "Foo"
with "Bar". -/
theorem probe_req_overwrites_strings :
    wps_er_sta_get ap1_sta mac_s4 = some sta_m1 ∧ sta_m1.m1_received = true ∧
    sta_m1.manufacturer = some [79, 108, 100, 0] ∧ sta_m1.dev_name = some [70, 111, 111, 0] ∧
    ((wps_er_add_sta_data er1 ap1_sta mac_s4 attr_probe 1 (sta_env_ok 24576)).2.2).map
      (fun sta => sta.manufacturer) = some (some [78, 101, 119, 0]) ∧
    ((wps_er_add_sta_data er1 ap1_sta mac_s4 attr_probe 1 (sta_env_ok 24576)).2.2).map
      (fun sta => sta.dev_name) = some (some [66, 97, 114, 0]) := by
  decide

/-! ## The `m1_received` flag -/

/-- One `wps_er_add_sta_data` keeps a station with `m1_received` set in the
list, with the flag set. -/
theorem wps_er_add_sta_data_keeps_m1 (s : Sys) (ap : wps_er_ap) (u : sta_upsert)
    (x : List Nat) (sta : wps_er_sta)
    (hget : wps_er_sta_get ap x = some sta) (hm : sta.m1_received = true) :
    ∃ sta1, wps_er_sta_get (wps_er_add_sta_data s ap u.addr u.attr u.probe_req u.m).2.1 x
        = some sta1 ∧ sta1.m1_received = true := by
  by_cases hk : u.addr.take 6 = x.take 6
  · have hget1 : wps_er_sta_get ap u.addr = some sta := by
      unfold wps_er_sta_get at hget ⊢
      rw [hk]
      exact hget
    obtain ⟨-, -, h3⟩ := wps_er_add_sta_data_found s ap u.addr u.attr u.probe_req u.m sta hget1
    refine ⟨sta_set_data sta u.attr u.probe_req u.m, ?_, ?_⟩
    · unfold wps_er_sta_get at h3 ⊢
      rw [← hk]
      exact h3
    · rw [sta_set_data_m1, hm]
      simp
  · refine ⟨sta, ?_, hm⟩
    cases hg : wps_er_sta_get ap u.addr with
    | some sta0 =>
      obtain ⟨-, h2, -⟩ :=
        wps_er_add_sta_data_found s ap u.addr u.attr u.probe_req u.m sta0 hg
      rw [h2]
      unfold wps_er_sta_get at hget hg ⊢
      have hkey : sta0.addr.take 6 = u.addr.take 6 := by simpa using List.find?_some hg
      rw [sta_store_get_other u.addr x _ ap.sta
        (by rw [(sta_set_data_addr sta0 u.attr u.probe_req u.m).1]; exact hkey) hk]
      exact hget
    | none =>
      cases hz : u.m.os_zalloc with
      | none =>
        have : (wps_er_add_sta_data s ap u.addr u.attr u.probe_req u.m).2.1 = ap := by
          simp [wps_er_add_sta_data, hg, hz]
        rw [this]
        exact hget
      | some p =>
        have h2 : (wps_er_add_sta_data s ap u.addr u.attr u.probe_req u.m).2.1 =
            { ap with sta := sta_set_data (sta_new p u.addr) u.attr u.probe_req u.m :: ap.sta }
            := by
          simp [wps_er_add_sta_data, hg, hz]
        rw [h2]
        unfold wps_er_sta_get at hget ⊢
        have hnew : ¬ (sta_set_data (sta_new p u.addr)
            u.attr u.probe_req u.m).addr.take 6 = x.take 6 := by
          rw [(sta_set_data_addr _ u.attr u.probe_req u.m).1]
          simp only [sta_new, os_memcpy, sta_zalloc, List.drop_replicate, Nat.sub_self,
            List.replicate_zero, List.append_nil, List.take_take, Nat.min_self]
          exact hk
        rw [List.find?_cons_of_neg _ (by simpa using hnew)]
        exact hget

theorem sta_upserts_keep_m1 (ups : List sta_upsert) (s : Sys) (ap : wps_er_ap)
    (x : List Nat) (sta : wps_er_sta)
    (hget : wps_er_sta_get ap x = some sta) (hm : sta.m1_received = true) :
    ∃ sta1, wps_er_sta_get (sta_upserts s ap ups).2 x = some sta1 ∧
      sta1.m1_received = true := by
  induction ups generalizing s ap sta with
  | nil => exact ⟨sta, hget, hm⟩
  | cons u us ih =>
    obtain ⟨sta1, h1, h2⟩ := wps_er_add_sta_data_keeps_m1 s ap u x sta hget hm
    exact ih _ _ sta1 h1 h2

/-- C9: `m1_received` never goes back.  A station that `wps_er_add_sta_data`
creates for a Probe Request has the flag clear; every call with
`probe_req = 0` that returns a station returns it with the flag set, and that
station is the one the lookup then finds; and a station whose flag is set is
still in the list with the flag set after every sequence of calls, for any
MACs, attributes, `probe_req` values and allocation results. -/
theorem m1_received_monotonic (s : Sys) (ap : wps_er_ap) (addr : List Nat)
    (attr : wps_parse_attr) (probe_req : Int) (m : sta_env) :
    (∀ p, wps_er_sta_get ap addr = none → m.os_zalloc = some p → probe_req ≠ 0 →
      ∃ sta1, (wps_er_add_sta_data s ap addr attr probe_req m).2.2 = some sta1 ∧
        (wps_er_add_sta_data s ap addr attr probe_req m).2.1.sta = sta1 :: ap.sta ∧
        sta1.m1_received = false) ∧
    (∀ sta1, (wps_er_add_sta_data s ap addr attr 0 m).2.2 = some sta1 →
      sta1.m1_received = true) ∧
    (∀ (ups : List sta_upsert) (x : List Nat) (sta : wps_er_sta),
      wps_er_sta_get ap x = some sta → sta.m1_received = true →
      ∃ sta1, wps_er_sta_get (sta_upserts s ap ups).2 x = some sta1 ∧
        sta1.m1_received = true) := by
  refine ⟨?_, ?_, ?_⟩
  · intro p hg hz hp
    refine ⟨sta_set_data (sta_new p addr) attr probe_req m, ?_, ?_, ?_⟩
    · simp [wps_er_add_sta_data, hg, hz]
    · simp [wps_er_add_sta_data, hg, hz]
    · rw [sta_set_data_m1, if_neg hp]
      rfl
  · intro sta1 h
    cases hg : wps_er_sta_get ap addr with
    | some sta0 =>
      obtain ⟨h1, -, -⟩ := wps_er_add_sta_data_found s ap addr attr 0 m sta0 hg
      rw [h1] at h
      rw [← Option.some.inj h, sta_set_data_m1]
      simp
    | none =>
      cases hz : m.os_zalloc with
      | none => simp [wps_er_add_sta_data, hg, hz] at h
      | some p =>
        simp only [wps_er_add_sta_data, hg, hz, Option.some.injEq] at h
        rw [← h, sta_set_data_m1]
        simp
  · intro ups x sta hget hm
    exact sta_upserts_keep_m1 ups s ap x sta hget hm

/-- C9, witness: a Probe Request from a new MAC creates a station with the flag
clear; the station that has sent an M1 keeps the flag through a Probe Request
and an EAP message. -/
theorem m1_received_monotonic_witness :
    wps_er_sta_get ap1 mac_s4 = none ∧ (sta_env_ok 24576).os_zalloc = some 24576 ∧
    (1 : Int) ≠ 0 ∧
    ((wps_er_add_sta_data er1 ap1 mac_s4 attr_probe 1 (sta_env_ok 24576)).2.2).map
      (fun sta => sta.m1_received) = some false ∧
    wps_er_sta_get ap1_sta mac_s4 = some sta_m1 ∧ sta_m1.m1_received = true ∧
    (wps_er_sta_get (sta_upserts er1 ap1_sta
        [{ addr := mac_s4, attr := attr_probe, probe_req := 1, m := sta_env_ok 24576 },
         { addr := mac_s4, attr := attr_m1, probe_req := 0, m := sta_env_ok 24576 }]).2
      mac_s4).map (fun sta => sta.m1_received) = some true := by
  have h := m1_received_monotonic er1 ap1 mac_s4 attr_probe 1 (sta_env_ok 24576)
  have h2 := m1_received_monotonic er1 ap1_sta mac_s4 attr_probe 1 (sta_env_ok 24576)
  obtain ⟨sta1, e1, _, e3⟩ := h.1 24576 (by decide) rfl (by decide)
  obtain ⟨sta2, g1, g2⟩ := h2.2.2
    [{ addr := mac_s4, attr := attr_probe, probe_req := 1, m := sta_env_ok 24576 },
     { addr := mac_s4, attr := attr_m1, probe_req := 0, m := sta_env_ok 24576 }]
    mac_s4 sta_m1 (by decide) (by decide)
  refine ⟨by decide, rfl, by decide, ?_, by decide, by decide, ?_⟩
  · rw [e1, Option.map_some', e3]
  · rw [g1, Option.map_some', g2]

/-! ## WLANEvent framing -/

/-- The MAC parser reads at most `3 * k - 1` characters for `k` bytes. -/
theorem hwaddr_aton_loop_take (k : Nat) (txt : List Nat) :
    hwaddr_aton_loop k (txt.take (3 * k - 1)) = hwaddr_aton_loop k txt := by
  induction k generalizing txt with
  | zero => simp [hwaddr_aton_loop]
  | succ k ih =>
    have h3 : 3 * (k + 1) - 1 = (3 * k) + 1 + 1 := by omega
    match txt with
    | [] => rw [List.take_nil]
    | [a] => rw [h3, List.take_succ_cons, List.take_nil]
    | a :: b :: rest =>
      rw [h3, List.take_succ_cons, List.take_succ_cons]
      simp only [hwaddr_aton_loop]
      cases hex2num a with
      | none => rfl
      | some x =>
        cases hex2num b with
        | none => rfl
        | some y =>
          by_cases hk : k = 0
          · simp [hk]
          · simp only [hk, if_false]
            match rest with
            | [] => simp
            | c :: rest1 =>
              have h4 : 3 * k = (3 * k - 1) + 1 := by omega
              rw [h4, List.take_succ_cons]
              simp only [ih rest1]

/-- The MAC parser looks at the first 17 characters only. -/
theorem hwaddr_aton_take (txt : List Nat) : hwaddr_aton (txt.take 17) = hwaddr_aton txt :=
  hwaddr_aton_loop_take 6 txt

/-- C10: `wps_er_process_wlanevent` on a decoded event buffer.  A buffer of
fewer than 18 bytes changes nothing; a buffer whose bytes 1 to 17 do not parse
as a MAC changes nothing; otherwise type byte 1 gives the Probe Request path and
type byte 2 the EAP path, each with the parsed MAC and with the bytes from
offset 18 on as the message; any other type byte changes nothing. -/
theorem wps_er_process_wlanevent_framing (X : collab) (s : Sys) (ap : wps_er_ap)
    (event : List Nat) (m : sta_env) :
    (event.length < 18 → wps_er_process_wlanevent X s ap event m = some (s, ap)) ∧
    (hwaddr_aton ((event.drop 1).take 17) = none →
      wps_er_process_wlanevent X s ap event m = some (s, ap)) ∧
    (∀ mac, 18 ≤ event.length → hwaddr_aton ((event.drop 1).take 17) = some mac →
      event.head? = some 1 →
      wps_er_process_wlanevent X s ap event m =
        some (wps_er_process_wlanevent_probe_req X s ap mac (event.drop 18) m)) ∧
    (∀ mac, 18 ≤ event.length → hwaddr_aton ((event.drop 1).take 17) = some mac →
      event.head? = some 2 →
      wps_er_process_wlanevent X s ap event m =
        wps_er_process_wlanevent_eap X s ap mac (event.drop 18) m) ∧
    (∀ t, event.head? = some t → t ≠ 1 → t ≠ 2 →
      wps_er_process_wlanevent X s ap event m = some (s, ap)) := by
  refine ⟨?_, ?_, ?_, ?_, ?_⟩
  · intro h
    have h1 : event.length < 1 + 17 := by omega
    simp [wps_er_process_wlanevent, h1]
  · intro h
    rw [hwaddr_aton_take] at h
    unfold wps_er_process_wlanevent
    split_ifs
    · rfl
    · simp only [h]
  · intro mac hlen hmac ht
    rw [hwaddr_aton_take] at hmac
    have h1 : ¬ event.length < 1 + 17 := by omega
    have h2 : event.headD 0 = 1 := by
      cases event with
      | nil => simp at ht
      | cons a as => simpa using ht
    unfold wps_er_process_wlanevent
    rw [if_neg h1]
    simp only [hmac]
    rw [h2]
    rfl
  · intro mac hlen hmac ht
    rw [hwaddr_aton_take] at hmac
    have h1 : ¬ event.length < 1 + 17 := by omega
    have h2 : event.headD 0 = 2 := by
      cases event with
      | nil => simp at ht
      | cons a as => simpa using ht
    unfold wps_er_process_wlanevent
    rw [if_neg h1]
    simp only [hmac]
    rw [h2]
    rfl
  · intro t ht h1 h2
    have h3 : event.headD 0 = t := by
      cases event with
      | nil => simp at ht
      | cons a as => simpa using ht
    unfold wps_er_process_wlanevent
    split_ifs
    · rfl
    · cases hwaddr_aton (event.drop 1) with
      | none => rfl
      | some mac =>
        show (if event.headD 0 = 1 then _ else if event.headD 0 = 2 then _ else _) = _
        rw [h3, if_neg h1, if_neg h2]

/-- C10, witness: the WLANEvent of scenario S4 has 21 bytes, its MAC text
parses to `02:00:00:00:00:01` and its type byte 1 selects the Probe Request
path with the payload "Foo"; with type byte 2 the same MAC selects the EAP
path; with type byte 3 nothing changes. -/
theorem wps_er_process_wlanevent_framing_witness :
    18 ≤ event_s4.length ∧ hwaddr_aton ((event_s4.drop 1).take 17) = some mac_s4 ∧
    event_s4.head? = some 1 ∧
    wps_er_process_wlanevent collab0 er1 ap1 event_s4 (sta_env_ok 24576) =
      some (wps_er_process_wlanevent_probe_req collab0 er1 ap1 mac_s4 (event_s4.drop 18)
        (sta_env_ok 24576)) ∧
    event_s4.drop 18 = [70, 111, 111] ∧
    wps_er_process_wlanevent collab0 er1 ap1 event_eap (sta_env_ok 24576) =
      wps_er_process_wlanevent_eap collab0 er1 ap1 mac_s4 (event_eap.drop 18)
        (sta_env_ok 24576) ∧
    wps_er_process_wlanevent collab0 er1 ap1 event_type3 (sta_env_ok 24576) =
      some (er1, ap1) :=
  ⟨by decide, by decide, by decide,
   (wps_er_process_wlanevent_framing collab0 er1 ap1 event_s4 (sta_env_ok 24576)).2.2.1
     mac_s4 (by decide) (by decide) (by decide),
   by decide,
   (wps_er_process_wlanevent_framing collab0 er1 ap1 event_eap (sta_env_ok 24576)).2.2.2.1
     mac_s4 (by decide) (by decide) (by decide),
   (wps_er_process_wlanevent_framing collab0 er1 ap1 event_type3 (sta_env_ok 24576)).2.2.2.2
     3 (by decide) (by decide) (by decide)⟩

/-! ## Stations: the registrar handle and the MAC key -/

theorem sta_store_map {β : Type} (f : wps_er_sta → β) (addr : List Nat) (new : wps_er_sta)
    (l : List wps_er_sta) (old : wps_er_sta)
    (hold : l.find? (fun sta => decide (sta.addr.take 6 = addr.take 6)) = some old)
    (hf : f new = f old) :
    (sta_store addr new l).map f = l.map f := by
  induction l with
  | nil => rfl
  | cons x xs ih =>
    unfold sta_store
    by_cases hx : x.addr.take 6 = addr.take 6
    · rw [List.find?_cons_of_pos _ (by simpa using hx)] at hold
      rw [if_pos hx, List.map_cons, List.map_cons, hf, Option.some.inj hold]
    · rw [List.find?_cons_of_neg _ (by simpa using hx)] at hold
      rw [if_neg hx, List.map_cons, List.map_cons, ih hold]

theorem sta_new_key (p : Nat) (addr : List Nat) : (sta_new p addr).addr.take 6 = addr.take 6 := by
  simp [sta_new, os_memcpy, sta_zalloc]

/-- The function `wps_er_add_sta_data` for a MAC the lookup does not find. -/
theorem wps_er_add_sta_data_new (s : Sys) (ap : wps_er_ap) (addr : List Nat)
    (attr : wps_parse_attr) (probe_req : Int) (m : sta_env)
    (hget : wps_er_sta_get ap addr = none) :
    (m.os_zalloc = none → wps_er_add_sta_data s ap addr attr probe_req m = (s, ap, none)) ∧
    (∀ p, m.os_zalloc = some p →
      (wps_er_add_sta_data s ap addr attr probe_req m).2.2 =
        some (sta_set_data (sta_new p addr) attr probe_req m) ∧
      (wps_er_add_sta_data s ap addr attr probe_req m).2.1 =
        { ap with sta := sta_set_data (sta_new p addr) attr probe_req m :: ap.sta }) := by
  refine ⟨fun hz => ?_, fun p hz => ⟨?_, ?_⟩⟩ <;> simp [wps_er_add_sta_data, hget, hz]

theorem wps_er_add_sta_data_calls (s : Sys) (ap : wps_er_ap) (addr : List Nat)
    (attr : wps_parse_attr) (probe_req : Int) (m : sta_env) :
    (wps_er_add_sta_data s ap addr attr probe_req m).1.calls = s.calls ∧
    (wps_er_add_sta_data s ap addr attr probe_req m).1.er = s.er := by
  unfold wps_er_add_sta_data
  cases wps_er_sta_get ap addr with
  | some sta0 => exact ⟨rfl, rfl⟩
  | none =>
    cases m.os_zalloc with
    | none => exact ⟨rfl, rfl⟩
    | some p => exact ⟨rfl, rfl⟩

/-- The handles of the stations after `wps_er_add_sta_data`: those before, with
a new station that holds none put in front when one is created. -/
theorem wps_er_add_sta_data_handles (s : Sys) (ap : wps_er_ap) (addr : List Nat)
    (attr : wps_parse_attr) (probe_req : Int) (m : sta_env) :
    (wps_er_add_sta_data s ap addr attr probe_req m).2.1.sta.map sta_handles =
        ap.sta.map sta_handles ∨
    ∃ p, (wps_er_add_sta_data s ap addr attr probe_req m).2.1.sta.map sta_handles =
        (p, none, none) :: ap.sta.map sta_handles := by
  cases hg : wps_er_sta_get ap addr with
  | some sta0 =>
    left
    rw [(wps_er_add_sta_data_found s ap addr attr probe_req m sta0 hg).2.1]
    obtain ⟨-, h2, h3, h4⟩ := sta_set_data_addr sta0 attr probe_req m
    exact sta_store_map sta_handles addr _ ap.sta sta0 hg (by simp [sta_handles, h2, h3, h4])
  | none =>
    cases hz : m.os_zalloc with
    | none =>
      left
      rw [(wps_er_add_sta_data_new s ap addr attr probe_req m hg).1 hz]
    | some p =>
      right
      refine ⟨p, ?_⟩
      rw [((wps_er_add_sta_data_new s ap addr attr probe_req m hg).2 p hz).2]
      obtain ⟨-, h2, h3, h4⟩ := sta_set_data_addr (sta_new p addr) attr probe_req m
      rw [List.map_cons]
      congr 1
      simp only [sta_handles, h2, h3, h4]
      rfl

/-- C12: the Probe Request path never starts a WPS session.  For every state,
AP, MAC and payload, `wps_er_process_wlanevent_probe_req` makes no call to the
WPS engine or to the HTTP client (no `wps_init`, no message fed, no
PutWLANResponse started), leaves the registrar context as it is, and leaves the
engine instance and the HTTP slot of every station as they were; a station it
creates has neither. -/
theorem probe_req_starts_no_session (X : collab) (s : Sys) (ap : wps_er_ap) (addr : List Nat)
    (msg : List Nat) (m : sta_env) :
    (wps_er_process_wlanevent_probe_req X s ap addr msg m).1.calls = s.calls ∧
    (wps_er_process_wlanevent_probe_req X s ap addr msg m).1.er = s.er ∧
    fed_msgs (wps_er_process_wlanevent_probe_req X s ap addr msg m).1.calls =
      fed_msgs s.calls ∧
    http_starts (wps_er_process_wlanevent_probe_req X s ap addr msg m).1.calls =
      http_starts s.calls ∧
    ((wps_er_process_wlanevent_probe_req X s ap addr msg m).2.sta.map sta_handles =
        ap.sta.map sta_handles ∨
     ∃ p, (wps_er_process_wlanevent_probe_req X s ap addr msg m).2.sta.map sta_handles =
        (p, none, none) :: ap.sta.map sta_handles) := by
  have hc : (wps_er_process_wlanevent_probe_req X s ap addr msg m).1.calls = s.calls := by
    unfold wps_er_process_wlanevent_probe_req
    cases X.wps_parse_msg msg with
    | none => rfl
    | some attr => exact (wps_er_add_sta_data_calls s ap addr attr 1 m).1
  refine ⟨hc, ?_, by rw [hc], by rw [hc], ?_⟩
  · unfold wps_er_process_wlanevent_probe_req
    cases X.wps_parse_msg msg with
    | none => rfl
    | some attr => exact (wps_er_add_sta_data_calls s ap addr attr 1 m).2
  · unfold wps_er_process_wlanevent_probe_req
    cases X.wps_parse_msg msg with
    | none => exact Or.inl rfl
    | some attr => exact wps_er_add_sta_data_handles s ap addr attr 1 m

/-- C13: within one AP the station MACs stay distinct.  When no two stations of
the list have the same six address bytes, the same holds after
`wps_er_add_sta_data`; the list grows only when `wps_er_sta_get` found no
station for the MAC, and then by the one new record put in front; when the
lookup finds a station, the list keeps its length and its MACs, and the station
returned is the updated record of the one found, which the lookup then
returns. -/
theorem sta_mac_unique (s : Sys) (ap : wps_er_ap) (addr : List Nat) (attr : wps_parse_attr)
    (probe_req : Int) (m : sta_env) (h : (ap.sta.map sta_key).Nodup) :
    ((wps_er_add_sta_data s ap addr attr probe_req m).2.1.sta.map sta_key).Nodup ∧
    ((wps_er_add_sta_data s ap addr attr probe_req m).2.1.sta.length ≠ ap.sta.length →
      wps_er_sta_get ap addr = none ∧
      ∃ p, m.os_zalloc = some p ∧
        (wps_er_add_sta_data s ap addr attr probe_req m).2.1.sta =
          sta_set_data (sta_new p addr) attr probe_req m :: ap.sta ∧
        (wps_er_add_sta_data s ap addr attr probe_req m).2.2 =
          some (sta_set_data (sta_new p addr) attr probe_req m)) ∧
    (∀ sta0, wps_er_sta_get ap addr = some sta0 →
      (wps_er_add_sta_data s ap addr attr probe_req m).2.1.sta.map sta_key =
        ap.sta.map sta_key ∧
      (wps_er_add_sta_data s ap addr attr probe_req m).2.1.sta.map (fun x => x.ptr) =
        ap.sta.map (fun x => x.ptr) ∧
      (wps_er_add_sta_data s ap addr attr probe_req m).2.2 =
        some (sta_set_data sta0 attr probe_req m) ∧
      wps_er_sta_get (wps_er_add_sta_data s ap addr attr probe_req m).2.1 addr =
        some (sta_set_data sta0 attr probe_req m)) := by
  have hfound : ∀ sta0, wps_er_sta_get ap addr = some sta0 →
      (wps_er_add_sta_data s ap addr attr probe_req m).2.1.sta.map sta_key =
        ap.sta.map sta_key ∧
      (wps_er_add_sta_data s ap addr attr probe_req m).2.1.sta.map (fun x => x.ptr) =
        ap.sta.map (fun x => x.ptr) := by
    intro sta0 hg
    rw [(wps_er_add_sta_data_found s ap addr attr probe_req m sta0 hg).2.1]
    obtain ⟨h1, h2, -, -⟩ := sta_set_data_addr sta0 attr probe_req m
    exact ⟨sta_store_map sta_key addr _ ap.sta sta0 hg (by simp [sta_key, h1]),
      sta_store_map (fun x => x.ptr) addr _ ap.sta sta0 hg h2⟩
  refine ⟨?_, ?_, ?_⟩
  · cases hg : wps_er_sta_get ap addr with
    | some sta0 =>
      rw [(hfound sta0 hg).1]
      exact h
    | none =>
      cases hz : m.os_zalloc with
      | none =>
        rw [(wps_er_add_sta_data_new s ap addr attr probe_req m hg).1 hz]
        exact h
      | some p =>
        rw [((wps_er_add_sta_data_new s ap addr attr probe_req m hg).2 p hz).2]
        simp only [List.map_cons, List.nodup_cons]
        refine ⟨?_, h⟩
        intro hmem
        obtain ⟨x, hx, hxk⟩ := List.mem_map.mp hmem
        unfold wps_er_sta_get at hg
        rw [List.find?_eq_none] at hg
        apply hg x hx
        have hk : sta_key (sta_set_data (sta_new p addr) attr probe_req m) = addr.take 6 := by
          unfold sta_key
          rw [(sta_set_data_addr _ attr probe_req m).1, sta_new_key]
        rw [hk] at hxk
        simpa [sta_key] using hxk
  · intro hlen
    cases hg : wps_er_sta_get ap addr with
    | some sta0 =>
      exfalso
      apply hlen
      have := congrArg List.length (hfound sta0 hg).1
      simpa using this
    | none =>
      cases hz : m.os_zalloc with
      | none =>
        exfalso
        apply hlen
        rw [(wps_er_add_sta_data_new s ap addr attr probe_req m hg).1 hz]
      | some p =>
        obtain ⟨e1, e2⟩ := (wps_er_add_sta_data_new s ap addr attr probe_req m hg).2 p hz
        exact ⟨rfl, p, rfl, by rw [e2], e1⟩
  · intro sta0 hg
    obtain ⟨e1, -, e3⟩ := wps_er_add_sta_data_found s ap addr attr probe_req m sta0 hg
    exact ⟨(hfound sta0 hg).1, (hfound sta0 hg).2, e1, e3⟩

/-- C13, witness: the AP with the one station `02:00:00:00:00:01` gets a Probe
Request from that MAC; the list still holds one station with that MAC. -/
theorem sta_mac_unique_witness :
    (ap1_sta.sta.map sta_key).Nodup ∧
    ((wps_er_add_sta_data er1 ap1_sta mac_s4 attr_probe 1 (sta_env_ok 24576)).2.1.sta.map
      sta_key).Nodup ∧
    (wps_er_add_sta_data er1 ap1_sta mac_s4 attr_probe 1 (sta_env_ok 24576)).2.1.sta.map
      sta_key = [mac_s4] :=
  ⟨by decide,
   (sta_mac_unique er1 ap1_sta mac_s4 attr_probe 1 (sta_env_ok 24576) (by decide)).1,
   by decide⟩

/-! ## Station idle timeout -/

/-- C14: evaluation at the failing input.  After the Probe Request of scenario
S4 the AP holds the station `02:00:00:00:00:01` and its idle timer is armed.
When that timer fires, `wps_er_sta_timeout` frees the record and cancels the
timer but does not unlink the record from `ap->sta`: the list is as before and
`wps_er_sta_get` with its MAC still returns the station.
`wps_er_sta_remove_all` on the same state does empty the list. -/
theorem sta_timeout_keeps_sta_linked :
    (wps_er_sta_get er_s4.2 mac_s4).map (fun sta => sta.ptr) = some 24576 ∧
    er_s4.1.timeouts.filter (fun t => t.is_for eloop_handler.sta_timeout 24576 0) ≠ [] ∧
    (eloop_fire_sta_timeout er_s4.1 er_s4.2 24576).1.timeouts.filter
      (fun t => t.is_for eloop_handler.sta_timeout 24576 0) = [] ∧
    (eloop_fire_sta_timeout er_s4.1 er_s4.2 24576).2.sta = er_s4.2.sta ∧
    (wps_er_sta_get (eloop_fire_sta_timeout er_s4.1 er_s4.2 24576).2 mac_s4).map
      (fun sta => sta.ptr) = some 24576 ∧
    (wps_er_sta_remove_all er_s4.1 er_s4.2).2.sta = [] := by
  decide

/-! ## Allocation failure on the EAP path -/

theorem wps_er_sta_process_isSome (X : collab) (s : Sys) (ap : wps_er_ap) (sta : wps_er_sta)
    (msg : List Nat) (op : wsc_op_code) (m : sta_env) (w : wps_data) (hw : sta.wps = some w) :
    (wps_er_sta_process X s ap sta msg op m).isSome = true := by
  unfold wps_er_sta_process
  rw [hw]
  simp only
  split_ifs
  · split <;> rfl
  · rfl

theorem wps_er_sta_process_some (X : collab) (s : Sys) (ap : wps_er_ap) (sta : wps_er_sta)
    (msg : List Nat) (op : wsc_op_code) (m : sta_env) (w : wps_data) (hw : sta.wps = some w) :
    ∃ q, wps_er_sta_process X s ap sta msg op m = some q :=
  Option.isSome_iff_exists.mp (wps_er_sta_process_isSome X s ap sta msg op m w hw)

theorem wps_er_sta_start_some (X : collab) (s : Sys) (ap : wps_er_ap) (sta : wps_er_sta)
    (msg : List Nat) (m : sta_env) :
    ∃ q, wps_er_sta_start X s ap sta msg m = some q := by
  apply Option.isSome_iff_exists.mp
  unfold wps_er_sta_start
  simp only
  split
  · rfl
  · exact wps_er_sta_process_isSome X _ ap _ msg _ m _ rfl

/-- The EAP path completes exactly when `wps_er_add_sta_data` returns a
station (or the message does not parse): it dereferences the NULL returned
when the record of a new station cannot be allocated. -/
theorem wps_er_process_wlanevent_eap_none_iff (X : collab) (s : Sys) (ap : wps_er_ap)
    (addr : List Nat) (msg : List Nat) (m : sta_env) :
    wps_er_process_wlanevent_eap X s ap addr msg m = none ↔
      (X.wps_parse_msg msg).isSome = true ∧ wps_er_sta_get ap addr = none ∧
        m.os_zalloc = none := by
  unfold wps_er_process_wlanevent_eap
  cases hp : X.wps_parse_msg msg with
  | none => simp
  | some attr =>
    cases hg : wps_er_sta_get ap addr with
    | some sta0 =>
      obtain ⟨e1, -, -⟩ := wps_er_add_sta_data_found s ap addr attr 0 m sta0 hg
      simp only [e1, Option.isSome_some, false_and, and_false, iff_false]
      split_ifs with h1 h2
      · obtain ⟨q, hq⟩ := wps_er_sta_start_some X
          (wps_er_add_sta_data s ap addr attr 0 m).1
          (wps_er_add_sta_data s ap addr attr 0 m).2.1 (sta_set_data sta0 attr 0 m) msg m
        rw [hq]
        simp
      · obtain ⟨w, hw⟩ := Option.isSome_iff_exists.mp h2
        obtain ⟨q, hq⟩ := wps_er_sta_process_some X
          (wps_er_add_sta_data s ap addr attr 0 m).1
          (wps_er_add_sta_data s ap addr attr 0 m).2.1 (sta_set_data sta0 attr 0 m) msg
          (eap_op_code X attr.msg_type) m w hw
        rw [hq]
        simp
      · simp
    | none =>
      cases hz : m.os_zalloc with
      | none =>
        simp [(wps_er_add_sta_data_new s ap addr attr 0 m hg).1 hz]
      | some p =>
        obtain ⟨e1, -⟩ := (wps_er_add_sta_data_new s ap addr attr 0 m hg).2 p hz
        simp only [e1, Option.isSome_some, true_and, and_false, iff_false]
        split_ifs with h1 h2
        · obtain ⟨q, hq⟩ := wps_er_sta_start_some X
            (wps_er_add_sta_data s ap addr attr 0 m).1
            (wps_er_add_sta_data s ap addr attr 0 m).2.1
            (sta_set_data (sta_new p addr) attr 0 m) msg m
          rw [hq]
          simp
        · obtain ⟨w, hw⟩ := Option.isSome_iff_exists.mp h2
          obtain ⟨q, hq⟩ := wps_er_sta_process_some X
            (wps_er_add_sta_data s ap addr attr 0 m).1
            (wps_er_add_sta_data s ap addr attr 0 m).2.1
            (sta_set_data (sta_new p addr) attr 0 m) msg
            (eap_op_code X attr.msg_type) m w hw
          rw [hq]
          simp
        · simp

/-- C20: evaluation at the failing input.  An EAP WLANEvent arrives from a MAC
the AP does not know and `os_zalloc` of the station record fails:
`wps_er_add_sta_data` returns NULL and `wps_er_process_wlanevent_eap` goes on
to dereference it, so the function does not complete (`none`).  The Probe
Request path with the same failure does drop the event and leaves the state as
it is; the EAP path fails to complete in exactly this case
(`wps_er_process_wlanevent_eap_none_iff`). -/
theorem eap_null_sta_dereferenced :
    (collab0.wps_parse_msg [4]).isSome = true ∧ wps_er_sta_get ap1 mac_s4 = none ∧
    sta_env_zalloc_fails.os_zalloc = none ∧
    (wps_er_add_sta_data er1 ap1 mac_s4 attr_m1 0 sta_env_zalloc_fails).2.2 = none ∧
    wps_er_process_wlanevent_eap collab0 er1 ap1 mac_s4 [4] sta_env_zalloc_fails = none ∧
    wps_er_process_wlanevent collab0 er1 ap1 event_eap sta_env_zalloc_fails = none ∧
    wps_er_process_wlanevent collab0 er1 ap1 event_s4 sta_env_zalloc_fails =
      some (er1, ap1) := by
  decide

/-! ## Op-code selection on the EAP path -/

theorem fed_msgs_append (a b : List ext_call) : fed_msgs (a ++ b) = fed_msgs a ++ fed_msgs b := by
  induction a with
  | nil => rfl
  | cons x xs ih => cases x <;> simp [fed_msgs, ih]

theorem wps_inits_append (a b : List ext_call) :
    wps_inits (a ++ b) = wps_inits a ++ wps_inits b := by
  induction a with
  | nil => rfl
  | cons x xs ih => cases x <;> simp [wps_inits, ih]

theorem wps_deinits_append (a b : List ext_call) :
    wps_deinits (a ++ b) = wps_deinits a ++ wps_deinits b := by
  induction a with
  | nil => rfl
  | cons x xs ih => cases x <;> simp [wps_deinits, ih]

theorem http_starts_append (a b : List ext_call) :
    http_starts (a ++ b) = http_starts a ++ http_starts b := by
  induction a with
  | nil => rfl
  | cons x xs ih => cases x <;> simp [http_starts, ih]

/-- The function `wps_er_sta_send_msg` makes no call to the WPS engine, starts at most one
exchange, and writes nothing of the station but its HTTP slot. -/
theorem wps_er_sta_send_msg_calls (X : collab) (s : Sys) (ap : wps_er_ap) (sta : wps_er_sta)
    (msg : List Nat) (m : sta_env) :
    (wps_er_sta_send_msg X s ap sta msg m).1.er = s.er ∧
    (wps_er_sta_send_msg X s ap sta msg m).2.addr = sta.addr ∧
    (wps_er_sta_send_msg X s ap sta msg m).2.wps = sta.wps ∧
    ((wps_er_sta_send_msg X s ap sta msg m).1.calls = s.calls ∨
      ∃ h, (wps_er_sta_send_msg X s ap sta msg m).1.calls = s.calls ++ [ext_call.http_start h])
    := by
  unfold wps_er_sta_send_msg
  repeat' split
  all_goals first
    | exact ⟨rfl, rfl, rfl, Or.inl rfl⟩
    | exact ⟨rfl, rfl, rfl, Or.inr ⟨_, rfl⟩⟩

theorem wps_er_sta_send_msg_engine (X : collab) (s : Sys) (ap : wps_er_ap) (sta : wps_er_sta)
    (msg : List Nat) (m : sta_env) :
    fed_msgs (wps_er_sta_send_msg X s ap sta msg m).1.calls = fed_msgs s.calls ∧
    wps_inits (wps_er_sta_send_msg X s ap sta msg m).1.calls = wps_inits s.calls ∧
    wps_deinits (wps_er_sta_send_msg X s ap sta msg m).1.calls = wps_deinits s.calls := by
  rcases (wps_er_sta_send_msg_calls X s ap sta msg m).2.2.2 with h | ⟨c, h⟩
  · rw [h]
    exact ⟨rfl, rfl, rfl⟩
  · rw [h, fed_msgs_append, wps_inits_append, wps_deinits_append]
    simp [fed_msgs, wps_inits, wps_deinits]

/-- The function `wps_er_sta_process` on a station with an engine instance feeds the message
once, with the op-code given, and neither creates nor releases an instance. -/
theorem wps_er_sta_process_fed (X : collab) (s : Sys) (ap : wps_er_ap) (sta : wps_er_sta)
    (msg : List Nat) (op : wsc_op_code) (m : sta_env) (w : wps_data) (hw : sta.wps = some w) :
    ∃ q, wps_er_sta_process X s ap sta msg op m = some q ∧
      q.1.er = s.er ∧ q.2.addr = sta.addr ∧ q.2.wps.isSome = true ∧
      fed_msgs q.1.calls = fed_msgs s.calls ++ [(w, op, msg)] ∧
      wps_inits q.1.calls = wps_inits s.calls ∧
      wps_deinits q.1.calls = wps_deinits s.calls := by
  unfold wps_er_sta_process
  rw [hw]
  simp only
  split_ifs
  · split
    · refine ⟨_, rfl, ?_⟩
      obtain ⟨e1, e2, e3, -⟩ := wps_er_sta_send_msg_calls X
        { s with calls := s.calls ++ [ext_call.wps_process_msg w op msg] ++
            [ext_call.wps_get_msg (X.wps_process_msg w op msg).2] }
        ap { sta with wps := some (X.wps_get_msg (X.wps_process_msg w op msg).2).2 } _ m
      obtain ⟨f1, f2, f3⟩ := wps_er_sta_send_msg_engine X
        { s with calls := s.calls ++ [ext_call.wps_process_msg w op msg] ++
            [ext_call.wps_get_msg (X.wps_process_msg w op msg).2] }
        ap { sta with wps := some (X.wps_get_msg (X.wps_process_msg w op msg).2).2 } _ m
      refine ⟨e1, e2, by rw [e3]; rfl, ?_, ?_, ?_⟩
      · rw [f1]
        simp [fed_msgs_append, fed_msgs]
      · rw [f2]
        simp [wps_inits_append, wps_inits]
      · rw [f3]
        simp [wps_deinits_append, wps_deinits]
    · refine ⟨_, rfl, rfl, rfl, rfl, ?_, ?_, ?_⟩
      · simp [fed_msgs_append, fed_msgs]
      · simp [wps_inits_append, wps_inits]
      · simp [wps_deinits_append, wps_deinits]
  · refine ⟨_, rfl, rfl, rfl, rfl, ?_, ?_, ?_⟩
    · simp [fed_msgs_append, fed_msgs]
    · simp [wps_inits_append, wps_inits]
    · simp [wps_deinits_append, wps_deinits]

/-- The function `wps_er_sta_start` releases the instance the station holds, calls
`wps_init` once with the registrar role and the station's address, and feeds
the message with `WSC_MSG` to the instance `wps_init` returns; when `wps_init`
returns NULL nothing is fed and the station is left without an instance. -/
theorem wps_er_sta_start_calls (X : collab) (s : Sys) (ap : wps_er_ap) (sta : wps_er_sta)
    (msg : List Nat) (m : sta_env) :
    ∃ q, wps_er_sta_start X s ap sta msg m = some q ∧
      q.1.er = s.er ∧ q.2.addr = sta.addr ∧
      wps_deinits q.1.calls = wps_deinits s.calls ++ sta.wps.toList ∧
      wps_inits q.1.calls =
        wps_inits s.calls ++ [{ wps := s.er.wps, registrar := 1, peer_addr := sta.addr }] ∧
      (∀ w, X.wps_init { wps := s.er.wps, registrar := 1, peer_addr := sta.addr } = some w →
        fed_msgs q.1.calls = fed_msgs s.calls ++ [(w, wsc_op_code.WSC_MSG, msg)] ∧
        q.2.wps.isSome = true) ∧
      (X.wps_init { wps := s.er.wps, registrar := 1, peer_addr := sta.addr } = none →
        fed_msgs q.1.calls = fed_msgs s.calls ∧ q.2.wps = none) := by
  have hs1 : ∀ s1 : Sys, s1 = (match sta.wps with
      | some w => { s with calls := s.calls ++ [ext_call.wps_deinit w] }
      | none => s) →
      s1.er = s.er ∧ fed_msgs s1.calls = fed_msgs s.calls ∧
      wps_inits s1.calls = wps_inits s.calls ∧
      wps_deinits s1.calls = wps_deinits s.calls ++ sta.wps.toList := by
    intro s1 h1
    cases hw : sta.wps with
    | none =>
      rw [hw] at h1
      subst h1
      simp
    | some w0 =>
      rw [hw] at h1
      subst h1
      simp [fed_msgs_append, wps_inits_append, wps_deinits_append, fed_msgs, wps_inits,
        wps_deinits]
  obtain ⟨a1, a2, a3, a4⟩ := hs1 _ rfl
  unfold wps_er_sta_start
  simp only
  cases hi : X.wps_init { wps := s.er.wps, registrar := 1, peer_addr := sta.addr } with
  | none =>
    refine ⟨_, rfl, a1, rfl, ?_, ?_, fun w hw => Option.noConfusion hw, fun _ => ⟨?_, rfl⟩⟩
    · simp [wps_deinits_append, wps_deinits, a4]
    · simp [wps_inits_append, wps_inits, a3]
    · simp [fed_msgs_append, fed_msgs, a2]
  | some w =>
    obtain ⟨q, hq, b1, b2, b3, b4, b5, b6⟩ := wps_er_sta_process_fed X
      { (match sta.wps with
          | some w => { s with calls := s.calls ++ [ext_call.wps_deinit w] }
          | none => s) with
        calls := (match sta.wps with
          | some w => { s with calls := s.calls ++ [ext_call.wps_deinit w] }
          | none => s).calls ++
          [ext_call.wps_init { wps := s.er.wps, registrar := 1, peer_addr := sta.addr }] }
      ap { sta with wps := some w } msg wsc_op_code.WSC_MSG m w rfl
    refine ⟨q, hq, ?_, b2, ?_, ?_, fun w1 hw1 => ⟨?_, b3⟩, fun h => Option.noConfusion h⟩
    · rw [b1]
      exact a1
    · rw [b6]
      simp [wps_deinits_append, wps_deinits, a4]
    · rw [b5]
      simp [wps_inits_append, wps_inits, a3]
    · rw [b4, ← Option.some.inj hw1]
      simp [fed_msgs_append, fed_msgs, a2]

theorem wps_er_add_sta_data_get (s : Sys) (ap : wps_er_ap) (addr : List Nat)
    (attr : wps_parse_attr) (probe_req : Int) (m : sta_env) (sta : wps_er_sta)
    (h : (wps_er_add_sta_data s ap addr attr probe_req m).2.2 = some sta) :
    wps_er_sta_get (wps_er_add_sta_data s ap addr attr probe_req m).2.1 addr = some sta ∧
    sta.addr.take 6 = addr.take 6 := by
  cases hg : wps_er_sta_get ap addr with
  | some sta0 =>
    obtain ⟨e1, -, e3⟩ := wps_er_add_sta_data_found s ap addr attr probe_req m sta0 hg
    rw [e1] at h
    rw [e3, ← Option.some.inj h]
    refine ⟨rfl, ?_⟩
    rw [(sta_set_data_addr sta0 attr probe_req m).1]
    unfold wps_er_sta_get at hg
    simpa using List.find?_some hg
  | none =>
    cases hz : m.os_zalloc with
    | none =>
      rw [(wps_er_add_sta_data_new s ap addr attr probe_req m hg).1 hz] at h
      exact Option.noConfusion h
    | some p =>
      obtain ⟨e1, e2⟩ := (wps_er_add_sta_data_new s ap addr attr probe_req m hg).2 p hz
      rw [e1] at h
      have hk : sta.addr.take 6 = addr.take 6 := by
        rw [← Option.some.inj h, (sta_set_data_addr _ attr probe_req m).1, sta_new_key]
      refine ⟨?_, hk⟩
      rw [e2, ← Option.some.inj h]
      unfold wps_er_sta_get
      rw [Option.some.inj h]
      exact List.find?_cons_of_pos _ (by simpa using hk)

theorem eap_op_code_table (X : collab)
    (hd : X.WPS_WSC_ACK ≠ X.WPS_WSC_NACK ∧ X.WPS_WSC_ACK ≠ X.WPS_WSC_DONE ∧
      X.WPS_WSC_NACK ≠ X.WPS_WSC_DONE) :
    eap_op_code X (some X.WPS_WSC_ACK) = wsc_op_code.WSC_ACK ∧
    eap_op_code X (some X.WPS_WSC_NACK) = wsc_op_code.WSC_NACK ∧
    eap_op_code X (some X.WPS_WSC_DONE) = wsc_op_code.WSC_Done ∧
    (∀ t, t ≠ X.WPS_WSC_ACK → t ≠ X.WPS_WSC_NACK → t ≠ X.WPS_WSC_DONE →
      eap_op_code X (some t) = wsc_op_code.WSC_MSG) ∧
    eap_op_code X none = wsc_op_code.WSC_MSG := by
  obtain ⟨h1, h2, h3⟩ := hd
  refine ⟨?_, ?_, ?_, ?_, rfl⟩
  · simp [eap_op_code]
  · simp [eap_op_code, Ne.symm h1]
  · simp [eap_op_code, Ne.symm h2, Ne.symm h3]
  · intro t t1 t2 t3
    simp [eap_op_code, t1, t2, t3]

/-- C11 (amended): op-code selection of `wps_er_process_wlanevent_eap`, for an
event whose message parses and for which `wps_er_add_sta_data` returns a
station (its address is the MAC of the event).  When the message type is M1,
the instance the station holds, if any, is handed to `wps_deinit`, and
`wps_init` is called once with the registrar role and the station's address as
peer address; the message is fed with `WSC_MSG` to the instance `wps_init`
returns, and when `wps_init` returns NULL nothing is fed and the station is
left without an instance.  When the type is not M1 and the station holds an
instance, the message is fed to it once, with `WSC_ACK`, `WSC_NACK` or
`WSC_Done` for those three message types and `WSC_MSG` for any other or absent
type, and no instance is created or released.  When the type is not M1 and the
station holds no instance, no call is made at all. -/
theorem eap_op_code_selection (X : collab) (s : Sys) (ap : wps_er_ap) (addr msg : List Nat)
    (m : sta_env) (attr : wps_parse_attr) (sta : wps_er_sta)
    (hparse : X.wps_parse_msg msg = some attr)
    (hsta : (wps_er_add_sta_data s ap addr attr 0 m).2.2 = some sta)
    (hd : X.WPS_WSC_ACK ≠ X.WPS_WSC_NACK ∧ X.WPS_WSC_ACK ≠ X.WPS_WSC_DONE ∧
      X.WPS_WSC_NACK ≠ X.WPS_WSC_DONE) :
    ∃ out, wps_er_process_wlanevent_eap X s ap addr msg m = some out ∧
      sta.addr.take 6 = addr.take 6 ∧
      (attr.msg_type = some X.WPS_M1 →
        wps_deinits out.1.calls = wps_deinits s.calls ++ sta.wps.toList ∧
        wps_inits out.1.calls =
          wps_inits s.calls ++ [{ wps := s.er.wps, registrar := 1, peer_addr := sta.addr }] ∧
        (∀ w, X.wps_init { wps := s.er.wps, registrar := 1, peer_addr := sta.addr } = some w →
          fed_msgs out.1.calls = fed_msgs s.calls ++ [(w, wsc_op_code.WSC_MSG, msg)]) ∧
        (X.wps_init { wps := s.er.wps, registrar := 1, peer_addr := sta.addr } = none →
          fed_msgs out.1.calls = fed_msgs s.calls ∧
          (wps_er_sta_get out.2 addr).map (fun x => x.wps) = some none)) ∧
      (attr.msg_type ≠ some X.WPS_M1 → ∀ w, sta.wps = some w →
        fed_msgs out.1.calls = fed_msgs s.calls ++ [(w, eap_op_code X attr.msg_type, msg)] ∧
        wps_inits out.1.calls = wps_inits s.calls ∧
        wps_deinits out.1.calls = wps_deinits s.calls) ∧
      (attr.msg_type ≠ some X.WPS_M1 → sta.wps = none → out.1.calls = s.calls) ∧
      eap_op_code X (some X.WPS_WSC_ACK) = wsc_op_code.WSC_ACK ∧
      eap_op_code X (some X.WPS_WSC_NACK) = wsc_op_code.WSC_NACK ∧
      eap_op_code X (some X.WPS_WSC_DONE) = wsc_op_code.WSC_Done ∧
      (∀ t, t ≠ X.WPS_WSC_ACK → t ≠ X.WPS_WSC_NACK → t ≠ X.WPS_WSC_DONE →
        eap_op_code X (some t) = wsc_op_code.WSC_MSG) ∧
      eap_op_code X none = wsc_op_code.WSC_MSG := by
  obtain ⟨hc, he⟩ := wps_er_add_sta_data_calls s ap addr attr 0 m
  obtain ⟨hget, hkey⟩ := wps_er_add_sta_data_get s ap addr attr 0 m sta hsta
  have hfun : wps_er_process_wlanevent_eap X s ap addr msg m =
      (if attr.msg_type = some X.WPS_M1 then
        (wps_er_sta_start X (wps_er_add_sta_data s ap addr attr 0 m).1
          (wps_er_add_sta_data s ap addr attr 0 m).2.1 sta msg m).map
          (fun q => (q.1, { (wps_er_add_sta_data s ap addr attr 0 m).2.1 with
            sta := sta_store addr q.2 (wps_er_add_sta_data s ap addr attr 0 m).2.1.sta }))
      else if sta.wps.isSome then
        (wps_er_sta_process X (wps_er_add_sta_data s ap addr attr 0 m).1
          (wps_er_add_sta_data s ap addr attr 0 m).2.1 sta msg
          (eap_op_code X attr.msg_type) m).map
          (fun q => (q.1, { (wps_er_add_sta_data s ap addr attr 0 m).2.1 with
            sta := sta_store addr q.2 (wps_er_add_sta_data s ap addr attr 0 m).2.1.sta }))
      else some ((wps_er_add_sta_data s ap addr attr 0 m).1,
        (wps_er_add_sta_data s ap addr attr 0 m).2.1)) := by
    unfold wps_er_process_wlanevent_eap
    simp only [hparse, hsta]
  rw [hfun]
  by_cases hM1 : attr.msg_type = some X.WPS_M1
  · obtain ⟨q, hq, q1, q2, q3, q4, q5, q6⟩ := wps_er_sta_start_calls X
      (wps_er_add_sta_data s ap addr attr 0 m).1 (wps_er_add_sta_data s ap addr attr 0 m).2.1
      sta msg m
    rw [hc] at q3 q4 q5 q6
    rw [he] at q4 q5 q6
    rw [if_pos hM1, hq]
    refine ⟨_, rfl, hkey, fun _ => ⟨q3, q4, fun w hw => (q5 w hw).1, fun hn => ⟨(q6 hn).1, ?_⟩⟩,
      fun h => absurd hM1 h, fun h => absurd hM1 h, eap_op_code_table X hd⟩
    show (wps_er_sta_get { (wps_er_add_sta_data s ap addr attr 0 m).2.1 with
      sta := sta_store addr q.2 (wps_er_add_sta_data s ap addr attr 0 m).2.1.sta } addr).map
      (fun x => x.wps) = some none
    unfold wps_er_sta_get at hget ⊢
    rw [sta_store_get_same addr q.2 _ sta hget (by rw [q2]; exact hkey), Option.map_some',
      (q6 hn).2]
  · rw [if_neg hM1]
    cases hw : sta.wps with
    | some w =>
      obtain ⟨q, hq, -, -, -, q4, q5, q6⟩ := wps_er_sta_process_fed X
        (wps_er_add_sta_data s ap addr attr 0 m).1 (wps_er_add_sta_data s ap addr attr 0 m).2.1
        sta msg (eap_op_code X attr.msg_type) m w hw
      rw [hc] at q4 q5 q6
      rw [if_pos (by rfl), hq]
      refine ⟨_, rfl, hkey, fun h => absurd h hM1,
        fun _ w1 hw1 => ⟨by rw [← Option.some.inj hw1]; exact q4, q5, q6⟩,
        fun _ h => Option.noConfusion h, eap_op_code_table X hd⟩
    | none =>
      rw [if_neg (by simp)]
      exact ⟨_, rfl, hkey, fun h => absurd h hM1, fun _ w1 hw1 => Option.noConfusion hw1,
        fun _ _ => hc, eap_op_code_table X hd⟩

/-- C11, witness: the M1 of scenario S5 from a new station, with the stand-in
engine: one instance is created for peer `02:00:00:00:00:01` and the message is
fed to it with `WSC_MSG`. -/
theorem eap_op_code_selection_witness :
    collab0.wps_parse_msg [4] = some { attr_m1 with dev_name := some [4] } ∧
    ((wps_er_add_sta_data er1 ap1 mac_s4 { attr_m1 with dev_name := some [4] } 0
      (sta_env_ok 24576)).2.2).isSome = true ∧
    (collab0.WPS_WSC_ACK ≠ collab0.WPS_WSC_NACK ∧ collab0.WPS_WSC_ACK ≠ collab0.WPS_WSC_DONE ∧
      collab0.WPS_WSC_NACK ≠ collab0.WPS_WSC_DONE) ∧
    (wps_er_process_wlanevent_eap collab0 er1 ap1 mac_s4 [4] (sta_env_ok 24576)).isSome
      = true ∧
    (wps_er_process_wlanevent_eap collab0 er1 ap1 mac_s4 [4] (sta_env_ok 24576)).map
      (fun out => fed_msgs out.1.calls) =
      some [({ cfg := { wps := 8192, registrar := 1, peer_addr := mac_s4 }, st := 0 },
        wsc_op_code.WSC_MSG, [4])] := by
  obtain ⟨out, h1, -⟩ := eap_op_code_selection collab0 er1 ap1 mac_s4 [4] (sta_env_ok 24576)
    { attr_m1 with dev_name := some [4] }
    (sta_set_data (sta_new 24576 mac_s4) { attr_m1 with dev_name := some [4] } 0
      (sta_env_ok 24576))
    (by decide) (by decide) (by decide)
  refine ⟨by decide, by decide, by decide, ?_, by decide⟩
  rw [h1]
  rfl

/-- C11, counterexample: the message parses and is an M1, yet nothing is fed to
any engine.  With an engine whose `wps_init` returns NULL the event is handled
and the station is left without a registrar; with a failed allocation of the
station record the function does not complete. -/
theorem eap_m1_not_fed :
    (collab_init_fails.wps_parse_msg [4]).map (fun a => a.msg_type) =
      some (some collab_init_fails.WPS_M1) ∧
    (wps_er_process_wlanevent_eap collab_init_fails er1 ap1 mac_s4 [4]
      (sta_env_ok 24576)).map (fun out => fed_msgs out.1.calls) = some [] ∧
    (wps_er_process_wlanevent_eap collab_init_fails er1 ap1 mac_s4 [4]
      (sta_env_ok 24576)).map (fun out => out.2.sta.map (fun x => x.wps)) = some [none] ∧
    wps_er_process_wlanevent_eap collab0 er1 ap1 mac_s4 [4] sta_env_zalloc_fails = none := by
  decide

/-! ## The outbound HTTP slot -/

theorem wps_er_ap_add_slot (s : Sys) (addr : Nat) (location : List Char) (max_age : Int)
    (m : ap_add_env) :
    ((wps_er_ap_add s addr location max_age m).calls = s.calls ∧
      ((wps_er_ap_add s addr location max_age m).er.ap = s.er.ap ∨
        ∃ p, m.os_zalloc = some p ∧ (wps_er_ap_add s addr location max_age m).er.ap =
          ap_new p ((s.er.next_ap_id + 1) % UINT_MOD) addr location none :: s.er.ap)) ∨
    ∃ p, m.os_zalloc = some p ∧
      (wps_er_ap_add s addr location max_age m).calls =
        s.calls ++ [ext_call.http_start (dev_desc_get p location)] ∧
      (wps_er_ap_add s addr location max_age m).er.ap =
        ap_new p ((s.er.next_ap_id + 1) % UINT_MOD) addr location
          (some (dev_desc_get p location)) :: s.er.ap := by
  unfold wps_er_ap_add
  split
  · exact Or.inl ⟨rfl, Or.inl rfl⟩
  · split
    · exact Or.inl ⟨rfl, Or.inl rfl⟩
    · rename_i p hp
      by_cases hs : m.os_strdup = false
      · rw [if_pos hs]
        exact Or.inl ⟨rfl, Or.inl rfl⟩
      · rw [if_neg hs]
        by_cases hh : m.http_client_url = true
        · rw [if_pos hh]
          exact Or.inr ⟨p, hp, rfl, rfl⟩
        · rw [if_neg hh]
          exact Or.inl ⟨rfl, Or.inr ⟨p, hp, rfl⟩⟩

theorem wps_er_subscribe_slot (X : collab) (s : Sys) (ap : wps_er_ap) (m : ap_req_env) :
    (ap.http.isSome = true → wps_er_subscribe X s ap m = (s, ap)) ∧
    (wps_er_subscribe X s ap m = (s, ap) ∨
      ∃ h, ap.http = none ∧ h.ctx = ap.ptr ∧ wps_er_subscribe X s ap m =
        ({ s with calls := s.calls ++ [ext_call.http_start h] }, { ap with http := some h })) := by
  unfold wps_er_subscribe
  constructor
  · intro hb
    split
    · rfl
    · rw [if_pos hb]
  · cases hh : ap.http with
    | some h0 =>
      left
      split
      · rfl
      · rw [if_pos (by simp)]
    | none =>
      repeat' split
      all_goals first
        | exact Or.inl rfl
        | exact Or.inr ⟨_, rfl, rfl, rfl⟩

theorem wps_er_send_set_sel_reg_slot (X : collab) (s : Sys) (ap : wps_er_ap) (msg : List Nat)
    (m : ap_req_env) :
    (ap.http.isSome = true → wps_er_send_set_sel_reg X s ap msg m = (s, ap)) ∧
    (wps_er_send_set_sel_reg X s ap msg m = (s, ap) ∨
      ∃ h, ap.http = none ∧ h.ctx = ap.ptr ∧ wps_er_send_set_sel_reg X s ap msg m =
        ({ s with calls := s.calls ++ [ext_call.http_start h] }, { ap with http := some h })) := by
  unfold wps_er_send_set_sel_reg
  constructor
  · intro hb
    split
    · rfl
    · rw [if_pos hb]
  · cases hh : ap.http with
    | some h0 =>
      left
      split
      · rfl
      · rw [if_pos (by simp)]
    | none =>
      repeat' split
      all_goals first
        | exact Or.inl rfl
        | exact Or.inr ⟨_, rfl, rfl, rfl⟩

theorem wps_er_sta_send_msg_slot (X : collab) (s : Sys) (ap : wps_er_ap) (sta : wps_er_sta)
    (msg : List Nat) (m : sta_env) :
    (sta.http.isSome = true → wps_er_sta_send_msg X s ap sta msg m = (s, sta)) ∧
    (wps_er_sta_send_msg X s ap sta msg m = (s, sta) ∨
      ∃ h, sta.http = none ∧ h.ctx = sta.ptr ∧ wps_er_sta_send_msg X s ap sta msg m =
        ({ s with calls := s.calls ++ [ext_call.http_start h] }, { sta with http := some h }))
    := by
  unfold wps_er_sta_send_msg
  constructor
  · intro hb
    rw [if_pos hb]
  · cases hh : sta.http with
    | some h0 =>
      left
      rw [if_pos (by simp)]
    | none =>
      repeat' split
      all_goals first
        | exact Or.inl rfl
        | exact Or.inr ⟨_, rfl, rfl, rfl⟩

/-- C15: every operation that starts an outbound exchange stores the handle
into an empty slot.  `wps_er_subscribe`, `wps_er_send_set_sel_reg` and
`wps_er_sta_send_msg` return with the state and the owner unchanged when the
owner's slot is occupied (no call is made, the handle stays, the payload of a
station reply goes nowhere), and otherwise either change nothing or start one
exchange for an owner whose slot was empty and store that handle in it.
`wps_er_ap_add` either starts no exchange, and then links at most a new record
with an empty slot in front of the unchanged list, or starts the description
GET for the record `os_zalloc` returned, whose slot is empty, and links that
record holding the GET in front of the unchanged list. -/
theorem http_slot_empty_when_stored (X : collab) (s : Sys) :
    (∀ p, (ap_zalloc p).http = none) ∧
    (∀ (addr : Nat) (location : List Char) (max_age : Int) (m : ap_add_env),
      ((wps_er_ap_add s addr location max_age m).calls = s.calls ∧
        ((wps_er_ap_add s addr location max_age m).er.ap = s.er.ap ∨
          ∃ p, m.os_zalloc = some p ∧ (wps_er_ap_add s addr location max_age m).er.ap =
            ap_new p ((s.er.next_ap_id + 1) % UINT_MOD) addr location none :: s.er.ap)) ∨
      ∃ p, m.os_zalloc = some p ∧
        (wps_er_ap_add s addr location max_age m).calls =
          s.calls ++ [ext_call.http_start (dev_desc_get p location)] ∧
        (wps_er_ap_add s addr location max_age m).er.ap =
          ap_new p ((s.er.next_ap_id + 1) % UINT_MOD) addr location
            (some (dev_desc_get p location)) :: s.er.ap) ∧
    (∀ (ap : wps_er_ap) (m : ap_req_env),
      (ap.http.isSome = true → wps_er_subscribe X s ap m = (s, ap)) ∧
      (wps_er_subscribe X s ap m = (s, ap) ∨
        ∃ h, ap.http = none ∧ h.ctx = ap.ptr ∧ wps_er_subscribe X s ap m =
          ({ s with calls := s.calls ++ [ext_call.http_start h] },
           { ap with http := some h }))) ∧
    (∀ (ap : wps_er_ap) (msg : List Nat) (m : ap_req_env),
      (ap.http.isSome = true → wps_er_send_set_sel_reg X s ap msg m = (s, ap)) ∧
      (wps_er_send_set_sel_reg X s ap msg m = (s, ap) ∨
        ∃ h, ap.http = none ∧ h.ctx = ap.ptr ∧ wps_er_send_set_sel_reg X s ap msg m =
          ({ s with calls := s.calls ++ [ext_call.http_start h] },
           { ap with http := some h }))) ∧
    (∀ (ap : wps_er_ap) (sta : wps_er_sta) (msg : List Nat) (m : sta_env),
      (sta.http.isSome = true → wps_er_sta_send_msg X s ap sta msg m = (s, sta)) ∧
      (wps_er_sta_send_msg X s ap sta msg m = (s, sta) ∨
        ∃ h, sta.http = none ∧ h.ctx = sta.ptr ∧ wps_er_sta_send_msg X s ap sta msg m =
          ({ s with calls := s.calls ++ [ext_call.http_start h] },
           { sta with http := some h }))) :=
  ⟨fun _ => rfl,
   fun addr location max_age m => wps_er_ap_add_slot s addr location max_age m,
   fun ap m => wps_er_subscribe_slot X s ap m,
   fun ap msg m => wps_er_send_set_sel_reg_slot X s ap msg m,
   fun ap sta msg m => wps_er_sta_send_msg_slot X s ap sta msg m⟩

/-! ## The SetSelectedRegistrar message -/

/-- C18: the message `wps_er_set_sel_reg` builds is what `wps_build_version`
wrote followed by exactly 17 bytes: the code of ATTR_SELECTED_REGISTRAR
big-endian, `00 01`, one byte that is 1 when `sel_reg` is non-zero and 0
otherwise; the code of ATTR_DEV_PASSWORD_ID, `00 02`, `dev_passwd_id`
big-endian; the code of ATTR_SELECTED_REGISTRAR_CONFIG_METHODS, `00 02`,
`sel_reg_config_methods` big-endian.  Reading the two values back with
`WPA_GET_BE16` returns the 16-bit arguments. -/
theorem set_sel_reg_msg_encoding (K : wps_attrs) (sel_reg : Int)
    (dev_passwd_id sel_reg_config_methods : Nat)
    (hd : dev_passwd_id < 65536) (hc : sel_reg_config_methods < 65536) :
    ∃ tail : List Nat,
      set_sel_reg_msg K sel_reg dev_passwd_id sel_reg_config_methods =
        K.wps_build_version.map (fun ver => ver ++ tail) ∧
      tail.length = 17 ∧
      tail =
        [K.ATTR_SELECTED_REGISTRAR / 256 % 256, K.ATTR_SELECTED_REGISTRAR % 256, 0, 1,
         (if sel_reg ≠ 0 then 1 else 0),
         K.ATTR_DEV_PASSWORD_ID / 256 % 256, K.ATTR_DEV_PASSWORD_ID % 256, 0, 2,
         dev_passwd_id / 256, dev_passwd_id % 256,
         K.ATTR_SELECTED_REGISTRAR_CONFIG_METHODS / 256 % 256,
         K.ATTR_SELECTED_REGISTRAR_CONFIG_METHODS % 256, 0, 2,
         sel_reg_config_methods / 256, sel_reg_config_methods % 256] ∧
      WPA_GET_BE16 (tail.getD 9 0, tail.getD 10 0) = dev_passwd_id ∧
      WPA_GET_BE16 (tail.getD 15 0, tail.getD 16 0) = sel_reg_config_methods := by
  refine ⟨_, ?_, ?_, rfl, ?_, ?_⟩
  · unfold set_sel_reg_msg
    cases K.wps_build_version with
    | none => rfl
    | some ver =>
      have h1 : dev_passwd_id / 256 % 256 = dev_passwd_id / 256 := by omega
      have h2 : sel_reg_config_methods / 256 % 256 = sel_reg_config_methods / 256 := by omega
      have h3 : ((if sel_reg ≠ 0 then 1 else 0 : Nat)) % 256 = if sel_reg ≠ 0 then 1 else 0 := by
        split <;> rfl
      simp [wps_er_build_selected_registrar, wps_er_build_dev_password_id,
        wps_er_build_sel_reg_config_methods, wpabuf_put_be16, wpabuf_put_u8, h1, h2, h3]
      split <;> decide
  · rfl
  · simp only [List.getD_cons_succ, List.getD_cons_zero, WPA_GET_BE16]
    omega
  · simp only [List.getD_cons_succ, List.getD_cons_zero, WPA_GET_BE16]
    omega

/-- C18, witness: the arguments of scenario S6 (`sel_reg = 1`, device password
id 4, config methods 0x0080) give the version attribute followed by
`10 41 00 01 01 10 12 00 02 00 04 10 53 00 02 00 80`. -/
theorem set_sel_reg_msg_encoding_witness :
    (4 : Nat) < 65536 ∧ (128 : Nat) < 65536 ∧
    set_sel_reg_msg attrs0 1 4 128 =
      some ([16, 74, 0, 1, 16] ++
        [16, 65, 0, 1, 1, 16, 18, 0, 2, 0, 4, 16, 83, 0, 2, 0, 128]) := by
  obtain ⟨tail, h1, -, h3, -⟩ := set_sel_reg_msg_encoding attrs0 1 4 128 (by decide) (by decide)
  refine ⟨by decide, by decide, ?_⟩
  rw [h1, h3]
  decide

/-! ## SOAP requests: layout -/

set_option maxRecDepth 8000

theorem wps_er_soap_hdr_layout (X : collab) (msg : List Nat) (name path : List Char)
    (dst : sockaddr_in) (enc : List Char) (henc : X.base64_encode msg = some enc) :
    wps_er_soap_hdr X msg name path dst true =
      some (soap_req_head path dst ++ soap_req_pad ++ soap_req_action name ++
              soap_req_open name enc,
            (soap_req_head path dst).length,
            (soap_req_head path dst ++ soap_req_pad ++ soap_req_action name).length) := by
  unfold wps_er_soap_hdr
  simp only [henc]
  simp [soap_req_head, soap_req_pad, soap_req_action, soap_req_open, List.append_assoc]

theorem wps_er_soap_hdr_isSome (X : collab) (msg : List Nat) (name path : List Char)
    (dst : sockaddr_in) (alloc : Bool) (r : List Char × Nat × Nat)
    (h : wps_er_soap_hdr X msg name path dst alloc = some r) :
    alloc = true ∧ ∃ enc, X.base64_encode msg = some enc := by
  unfold wps_er_soap_hdr at h
  cases henc : X.base64_encode msg with
  | none => simp [henc] at h
  | some enc =>
    cases alloc with
    | false => simp [henc] at h
    | true => exact ⟨rfl, enc, rfl⟩

theorem wps_er_soap_end_layout (head rest name : List Char) (body_ptr : Nat) :
    wps_er_soap_end (head ++ rest) name head.length body_ptr =
      head ++
      (c_printf_d (to_int32 ((head ++ rest ++ soap_req_close name).length - body_ptr))).take 9 ++
      (rest ++ soap_req_close name).drop
        ((c_printf_d
          (to_int32 ((head ++ rest ++ soap_req_close name).length - body_ptr))).take 9).length := by
  unfold wps_er_soap_end
  have e : head ++ rest ++ "</u:".toList ++ name ++ ">\n".toList ++ soap_postfix =
      head ++ (rest ++ soap_req_close name) := by
    simp [soap_req_close, List.append_assoc]
  have e2 : head ++ rest ++ soap_req_close name = head ++ (rest ++ soap_req_close name) := by
    simp [List.append_assoc]
  simp only [e, e2]
  rw [List.take_left, List.drop_append]

theorem toDigitsCore_length_le (fuel : Nat) :
    ∀ (n : Nat) (ds : List Char) (k : Nat), 0 < k → n < 10 ^ k →
      (Nat.toDigitsCore 10 fuel n ds).length ≤ ds.length + k := by
  induction fuel with
  | zero =>
    intro n ds k _ _
    simp [Nat.toDigitsCore]
  | succ fuel ih =>
    intro n ds k hk hn
    unfold Nat.toDigitsCore
    simp only
    split
    · simp only [List.length_cons]
      omega
    · rename_i h
      have hk2 : 2 ≤ k := by
        by_contra hlt
        have hk1 : k = 1 := by omega
        subst hk1
        apply h
        have : n < 10 := by simpa using hn
        omega
      have hdiv : n / 10 < 10 ^ (k - 1) := by
        have hp : 10 ^ k = 10 ^ (k - 1) * 10 := by
          rw [← pow_succ]
          congr 1
          omega
        rw [hp] at hn
        exact Nat.div_lt_of_lt_mul (by rw [Nat.mul_comm]; exact hn)
      have := ih (n / 10) (Nat.digitChar (n % 10) :: ds) (k - 1) (by omega) hdiv
      simp only [List.length_cons] at this
      omega

theorem c_decimal_length_le (n : Nat) (h : n < 10 ^ 8) : (c_decimal n).length ≤ 8 := by
  have := toDigitsCore_length_le (n + 1) n [] 8 (by decide) h
  simpa [c_decimal, Nat.toDigits] using this

theorem c_printf_d_small (n : Nat) (h : n < 2 ^ 31) : c_printf_d (to_int32 n) = c_decimal n := by
  have e : to_int32 n = (n : Int) := by
    unfold to_int32
    have : (n + 2 ^ 31) % 2 ^ 32 = n + 2 ^ 31 := Nat.mod_eq_of_lt (by omega)
    rw [this]
    push_cast
    omega
  rw [e]
  unfold c_printf_d
  have : ¬ ((n : Int) < 0) := by omega
  rw [if_neg this]
  simp

theorem soap_request_layout (X : collab) (msg : List Nat) (name path : List Char)
    (dst : sockaddr_in) (alloc : Bool) (children buf : List Char) (len_ptr body_ptr : Nat)
    (hh : wps_er_soap_hdr X msg name path dst alloc = some (buf, len_ptr, body_ptr)) :
    ∃ enc, X.base64_encode msg = some enc ∧
      len_ptr = (soap_req_head path dst).length ∧
      body_ptr = (soap_req_head path dst ++ soap_req_pad ++ soap_req_action name).length ∧
      buf ++ children ++ soap_req_close name =
        soap_req_head path dst ++ soap_req_pad ++ soap_req_action name ++
          soap_req_body name enc children ∧
      (buf ++ children ++ soap_req_close name).length - body_ptr =
        (soap_req_body name enc children).length ∧
      wps_er_soap_end (buf ++ children) name len_ptr body_ptr =
        soap_req_head path dst ++
        (c_printf_d (to_int32 (soap_req_body name enc children).length)).take 9 ++
        (soap_req_pad ++ soap_req_action name ++ soap_req_body name enc children).drop
          ((c_printf_d (to_int32 (soap_req_body name enc children).length)).take 9).length := by
  obtain ⟨ha, enc, henc⟩ := wps_er_soap_hdr_isSome X msg name path dst alloc _ hh
  subst ha
  rw [wps_er_soap_hdr_layout X msg name path dst enc henc] at hh
  simp only [Option.some.injEq, Prod.mk.injEq] at hh
  obtain ⟨h1, h2, h3⟩ := hh
  subst h1 h2 h3
  have e1 : soap_req_head path dst ++ soap_req_pad ++ soap_req_action name ++
      soap_req_open name enc ++ children ++ soap_req_close name =
      soap_req_head path dst ++ soap_req_pad ++ soap_req_action name ++
        soap_req_body name enc children := by
    simp [soap_req_body, List.append_assoc]
  have e2 : (soap_req_head path dst ++ soap_req_pad ++ soap_req_action name ++
      soap_req_open name enc ++ children ++ soap_req_close name).length -
      (soap_req_head path dst ++ soap_req_pad ++ soap_req_action name).length =
      (soap_req_body name enc children).length := by
    rw [e1, List.length_append]
    omega
  refine ⟨enc, henc, rfl, rfl, e1, e2, ?_⟩
  have e3 : soap_req_head path dst ++ soap_req_pad ++ soap_req_action name ++
      soap_req_open name enc ++ children =
      soap_req_head path dst ++ (soap_req_pad ++ soap_req_action name ++
        soap_req_open name enc ++ children) := by
    simp [List.append_assoc]
  have e4 : soap_req_head path dst ++ (soap_req_pad ++ soap_req_action name ++
      soap_req_open name enc ++ children) ++ soap_req_close name =
      soap_req_head path dst ++ soap_req_pad ++ soap_req_action name ++
      soap_req_open name enc ++ children ++ soap_req_close name := by
    simp [List.append_assoc]
  have e5 : soap_req_pad ++ soap_req_action name ++ soap_req_open name enc ++ children ++
      soap_req_close name =
      soap_req_pad ++ soap_req_action name ++ soap_req_body name enc children := by
    simp [soap_req_body, List.append_assoc]
  rw [e3, wps_er_soap_end_layout, e4, e2, e5]

/-- C17 (amended): for a request whose body is shorter than 10^8 bytes, the
finished request is the headers up to `Content-Length: `, the decimal digits
of the body length, spaces up to eight characters in all, the end of the
header block and the body.  The number written is the count of the bytes that
follow the blank line, and the finished request differs from the buffer before
the length was written only inside the eight-space placeholder. -/
theorem soap_content_length_exact (X : collab) (msg : List Nat) (name path : List Char)
    (dst : sockaddr_in) (alloc : Bool) (children buf : List Char) (len_ptr body_ptr : Nat)
    (hh : wps_er_soap_hdr X msg name path dst alloc = some (buf, len_ptr, body_ptr))
    (hlen : (buf ++ children ++ soap_req_close name).length - body_ptr < 10 ^ 8) :
    ∃ enc, X.base64_encode msg = some enc ∧
      (c_decimal (soap_req_body name enc children).length).length ≤ 8 ∧
      wps_er_soap_end (buf ++ children) name len_ptr body_ptr =
        soap_req_head path dst ++ c_decimal (soap_req_body name enc children).length ++
        List.replicate (8 - (c_decimal (soap_req_body name enc children).length).length) ' ' ++
        soap_req_action name ++ soap_req_body name enc children ∧
      (wps_er_soap_end (buf ++ children) name len_ptr body_ptr).drop body_ptr =
        soap_req_body name enc children ∧
      (wps_er_soap_end (buf ++ children) name len_ptr body_ptr).length - body_ptr =
        (soap_req_body name enc children).length ∧
      (∃ pre, (wps_er_soap_end (buf ++ children) name len_ptr body_ptr).take body_ptr =
        pre ++ "\r\n\r\n".toList) ∧
      (buf ++ children ++ soap_req_close name).take (len_ptr + 8) =
        (buf ++ children ++ soap_req_close name).take len_ptr ++ List.replicate 8 ' ' ∧
      (wps_er_soap_end (buf ++ children) name len_ptr body_ptr).take len_ptr =
        (buf ++ children ++ soap_req_close name).take len_ptr ∧
      (wps_er_soap_end (buf ++ children) name len_ptr body_ptr).drop (len_ptr + 8) =
        (buf ++ children ++ soap_req_close name).drop (len_ptr + 8) := by
  obtain ⟨enc, henc, h1, h2, h3, h4, h5⟩ :=
    soap_request_layout X msg name path dst alloc children buf len_ptr body_ptr hh
  rw [h4] at hlen
  have hD : (c_printf_d (to_int32 (soap_req_body name enc children).length)).take 9 =
      c_decimal (soap_req_body name enc children).length := by
    rw [c_printf_d_small _ (by omega)]
    exact List.take_of_length_le (by have := c_decimal_length_le _ hlen; omega)
  have hk := c_decimal_length_le _ hlen
  have hres : wps_er_soap_end (buf ++ children) name len_ptr body_ptr =
      soap_req_head path dst ++ c_decimal (soap_req_body name enc children).length ++
      List.replicate (8 - (c_decimal (soap_req_body name enc children).length).length) ' ' ++
      soap_req_action name ++ soap_req_body name enc children := by
    rw [h5, hD]
    have : (soap_req_pad ++ soap_req_action name ++ soap_req_body name enc children).drop
        (c_decimal (soap_req_body name enc children).length).length =
        List.replicate (8 - (c_decimal (soap_req_body name enc children).length).length) ' ' ++
        soap_req_action name ++ soap_req_body name enc children := by
      rw [List.append_assoc, List.drop_append_of_le_length (by simpa [soap_req_pad] using hk)]
      unfold soap_req_pad
      rw [List.drop_replicate, List.append_assoc]
    rw [this]
    simp [List.append_assoc]
  have hpre : (soap_req_head path dst ++ c_decimal (soap_req_body name enc children).length ++
      List.replicate (8 - (c_decimal (soap_req_body name enc children).length).length) ' ' ++
      soap_req_action name).length = body_ptr := by
    rw [h2]
    simp only [List.length_append, List.length_replicate, soap_req_pad]
    omega
  have hpre8 : (soap_req_head path dst ++ c_decimal (soap_req_body name enc children).length ++
      List.replicate (8 - (c_decimal (soap_req_body name enc children).length).length) ' '
      ).length = len_ptr + 8 := by
    rw [h1]
    simp only [List.length_append, List.length_replicate]
    omega
  refine ⟨enc, henc, hk, hres, ?_, ?_, ?_, ?_, ?_, ?_⟩
  · rw [hres]
    exact List.drop_left' hpre
  · rw [hres, List.length_append, hpre]
    omega
  · refine ⟨soap_req_head path dst ++ c_decimal (soap_req_body name enc children).length ++
      List.replicate (8 - (c_decimal (soap_req_body name enc children).length).length) ' ' ++
      "\r\nSOAPACTION: \"".toList ++ urn_wfawlanconfig ++ "#".toList ++ name ++ "\"".toList, ?_⟩
    rw [hres, List.take_left' hpre]
    simp [soap_req_action, List.append_assoc]
  · rw [h3, h1]
    have e : soap_req_head path dst ++ soap_req_pad ++ soap_req_action name ++
        soap_req_body name enc children =
        soap_req_head path dst ++
          (soap_req_pad ++ (soap_req_action name ++ soap_req_body name enc children)) := by
      simp [List.append_assoc]
    rw [e, List.take_left, List.take_append, List.take_left' (by simp [soap_req_pad])]
    rfl
  · rw [hres, h3, h1]
    simp only [List.append_assoc]
    rw [List.take_left, List.take_left]
  · rw [hres, h3]
    have e : soap_req_head path dst ++ soap_req_pad ++ soap_req_action name ++
        soap_req_body name enc children =
        (soap_req_head path dst ++ soap_req_pad) ++
          (soap_req_action name ++ soap_req_body name enc children) := by
      simp [List.append_assoc]
    have e2 : soap_req_head path dst ++ c_decimal (soap_req_body name enc children).length ++
        List.replicate (8 - (c_decimal (soap_req_body name enc children).length).length) ' ' ++
        soap_req_action name ++ soap_req_body name enc children =
        (soap_req_head path dst ++ c_decimal (soap_req_body name enc children).length ++
        List.replicate (8 - (c_decimal (soap_req_body name enc children).length).length) ' ') ++
        (soap_req_action name ++ soap_req_body name enc children) := by
      simp [List.append_assoc]
    rw [e, e2, List.drop_left' hpre8,
      List.drop_left' (by rw [h1]; simp [soap_req_pad])]

/-- C17, witness: the SetSelectedRegistrar request for the message `10 4a` to
192.0.2.5:80; its body has 322 bytes and `322` is written followed by five
spaces. -/
theorem soap_content_length_exact_witness :
    wps_er_soap_hdr collab0 [16, 74] "SetSelectedRegistrar".toList ['/'] dst_s1 true =
      some (soap_hdr_s6.1, soap_hdr_s6.2.1, soap_hdr_s6.2.2) ∧
    (soap_hdr_s6.1 ++ [] ++ soap_req_close "SetSelectedRegistrar".toList).length -
      soap_hdr_s6.2.2 < 10 ^ 8 ∧
    ((wps_er_soap_end (soap_hdr_s6.1 ++ []) "SetSelectedRegistrar".toList soap_hdr_s6.2.1
      soap_hdr_s6.2.2).drop soap_hdr_s6.2.1).take 10 = "322     \r\n".toList ∧
    (wps_er_soap_end (soap_hdr_s6.1 ++ []) "SetSelectedRegistrar".toList soap_hdr_s6.2.1
      soap_hdr_s6.2.2).length - soap_hdr_s6.2.2 = 322 := by
  obtain ⟨enc, henc, -, -, -, h4, -⟩ :=
    soap_content_length_exact collab0 [16, 74] "SetSelectedRegistrar".toList ['/'] dst_s1 true
      [] soap_hdr_s6.1 soap_hdr_s6.2.1 soap_hdr_s6.2.2 (by decide) (by decide)
  have e : enc = ['Q', 'W'] := by
    have : some enc = some ['Q', 'W'] := henc.symm.trans (by decide)
    exact Option.some.inj this
  subst e
  refine ⟨by decide, by decide, by decide, ?_⟩
  rw [h4]
  decide

theorem soap_big_length (enc : List Char) :
    (soap_req_head ['/'] dst_s1 ++ soap_req_pad ++
        soap_req_action "SetSelectedRegistrar".toList ++
        soap_req_open "SetSelectedRegistrar".toList enc ++
        soap_req_close "SetSelectedRegistrar".toList).length -
      (soap_req_head ['/'] dst_s1 ++ soap_req_pad ++
        soap_req_action "SetSelectedRegistrar".toList).length = enc.length + 320 := by
  have h1 : (soap_req_open "SetSelectedRegistrar".toList enc).length = enc.length + 270 := by
    have : soap_req_open "SetSelectedRegistrar".toList enc =
        ( soap_prefix ++ "<u:".toList ++ "SetSelectedRegistrar".toList ++ " xmlns:u=\"".toList ++
          urn_wfawlanconfig ++ "\">\n".toList ++ "<NewMessage>".toList) ++ enc ++
          "</NewMessage>\n".toList := by
      simp [soap_req_open, List.append_assoc]
    rw [this, List.length_append, List.length_append]
    have a : ( soap_prefix ++ "<u:".toList ++ "SetSelectedRegistrar".toList ++
        " xmlns:u=\"".toList ++ urn_wfawlanconfig ++ "\">\n".toList ++
        "<NewMessage>".toList).length = 256 := by decide
    have b : ("</NewMessage>\n".toList).length = 14 := by decide
    rw [a, b]
    omega
  have h2 : (soap_req_close "SetSelectedRegistrar".toList).length = 50 := by decide
  rw [List.length_append, List.length_append, h1, h2]
  omega

theorem collab_len_encode :
    collab_len.base64_encode msg_75m = some (List.replicate 100000000 'A') := by
  show some (List.replicate (4 * ((msg_75m.length + 2) / 3)) 'A') = _
  have : msg_75m.length = 75000000 := by
    unfold msg_75m
    rw [List.length_replicate]
  rw [this]

theorem soap_big_unpatched (enc : List Char) :
    (soap_req_head ['/'] dst_s1 ++ soap_req_pad ++
      soap_req_action "SetSelectedRegistrar".toList ++
      soap_req_open "SetSelectedRegistrar".toList enc ++
      soap_req_close "SetSelectedRegistrar".toList).getD
        ((soap_req_head ['/'] dst_s1).length + 8) ' ' = '\r' := by
  have hl : (soap_req_head ['/'] dst_s1).length + 8 <
      (soap_req_head ['/'] dst_s1 ++ soap_req_pad ++
        soap_req_action "SetSelectedRegistrar".toList).length := by decide
  rw [List.append_assoc, List.getD_append _ _ _ _ hl]
  decide

theorem soap_big_patched (enc : List Char) (h : enc.length = 100000000) :
    (wps_er_soap_end (soap_req_head ['/'] dst_s1 ++ soap_req_pad ++
      soap_req_action "SetSelectedRegistrar".toList ++
      soap_req_open "SetSelectedRegistrar".toList enc)
      "SetSelectedRegistrar".toList (soap_req_head ['/'] dst_s1).length
      (soap_req_head ['/'] dst_s1 ++ soap_req_pad ++
        soap_req_action "SetSelectedRegistrar".toList).length).getD
        ((soap_req_head ['/'] dst_s1).length + 8) ' ' = '0' := by
  have hn := soap_big_length enc
  rw [h] at hn
  have e3 : soap_req_head ['/'] dst_s1 ++ soap_req_pad ++
      soap_req_action "SetSelectedRegistrar".toList ++
      soap_req_open "SetSelectedRegistrar".toList enc =
      soap_req_head ['/'] dst_s1 ++ (soap_req_pad ++
      soap_req_action "SetSelectedRegistrar".toList ++
      soap_req_open "SetSelectedRegistrar".toList enc) := by
    simp only [List.append_assoc]
  have e4 : soap_req_head ['/'] dst_s1 ++ (soap_req_pad ++
      soap_req_action "SetSelectedRegistrar".toList ++
      soap_req_open "SetSelectedRegistrar".toList enc) ++
      soap_req_close "SetSelectedRegistrar".toList =
      soap_req_head ['/'] dst_s1 ++ soap_req_pad ++
      soap_req_action "SetSelectedRegistrar".toList ++
      soap_req_open "SetSelectedRegistrar".toList enc ++
      soap_req_close "SetSelectedRegistrar".toList := by
    simp only [List.append_assoc]
  have hD : (c_printf_d (to_int32 (100000000 + 320))).take 9 = "100000320".toList := by
    rw [c_printf_d_small _ (by norm_num)]
    decide
  rw [e3, wps_er_soap_end_layout, e4, hn, hD]
  have hl2 : (soap_req_head ['/'] dst_s1).length + 8 <
      (soap_req_head ['/'] dst_s1 ++ "100000320".toList).length := by decide
  rw [List.getD_append _ _ _ _ hl2]
  decide

theorem soap_big_request (X : collab) (msg : List Nat) (enc : List Char)
    (henc : X.base64_encode msg = some enc) (hl : enc.length = 100000000) :
    (wps_er_soap_hdr X msg "SetSelectedRegistrar".toList ['/'] dst_s1 true).map
      (fun r =>
        ((r.1 ++ soap_req_close "SetSelectedRegistrar".toList).length - r.2.2,
         (r.1 ++ soap_req_close "SetSelectedRegistrar".toList).getD (r.2.1 + 8) ' ',
         (wps_er_soap_end r.1 "SetSelectedRegistrar".toList r.2.1 r.2.2).getD (r.2.1 + 8) ' ')) =
      some (100000320, '\r', '0') := by
  rw [wps_er_soap_hdr_layout _ _ _ _ _ _ henc, Option.map_some']
  have hn := soap_big_length enc
  rw [hl] at hn
  have h2 := soap_big_unpatched enc
  have h3 := soap_big_patched enc hl
  dsimp only
  rw [hn, h2, h3]

/-- C17, counterexample: a message of 75,000,000 bytes, whose base64 text has
10^8 characters, gives a body of 100,000,320 bytes.  The nine digits of that
number do not fit the placeholder: the byte after the eight spaces, the
carriage return that ends the `Content-Length` line, is overwritten by the
last digit. -/
theorem soap_length_overruns_placeholder :
    (wps_er_soap_hdr collab_len msg_75m "SetSelectedRegistrar".toList ['/'] dst_s1 true).map
      (fun r =>
        ((r.1 ++ soap_req_close "SetSelectedRegistrar".toList).length - r.2.2,
         (r.1 ++ soap_req_close "SetSelectedRegistrar".toList).getD (r.2.1 + 8) ' ',
         (wps_er_soap_end r.1 "SetSelectedRegistrar".toList r.2.1 r.2.2).getD (r.2.1 + 8) ' ')) =
      some (100000320, '\r', '0') :=
  soap_big_request collab_len msg_75m (List.replicate 100000000 'A') collab_len_encode
    (List.length_replicate _ _)

/-! ## Select-registrar fan-out -/

theorem wps_er_soap_end_message (name path : List Char) (dst : sockaddr_in) (enc : List Char)
    (body_ptr : Nat) :
    ∃ pre, wps_er_soap_end (soap_req_head path dst ++ soap_req_pad ++ soap_req_action name ++
        soap_req_open name enc) name (soap_req_head path dst).length body_ptr =
      pre ++ "<NewMessage>".toList ++ enc ++ "</NewMessage>\n".toList ++ soap_req_close name := by
  have e3 : soap_req_head path dst ++ soap_req_pad ++ soap_req_action name ++
      soap_req_open name enc =
      soap_req_head path dst ++ (soap_req_pad ++ soap_req_action name ++
        soap_req_open name enc) := by
    simp only [List.append_assoc]
  rw [e3, wps_er_soap_end_layout]
  generalize hD : (c_printf_d (to_int32 ((soap_req_head path dst ++ (soap_req_pad ++
    soap_req_action name ++ soap_req_open name enc) ++ soap_req_close name).length -
    body_ptr))).take 9 = D
  have hDl : D.length ≤ (soap_req_pad ++ soap_req_action name).length := by
    have : D.length ≤ 9 := by
      rw [← hD]
      exact (List.length_take_le _ _)
    have h2 : 9 ≤ (soap_req_pad ++ soap_req_action name).length := by
      simp only [soap_req_pad, soap_req_action, List.length_append, List.length_replicate]
      have : ("\r\nSOAPACTION: \"".toList).length = 15 := by decide
      omega
    omega
  rw [List.append_assoc (soap_req_pad ++ soap_req_action name),
    List.drop_append_of_le_length hDl]
  refine ⟨soap_req_head path dst ++ D ++ (soap_req_pad ++ soap_req_action name).drop D.length ++
    ( soap_prefix ++ "<u:".toList ++ name ++ " xmlns:u=\"".toList ++ urn_wfawlanconfig ++
      "\">\n".toList), ?_⟩
  simp only [soap_req_open, List.append_assoc]

theorem wps_er_send_set_sel_reg_eq (X : collab) (s : Sys) (ap : wps_er_ap) (msg : List Nat)
    (m : ap_req_env) (hm : m.wpabuf_alloc = true) (hc : m.http_client_addr = true) :
    wps_er_send_set_sel_reg X s ap msg m =
      match set_sel_reg_post X msg ap with
      | some h =>
        ({ s with calls := s.calls ++ [ext_call.http_start h] }, { ap with http := some h })
      | none => (s, ap) := by
  unfold wps_er_send_set_sel_reg set_sel_reg_post ap_ctrl_target
  rw [hm, hc]
  cases ap.control_url with
  | none => rfl
  | some u =>
    cases hh : ap.http with
    | some h0 => simp
    | none =>
      simp only [Option.isSome_none, Bool.false_eq_true, if_false]
      cases X.http_client_url_parse u with
      | none => rfl
      | some t =>
        obtain ⟨dst, path⟩ := t
        simp only [Option.some_bind]
        cases wps_er_soap_hdr X msg "SetSelectedRegistrar".toList path dst true with
        | none => rfl
        | some b =>
          obtain ⟨buf, l, bp⟩ := b
          simp

theorem set_sel_reg_loop_eq (X : collab) (msg : List Nat) (m : Nat → ap_req_env) :
    ∀ (aps : List wps_er_ap) (s : Sys),
      (∀ ap ∈ aps, (m ap.ptr).wpabuf_alloc = true ∧ (m ap.ptr).http_client_addr = true) →
      (set_sel_reg_loop X msg m s aps).1 =
        { s with calls := s.calls ++
          (aps.filterMap (set_sel_reg_post X msg)).map ext_call.http_start } ∧
      (set_sel_reg_loop X msg m s aps).2 =
        aps.map (fun ap =>
          match set_sel_reg_post X msg ap with
          | some h => { ap with http := some h }
          | none => ap) := by
  intro aps
  induction aps with
  | nil =>
    intro s _
    simp [set_sel_reg_loop]
  | cons ap rest ih =>
    intro s hall
    have h1 := hall ap (List.mem_cons_self _ _)
    have hr : ∀ a ∈ rest, (m a.ptr).wpabuf_alloc = true ∧ (m a.ptr).http_client_addr = true :=
      fun a ha => hall a (List.mem_cons_of_mem _ ha)
    have e := wps_er_send_set_sel_reg_eq X s ap msg (m ap.ptr) h1.1 h1.2
    simp only [set_sel_reg_loop]
    obtain ⟨i1, i2⟩ := ih (wps_er_send_set_sel_reg X s ap msg (m ap.ptr)).1 hr
    rw [i1, i2, e]
    cases hp : set_sel_reg_post X msg ap with
    | none => simp [List.filterMap_cons, hp]
    | some h => simp [List.filterMap_cons, hp, List.append_assoc]

theorem set_sel_reg_post_isSome (X : collab) (msg : List Nat) (enc : List Char)
    (henc : X.base64_encode msg = some enc) (ap : wps_er_ap) :
    (set_sel_reg_post X msg ap).isSome = (ap_ctrl_target X ap).isSome := by
  unfold set_sel_reg_post
  cases ap_ctrl_target X ap with
  | none => rfl
  | some t =>
    simp only [Option.some_bind, wps_er_soap_hdr_layout X msg _ _ _ enc henc, Option.map_some',
      Option.isSome_some]

theorem set_sel_reg_post_some (X : collab) (msg : List Nat) (enc : List Char)
    (henc : X.base64_encode msg = some enc) (ap : wps_er_ap) (h : http_client)
    (hp : set_sel_reg_post X msg ap = some h) :
    h.ctx = ap.ptr ∧ h.cb = http_cb.set_sel_reg_cb ∧ h.arg = 1000 ∧ h.url = none ∧
    (∃ dst path, ap_ctrl_target X ap = some (dst, path) ∧ h.dst = some dst) ∧
    ∃ pre, h.req = some (pre ++ "<NewMessage>".toList ++ enc ++ "</NewMessage>\n".toList ++
      soap_req_close "SetSelectedRegistrar".toList) := by
  unfold set_sel_reg_post at hp
  cases ht : ap_ctrl_target X ap with
  | none => simp [ht] at hp
  | some t =>
    obtain ⟨dst, path⟩ := t
    simp only [ht, Option.some_bind, wps_er_soap_hdr_layout X msg _ _ _ enc henc,
      Option.map_some', Option.some.injEq] at hp
    subst hp
    obtain ⟨pre, hpre⟩ := wps_er_soap_end_message "SetSelectedRegistrar".toList path dst enc
      (soap_req_head path dst ++ soap_req_pad ++
        soap_req_action "SetSelectedRegistrar".toList).length
    exact ⟨rfl, rfl, rfl, rfl, ⟨dst, path, rfl, rfl⟩, pre, congrArg some hpre⟩

theorem filterMap_length_filter {α β : Type} (f : α → Option β) (l : List α) :
    (l.filterMap f).length = (l.filter (fun a => (f a).isSome)).length := by
  induction l with
  | nil => rfl
  | cons a rest ih =>
    cases h : f a with
    | none => simp [List.filterMap_cons, List.filter_cons, h, ih]
    | some b => simp [List.filterMap_cons, List.filter_cons, h, ih]

theorem http_starts_map (l : List http_client) :
    http_starts (l.map ext_call.http_start) = l := by
  induction l with
  | nil => rfl
  | cons a rest ih => simp [http_starts, ih]

/-- C19 (amended): when the message is built and the allocations succeed,
`wps_er_set_sel_reg` starts one SetSelectedRegistrar POST for every AP of the
registry that has a control URL the URL parser accepts and no exchange
pending, in list order, and makes no other call; an AP without control URL,
with a pending exchange or with an unparsable URL gets none.  Each POST goes
to the destination parsed from its AP's control URL, is owned by that AP and
carries the base64 text of the one message built from the arguments.  With
every AP of the registry in that condition the number of POSTs is the number
of APs. -/
theorem set_sel_reg_fan_out (X : collab) (K : wps_attrs) (s : Sys) (sel_reg : Int)
    (dev_passwd_id sel_reg_config_methods : Nat) (m : sel_reg_env)
    (msg : List Nat) (enc : List Char)
    (hm : m.wpabuf_alloc = true)
    (hmsg : set_sel_reg_msg K sel_reg dev_passwd_id sel_reg_config_methods = some msg)
    (henc : X.base64_encode msg = some enc)
    (hall : ∀ ap ∈ s.er.ap,
      (m.ap ap.ptr).wpabuf_alloc = true ∧ (m.ap ap.ptr).http_client_addr = true) :
    (wps_er_set_sel_reg X K s sel_reg dev_passwd_id sel_reg_config_methods m).calls =
      s.calls ++ (s.er.ap.filterMap (set_sel_reg_post X msg)).map ext_call.http_start ∧
    (s.er.ap.filterMap (set_sel_reg_post X msg)).length =
      (s.er.ap.filter (fun ap => (ap_ctrl_target X ap).isSome)).length ∧
    (∀ ap, (set_sel_reg_post X msg ap).isSome = (ap_ctrl_target X ap).isSome) ∧
    (∀ ap h, set_sel_reg_post X msg ap = some h →
      h.ctx = ap.ptr ∧ h.cb = http_cb.set_sel_reg_cb ∧ h.arg = 1000 ∧ h.url = none ∧
      (∃ dst path, ap_ctrl_target X ap = some (dst, path) ∧ h.dst = some dst) ∧
      ∃ pre, h.req = some (pre ++ "<NewMessage>".toList ++ enc ++ "</NewMessage>\n".toList ++
        soap_req_close "SetSelectedRegistrar".toList)) ∧
    (wps_er_set_sel_reg X K s sel_reg dev_passwd_id sel_reg_config_methods m).er.ap =
      s.er.ap.map (fun ap =>
        match set_sel_reg_post X msg ap with
        | some h => { ap with http := some h }
        | none => ap) ∧
    (wps_er_set_sel_reg X K s sel_reg dev_passwd_id sel_reg_config_methods m).timeouts =
      s.timeouts ∧
    ((∀ ap ∈ s.er.ap, (ap_ctrl_target X ap).isSome = true) →
      (http_starts
        (wps_er_set_sel_reg X K s sel_reg dev_passwd_id sel_reg_config_methods m).calls).length =
        (http_starts s.calls).length + s.er.ap.length) := by
  obtain ⟨l1, l2⟩ := set_sel_reg_loop_eq X msg m.ap s.er.ap s hall
  have hfun : wps_er_set_sel_reg X K s sel_reg dev_passwd_id sel_reg_config_methods m =
      { (set_sel_reg_loop X msg m.ap s s.er.ap).1 with
        er := { (set_sel_reg_loop X msg m.ap s s.er.ap).1.er with
          ap := (set_sel_reg_loop X msg m.ap s s.er.ap).2 } } := by
    unfold wps_er_set_sel_reg
    rw [if_neg (by simp [hm])]
    simp only [hmsg]
  have hiso := set_sel_reg_post_isSome X msg enc henc
  have hcount : (s.er.ap.filterMap (set_sel_reg_post X msg)).length =
      (s.er.ap.filter (fun ap => (ap_ctrl_target X ap).isSome)).length := by
    rw [filterMap_length_filter]
    congr 2
    funext ap
    exact hiso ap
  have hcalls : (wps_er_set_sel_reg X K s sel_reg dev_passwd_id sel_reg_config_methods m).calls =
      s.calls ++ (s.er.ap.filterMap (set_sel_reg_post X msg)).map ext_call.http_start := by
    rw [hfun, l1]
  refine ⟨hcalls, hcount, hiso, fun ap h hp => set_sel_reg_post_some X msg enc henc ap h hp,
    ?_, ?_, ?_⟩
  · rw [hfun, l2]
  · rw [hfun, l1]
  · intro hready
    rw [hcalls, http_starts_append, http_starts_map, List.length_append, hcount,
      List.filter_eq_self.mpr (fun ap hap => hready ap hap)]

/-- C19, witness: scenario S6.  With two APs known, both with their
description fetched, two POSTs are started, the first for the AP at the head
of the list. -/
theorem set_sel_reg_fan_out_witness :
    sel_reg_env_ok.wpabuf_alloc = true ∧
    set_sel_reg_msg attrs0 1 4 128 =
      some [16, 74, 0, 1, 16, 16, 65, 0, 1, 1, 16, 18, 0, 2, 0, 4, 16, 83, 0, 2, 0, 128] ∧
    (collab0.base64_encode
      [16, 74, 0, 1, 16, 16, 65, 0, 1, 1, 16, 18, 0, 2, 0, 4, 16, 83, 0, 2, 0, 128]).isSome
      = true ∧
    (∀ ap ∈ er_s6.er.ap, (ap_ctrl_target collab0 ap).isSome = true) ∧
    (http_starts (wps_er_set_sel_reg collab0 attrs0 er_s6 1 4 128 sel_reg_env_ok).calls).length
      = 2 ∧
    (http_starts (wps_er_set_sel_reg collab0 attrs0 er_s6 1 4 128 sel_reg_env_ok).calls).map
      (fun h => h.ctx) = [16384, 12288] := by
  have h := set_sel_reg_fan_out collab0 attrs0 er_s6 1 4 128 sel_reg_env_ok
    [16, 74, 0, 1, 16, 16, 65, 0, 1, 1, 16, 18, 0, 2, 0, 4, 16, 83, 0, 2, 0, 128]
    ((collab0.base64_encode
      [16, 74, 0, 1, 16, 16, 65, 0, 1, 1, 16, 18, 0, 2, 0, 4, 16, 83, 0, 2, 0, 128]).getD [])
    rfl (by decide) (by decide) (by decide)
  refine ⟨rfl, by decide, by decide, by decide, ?_, by decide⟩
  rw [h.2.2.2.2.2.2 (by decide)]
  rfl

/-- C19, counterexample: right after the discovery of scenario S1 the registry
holds one AP, whose description GET is pending and whose control URL is not
known yet; `wps_er_set_sel_reg` builds the message and starts no POST for it. -/
theorem set_sel_reg_skips_ap :
    er1.er.ap.length = 1 ∧
    (set_sel_reg_msg attrs0 1 4 128).isSome = true ∧
    wps_er_set_sel_reg collab0 attrs0 er1 1 4 128 sel_reg_env_ok = er1 ∧
    http_starts (wps_er_set_sel_reg collab0 attrs0 er1 1 4 128 sel_reg_env_ok).calls =
      [dev_desc_get 12288 loc_s1] := by
  decide

/-! ## Event endpoint: status -/

/-- C16: the NOTIFY of an EAP WLANEvent for the known AP with id 1, from a
station the AP does not know, handled while `os_zalloc` of the station record
fails and the response buffer can be allocated: `wps_er_http_req` does not
return and no response is sent.  With the station allocation succeeding the
same request is answered `200 OK`. -/
theorem http_event_not_answered :
    (wps_er_ap_get_id er1.er 1).isSome = true ∧
    wps_er_http_req collab0 http_collab0 er1 notify_eap
      { wpabuf_alloc := true, sta := sta_env_zalloc_fails } = none ∧
    (wps_er_http_req collab0 http_collab0 er1 notify_eap
      { wpabuf_alloc := true, sta := sta_env_ok 24576 }).map (fun r => r.2.map (List.take 15)) =
      some (some "HTTP/1.1 200 OK".toList) := by
  decide

theorem wps_er_http_resp_text (H : http_collab) :
    wps_er_http_resp_ok H true =
      some ("HTTP/1.1 200 OK\r\n".toList ++
        "Server: unspecified, UPnP/1.0, unspecified\r\n".toList ++
        "Connection: close\r\n".toList ++ "Content-Length: 0\r\n".toList ++
        "Date: ".toList ++ H.format_date ++ "\r\n\r\n".toList) ∧
    wps_er_http_resp_not_found H true =
      some ("HTTP/1.1 404 Not Found\r\n".toList ++
        "Server: unspecified, UPnP/1.0, unspecified\r\n".toList ++
        "Connection: close\r\n".toList ++
        "Date: ".toList ++ H.format_date ++ "\r\n\r\n".toList) := by
  constructor
  · simp [wps_er_http_resp_ok, http_put_date, List.append_assoc]
  · simp [wps_er_http_resp_not_found, http_put_date, List.append_assoc]

theorem wps_er_http_req_status (X : collab) (H : http_collab) (s : Sys) (req : http_request)
    (m : http_env) (hm : m.wpabuf_alloc = true) :
    (req.hdr_type ≠ H.HTTPREAD_HDR_TYPE_NOTIFY →
      wps_er_http_req X H s req m =
        some (s, some ("HTTP/1.1 501 Unimplemented\r\n".toList ++
          "Connection: close\r\n".toList ++
          "Date: ".toList ++ H.format_date ++ "\r\n\r\n".toList))) ∧
    (req.hdr_type = H.HTTPREAD_HDR_TYPE_NOTIFY →
      os_strncmp req.uri "/event/".toList 7 ≠ 0 →
      wps_er_http_req X H s req m = some (s, wps_er_http_resp_not_found H true)) ∧
    (req.hdr_type = H.HTTPREAD_HDR_TYPE_NOTIFY →
      os_strncmp req.uri "/event/".toList 7 = 0 →
      (wps_er_ap_get_id s.er (atoi (req.uri.drop 7) % (UINT_MOD : Int)).toNat = none →
        wps_er_http_req X H s req m = some (s, wps_er_http_resp_not_found H true)) ∧
      (∀ ap, wps_er_ap_get_id s.er (atoi (req.uri.drop 7) % (UINT_MOD : Int)).toNat = some ap →
        (H.xml_get_base64_item req.data "WLANEvent".toList = none →
          wps_er_http_req X H s req m = some (s, wps_er_http_resp_ok H true)) ∧
        (∀ event, H.xml_get_base64_item req.data "WLANEvent".toList = some event →
          (wps_er_process_wlanevent X s ap event m.sta = none →
            wps_er_http_req X H s req m = none) ∧
          (∀ r, wps_er_process_wlanevent X s ap event m.sta = some r →
            ∃ s1, wps_er_http_req X H s req m = some (s1, wps_er_http_resp_ok H true))))) := by
  refine ⟨fun h => ?_, fun h hu => ?_, fun h hu => ⟨fun hg => ?_, fun ap hg => ⟨fun hx => ?_,
    fun event hx => ⟨fun hp => ?_, fun r hp => ?_⟩⟩⟩⟩
  · unfold wps_er_http_req
    rw [if_neg h, if_neg (by simp [hm])]
    simp [http_put_date, List.append_assoc]
  · unfold wps_er_http_req wps_er_http_notify
    rw [if_pos h, if_neg hu, hm]
  · unfold wps_er_http_req wps_er_http_notify wps_er_http_event
    rw [if_pos h, if_pos hu, hm]
    simp only [hg]
  · unfold wps_er_http_req wps_er_http_notify wps_er_http_event
    rw [if_pos h, if_pos hu, hm]
    simp only [hg, hx]
  · unfold wps_er_http_req wps_er_http_notify wps_er_http_event
    rw [if_pos h, if_pos hu]
    simp only [hg, hx, hp]
  · unfold wps_er_http_req wps_er_http_notify wps_er_http_event
    rw [if_pos h, if_pos hu, hm]
    simp only [hg, hx, hp]
    exact ⟨_, rfl⟩

/-! ## First-line check by socket -/

theorem os_strncmp_eq_zero_iff (b : List Char) (hb : ∀ c ∈ b, c.toNat ≠ 0) :
    ∀ a : List Char, os_strncmp a b b.length = 0 ↔ b <+: a := by
  induction b with
  | nil =>
    intro a
    cases a <;> simp [os_strncmp]
  | cons y ys ih =>
    intro a
    have hy : y.toNat ≠ 0 := hb y (List.mem_cons_self _ _)
    have hys : ∀ c ∈ ys, c.toNat ≠ 0 := fun c hc => hb c (List.mem_cons_of_mem _ hc)
    cases a with
    | nil =>
      simp only [List.length_cons, os_strncmp]
      constructor
      · intro h
        exact absurd h (by omega)
      · intro h
        exact absurd (List.prefix_nil.mp h) (List.cons_ne_nil _ _)
    | cons x xs =>
      simp only [List.length_cons, os_strncmp]
      by_cases hxy : x = y
      · subst hxy
        rw [if_pos rfl, ih hys xs]
        constructor
        · intro h
          exact (List.prefix_cons_inj x).mpr h
        · intro h
          exact (List.prefix_cons_inj x).mp h
      · rw [if_neg hxy]
        constructor
        · intro h
          exfalso
          apply hxy
          apply Char.ext
          apply UInt32.ext
          have : x.toNat = y.toNat := by omega
          exact this
        · intro h
          exact absurd (List.cons_prefix_cons.mp h).1.symm hxy

theorem wps_er_ssdp_rx_rejected (s : Sys) (sd nread : Int) (data : List Char) (src : Nat)
    (m : ap_add_env)
    (h : ssdp_first_line_ok s.er sd (c_str (data.take nread.toNat)) = false) :
    wps_er_ssdp_rx s sd nread data src m = s := by
  unfold wps_er_ssdp_rx
  split
  · rfl
  · simp only [h, if_true]

theorem ssdp_first_line_ok_multicast (er : wps_er) (buf : List Char) :
    ssdp_first_line_ok er er.multicast_sd buf = true ↔ "HTTP/1.1 200 OK".toList <+: buf := by
  unfold ssdp_first_line_ok
  rw [if_pos rfl, decide_eq_true_iff]
  exact os_strncmp_eq_zero_iff "HTTP/1.1 200 OK".toList (by decide) buf

theorem ssdp_first_line_ok_other (er : wps_er) (sd : Int) (buf : List Char)
    (hsd : sd ≠ er.multicast_sd) :
    ssdp_first_line_ok er sd buf = true ↔ "NOTIFY ".toList <+: buf := by
  unfold ssdp_first_line_ok
  rw [if_neg hsd, decide_eq_true_iff]
  exact os_strncmp_eq_zero_iff "NOTIFY ".toList (by decide) buf

theorem prefix_c_str_iff (lit : List Char) (hl : ∀ c ∈ lit, c ≠ Char.ofNat 0) :
    ∀ d : List Char, lit <+: c_str d ↔ lit <+: d := by
  induction lit with
  | nil =>
    intro d
    simp
  | cons y ys ih =>
    intro d
    have hy : y ≠ Char.ofNat 0 := hl y (List.mem_cons_self _ _)
    have hys : ∀ c ∈ ys, c ≠ Char.ofNat 0 := fun c hc => hl c (List.mem_cons_of_mem _ hc)
    cases d with
    | nil => simp [c_str]
    | cons x xs =>
      by_cases hxy : x = y
      · subst hxy
        have e : c_str (x :: xs) = x :: c_str xs := by
          simp [c_str, List.takeWhile_cons, hy]
        rw [e, List.prefix_cons_inj, List.prefix_cons_inj]
        exact ih hys xs
      · constructor
        · intro h
          exfalso
          unfold c_str at h
          rw [List.takeWhile_cons] at h
          split at h
          · exact hxy (List.cons_prefix_cons.mp h).1.symm
          · exact List.cons_ne_nil _ _ (List.prefix_nil.mp h)
        · intro h
          exact absurd (List.cons_prefix_cons.mp h).1.symm hxy

/-- C21: first-line acceptance by socket.  With the two sockets of the
registrar distinct, a datagram received on the multicast-reply socket that
does not start with `HTTP/1.1 200 OK`, and a datagram received on the SSDP
listener socket that does not start with `NOTIFY `, leave the whole state
unchanged, whatever headers they carry; so a datagram that changes the state
starts with the text its socket requires.  The listener check applies to every
socket other than the multicast-reply socket.  The datagram is the `nread`
bytes `recvfrom` stored. -/
theorem ssdp_first_line_by_socket (s : Sys) (nread : Int) (data : List Char) (src : Nat)
    (m : ap_add_env) (hsock : s.er.ssdp_sd ≠ s.er.multicast_sd) :
    (¬ "HTTP/1.1 200 OK".toList <+: data.take nread.toNat →
      wps_er_ssdp_rx s s.er.multicast_sd nread data src m = s) ∧
    (¬ "NOTIFY ".toList <+: data.take nread.toNat →
      wps_er_ssdp_rx s s.er.ssdp_sd nread data src m = s) ∧
    (wps_er_ssdp_rx s s.er.multicast_sd nread data src m ≠ s →
      "HTTP/1.1 200 OK".toList <+: data.take nread.toNat) ∧
    (wps_er_ssdp_rx s s.er.ssdp_sd nread data src m ≠ s →
      "NOTIFY ".toList <+: data.take nread.toNat) ∧
    (∀ sd, sd ≠ s.er.multicast_sd →
      ¬ "NOTIFY ".toList <+: data.take nread.toNat →
      wps_er_ssdp_rx s sd nread data src m = s) := by
  have h1 : ¬ "HTTP/1.1 200 OK".toList <+: data.take nread.toNat →
      wps_er_ssdp_rx s s.er.multicast_sd nread data src m = s := by
    intro h
    apply wps_er_ssdp_rx_rejected
    rw [← Bool.not_eq_true, ssdp_first_line_ok_multicast,
      prefix_c_str_iff _ (by decide)]
    exact h
  have h2 : ∀ sd, sd ≠ s.er.multicast_sd →
      ¬ "NOTIFY ".toList <+: data.take nread.toNat →
      wps_er_ssdp_rx s sd nread data src m = s := by
    intro sd hsd h
    apply wps_er_ssdp_rx_rejected
    rw [← Bool.not_eq_true, ssdp_first_line_ok_other _ _ _ hsd,
      prefix_c_str_iff _ (by decide)]
    exact h
  refine ⟨h1, h2 _ hsock, ?_, ?_, h2⟩
  · intro hne
    by_contra hp
    exact hne (h1 hp)
  · intro hne
    by_contra hp
    exact hne (h2 _ hsock hp)

/-- C21, witness: the registrar that knows the AP of scenario S1, sockets 3
(multicast reply) and 4 (listener).  An M-SEARCH with the WFA URN, a byebye, a
LOCATION and a max-age arrives on the listener from the AP's address, and the
NOTIFY of scenario S1 arrives on the multicast-reply socket: both leave the
state as it is. -/
theorem ssdp_first_line_by_socket_witness :
    er1.er.ssdp_sd ≠ er1.er.multicast_sd ∧
    wps_er_ssdp_rx er1 4 163 msearch_wfa 3221225989 (env_ok 16384) = er1 ∧
    wps_er_ssdp_rx er1 3 143 notify_s1 3221225990 (env_ok 16384) = er1 :=
  ⟨by decide,
   (ssdp_first_line_by_socket er1 163 msearch_wfa 3221225989 (env_ok 16384)
     (by decide)).2.1 (by decide),
   (ssdp_first_line_by_socket er1 143 notify_s1 3221225990 (env_ok 16384)
     (by decide)).1 (by decide)⟩

/-! ## The WFA filter -/

theorem os_strstr_isSome_iff (needle : List Char) :
    ∀ s : List Char, (os_strstr s needle).isSome = true ↔ needle <:+: s := by
  intro s
  induction s with
  | nil =>
    unfold os_strstr
    by_cases h : needle = []
    · simp [h]
    · simp [h]
  | cons c rest ih =>
    unfold os_strstr
    rw [List.infix_cons_iff]
    by_cases hp : needle.isPrefixOf (c :: rest) = true
    · rw [if_pos hp]
      simp only [Option.isSome_some, true_iff]
      exact Or.inl (List.isPrefixOf_iff_prefix.mp hp)
    · rw [if_neg hp, ih]
      constructor
      · exact Or.inr
      · rintro (h | h)
        · exact absurd (List.isPrefixOf_iff_prefix.mpr h) hp
        · exact h

theorem ssdp_line_wfa (v : ssdp_vars) (start : List Char) :
    (ssdp_line v start).wfa =
      (v.wfa || ((os_strstr start urn_wfadevice).isSome ||
        (os_strstr start urn_wfawlanconfig_service).isSome)) := by
  unfold ssdp_line
  cases h1 : (os_strstr start urn_wfadevice).isSome <;>
  cases h2 : (os_strstr start urn_wfawlanconfig_service).isSome <;>
  simp only [Bool.false_eq_true, if_false, if_true, Bool.or_false, Bool.or_true] <;>
  (repeat' split) <;> simp

theorem ssdp_fold_wfa (lines : List (List Char)) (v : ssdp_vars) :
    (lines.foldl ssdp_line v).wfa =
      (v.wfa || lines.any (fun l => (os_strstr l urn_wfadevice).isSome ||
        (os_strstr l urn_wfawlanconfig_service).isSome)) := by
  induction lines generalizing v with
  | nil => simp
  | cons l ls ih =>
    rw [List.foldl_cons, ih, ssdp_line_wfa, List.any_cons, Bool.or_assoc]

theorem ssdp_scan_wfa_iff (buf : List Char) :
    (ssdp_scan buf).wfa = true ↔
      ∃ line ∈ ssdp_lines buf [],
        urn_wfadevice <:+: line ∨ urn_wfawlanconfig_service <:+: line := by
  unfold ssdp_scan
  rw [ssdp_fold_wfa]
  simp only [ssdp_vars_init, Bool.false_or, List.any_eq_true, Bool.or_eq_true,
    os_strstr_isSome_iff]

/-- C23 (amended): the WFA filter of the header scan.  For every accepted
datagram, `wfa` is true exactly when some line the loop visits, the first
(request or status) line included, contains one of the two URNs; a URN in the
first line alone sets it.  A datagram none of whose lines contains either URN
is treated as not WFA and leaves the state unchanged. -/
theorem ssdp_wfa_any_line (s : Sys) (sd nread : Int) (data : List Char) (src : Nat)
    (m : ap_add_env) (hn : 0 < nread)
    (hfirst : ssdp_first_line_ok s.er sd (c_str (data.take nread.toNat)) = true) :
    ((ssdp_rx_vars nread data).wfa = true ↔
      ∃ line ∈ ssdp_lines (c_str (data.take nread.toNat)) [],
        urn_wfadevice <:+: line ∨ urn_wfawlanconfig_service <:+: line) ∧
    (∀ first rest, ssdp_lines (c_str (data.take nread.toNat)) [] = first :: rest →
      (urn_wfadevice <:+: first ∨ urn_wfawlanconfig_service <:+: first) →
      (ssdp_rx_vars nread data).wfa = true) ∧
    ((∀ line ∈ ssdp_lines (c_str (data.take nread.toNat)) [],
        ¬ urn_wfadevice <:+: line ∧ ¬ urn_wfawlanconfig_service <:+: line) →
      (ssdp_rx_vars nread data).wfa = false ∧
      wps_er_ssdp_rx s sd nread data src m = s) := by
  have hiff := ssdp_scan_wfa_iff (c_str (data.take nread.toNat))
  refine ⟨hiff, ?_, ?_⟩
  · intro first rest hl hu
    exact hiff.mpr ⟨first, by rw [hl]; exact List.mem_cons_self _ _, hu⟩
  · intro hno
    have hw : (ssdp_scan (c_str (data.take nread.toNat))).wfa = false := by
      rw [← Bool.not_eq_true, hiff]
      rintro ⟨line, hl, hu⟩
      rcases hu with hu | hu
      · exact (hno line hl).1 hu
      · exact (hno line hl).2 hu
    refine ⟨hw, ?_⟩
    unfold wps_er_ssdp_rx
    rw [if_neg (not_le.mpr hn)]
    simp only [hfirst, hw, if_true, Bool.true_eq_false, if_false]

/-- C23, witness: a NOTIFY with LOCATION and max-age but without any WFA URN,
received on the listener of a fresh registrar, is accepted by the first-line
check and leaves the state unchanged. -/
theorem ssdp_wfa_any_line_witness :
    (0 : Int) < 118 ∧
    ssdp_first_line_ok er0.er 4 (c_str (notify_no_urn.take (118 : Int).toNat)) = true ∧
    (ssdp_rx_vars 118 notify_no_urn).wfa = false ∧
    wps_er_ssdp_rx er0 4 118 notify_no_urn 3221225989 (env_ok 12288) = er0 :=
  ⟨by decide, by decide,
   (ssdp_wfa_any_line er0 4 118 notify_no_urn 3221225989 (env_ok 12288) (by decide)
     (by decide)).2.2 (by decide)⟩

/-- C23, counterexample: the only occurrence of a WFA URN is in the request
line (no line after the first contains one), and the datagram is treated as a
WFA advertisement: `wfa` is set and the AP is added to the registry. -/
theorem ssdp_urn_in_first_line_counts :
    (∀ line ∈ (ssdp_lines (c_str (notify_urn_first_line.take (136 : Int).toNat)) []).tail,
      ¬ urn_wfadevice <:+: line ∧ ¬ urn_wfawlanconfig_service <:+: line) ∧
    (ssdp_rx_vars 136 notify_urn_first_line).wfa = true ∧
    wps_er_ssdp_rx er0 4 136 notify_urn_first_line 3221225989 (env_ok 12288) = er1 ∧
    er1.er.ap.length = 1 ∧ er0.er.ap.length = 0 := by
  decide

/-! ## The CACHE-CONTROL advance -/

theorem os_strncasecmp_eq_zero (b : List Char) (hb : ∀ c ∈ b, (c_tolower c).toNat ≠ 0) :
    ∀ a : List Char, os_strncasecmp a b b.length = 0 →
      ∃ pre rest, a = pre ++ rest ∧ pre.map c_tolower = b.map c_tolower := by
  induction b with
  | nil =>
    intro a _
    exact ⟨[], a, rfl, rfl⟩
  | cons y ys ih =>
    intro a h
    have hy : (c_tolower y).toNat ≠ 0 := hb y (List.mem_cons_self _ _)
    have hys : ∀ c ∈ ys, (c_tolower c).toNat ≠ 0 :=
      fun c hc => hb c (List.mem_cons_of_mem _ hc)
    cases a with
    | nil =>
      simp only [List.length_cons, os_strncasecmp] at h
      omega
    | cons x xs =>
      simp only [List.length_cons, os_strncasecmp] at h
      by_cases hxy : c_tolower x = c_tolower y
      · rw [if_pos hxy] at h
        obtain ⟨pre, rest, e1, e2⟩ := ih hys xs h
        exact ⟨x :: pre, rest, by rw [e1]; rfl, by simp [hxy, e2]⟩
      · rw [if_neg hxy] at h
        exfalso
        apply hxy
        apply Char.ext
        apply UInt32.ext
        have : (c_tolower x).toNat = (c_tolower y).toNat := by omega
        exact this

theorem os_strstr_skip (m0 : Char) (tl s : List Char) :
    ∀ pre : List Char, (∀ c ∈ pre, c ≠ m0) →
      os_strstr (pre ++ s) (m0 :: tl) = os_strstr s (m0 :: tl) := by
  intro pre
  induction pre with
  | nil => intro _; rfl
  | cons c pre ih =>
    intro h
    have hc : c ≠ m0 := h c (List.mem_cons_self _ _)
    rw [List.cons_append, os_strstr]
    have hp : (m0 :: tl).isPrefixOf (c :: (pre ++ s)) = false := by
      simp [List.isPrefixOf, Ne.symm hc]
    rw [hp]
    simp only [Bool.false_eq_true, if_false]
    exact ih (fun x hx => h x (List.mem_cons_of_mem _ hx))

theorem os_strstr_dropWhile_space (m0 : Char) (tl : List Char) (hm : m0 ≠ ' ') :
    ∀ s : List Char,
      os_strstr (s.dropWhile (fun c => c == ' ')) (m0 :: tl) = os_strstr s (m0 :: tl) := by
  intro s
  induction s with
  | nil => rfl
  | cons c rest ih =>
    by_cases hc : c = ' '
    · subst hc
      rw [List.dropWhile_cons_of_pos (by simp), ih]
      exact (os_strstr_skip m0 tl rest [' '] (by simpa using Ne.symm hm)).symm
    · rw [List.dropWhile_cons_of_neg (by simpa using hc)]

theorem cache_control_line_shape (start : List Char)
    (h : os_strncasecmp start "CACHE-CONTROL:".toList 14 = 0) :
    ∃ pre rest, start = pre ++ rest ∧ pre.length = 14 ∧
      (∀ c ∈ pre, c ≠ 'm' ∧ c ≠ ' ') ∧
      os_strncasecmp start "LOCATION:".toList 9 ≠ 0 ∧
      os_strncasecmp start "NTS:".toList 4 ≠ 0 := by
  obtain ⟨pre, rest, e1, e2⟩ :=
    os_strncasecmp_eq_zero "CACHE-CONTROL:".toList (by decide) start h
  have hlen : pre.length = 14 := by
    have := congrArg List.length e2
    simpa using this
  have hmem : ∀ c ∈ pre, c ≠ 'm' ∧ c ≠ ' ' := by
    intro c hc
    have hin : c_tolower c ∈ pre.map c_tolower := List.mem_map_of_mem _ hc
    rw [e2] at hin
    constructor
    · intro hm
      subst hm
      revert hin
      decide
    · intro hs
      subst hs
      revert hin
      decide
  refine ⟨pre, rest, e1, hlen, hmem, ?_, ?_⟩
  · cases pre with
    | nil => simp at hlen
    | cons c0 pre1 =>
      have h0 : c_tolower c0 = 'c' := by
        have := congrArg List.head? e2
        simpa using this
      rw [e1]
      show os_strncasecmp (c0 :: (pre1 ++ rest)) ('L' :: "OCATION:".toList) (8 + 1) ≠ 0
      rw [os_strncasecmp, h0, if_neg (by decide)]
      decide
  · cases pre with
    | nil => simp at hlen
    | cons c0 pre1 =>
      have h0 : c_tolower c0 = 'c' := by
        have := congrArg List.head? e2
        simpa using this
      rw [e1]
      show os_strncasecmp (c0 :: (pre1 ++ rest)) ('N' :: "TS:".toList) (3 + 1) ≠ 0
      rw [os_strncasecmp, h0, if_neg (by decide)]
      decide

theorem cache_control_strstr (start : List Char)
    (h : os_strncasecmp start "CACHE-CONTROL:".toList 14 = 0) :
    os_strstr ((start.drop 9).dropWhile (fun c => c == ' ')) "max-age=".toList =
      os_strstr ((start.drop 14).dropWhile (fun c => c == ' ')) "max-age=".toList ∧
    (¬ "max-age=".toList <:+: start →
      os_strstr ((start.drop 14).dropWhile (fun c => c == ' ')) "max-age=".toList = none) := by
  obtain ⟨pre, rest, e1, hlen, hmem, -, -⟩ := cache_control_line_shape start h
  have hneedle : "max-age=".toList = 'm' :: "ax-age=".toList := rfl
  have h14 : start.drop 14 = rest := by
    rw [e1]
    exact List.drop_left' hlen
  have h9 : start.drop 9 = pre.drop 9 ++ rest := by
    rw [e1]
    exact List.drop_append_of_le_length (by omega)
  have hA : os_strstr ((start.drop 9).dropWhile (fun c => c == ' ')) "max-age=".toList =
      os_strstr rest "max-age=".toList := by
    rw [hneedle, os_strstr_dropWhile_space 'm' _ (by decide), h9]
    exact os_strstr_skip 'm' _ rest (pre.drop 9)
      (fun c hc => (hmem c (List.mem_of_mem_drop hc)).1)
  have hB : os_strstr ((start.drop 14).dropWhile (fun c => c == ' ')) "max-age=".toList =
      os_strstr rest "max-age=".toList := by
    rw [hneedle, os_strstr_dropWhile_space 'm' _ (by decide), h14]
  refine ⟨hA.trans hB.symm, fun hno => ?_⟩
  rw [hB]
  cases hs : os_strstr rest "max-age=".toList with
  | none => rfl
  | some pos2 =>
    exfalso
    apply hno
    have hin : "max-age=".toList <:+: rest :=
      (os_strstr_isSome_iff _ rest).mp (by rw [hs]; rfl)
    rw [e1]
    exact hin.trans (List.suffix_append pre rest).isInfix

/-- C24: the 9-byte advance in the CACHE-CONTROL branch is harmless.  For every
line that begins, without regard to case, with `CACHE-CONTROL:`, the search for
`max-age=` after skipping 9 bytes and the spaces finds what the search after
skipping all 14 bytes and the spaces finds, so the loop body of
`wps_er_ssdp_rx` and the clean parser give the same values, in particular the
same `max_age`: the decimal after the first `max-age=` behind the header name,
and the old value when `max-age=` does not occur in the line. -/
theorem cache_control_advance_harmless (v : ssdp_vars) (start : List Char)
    (h : os_strncasecmp start "CACHE-CONTROL:".toList 14 = 0) :
    os_strstr ((start.drop 9).dropWhile (fun c => c == ' ')) "max-age=".toList =
      os_strstr ((start.drop 14).dropWhile (fun c => c == ' ')) "max-age=".toList ∧
    ssdp_line v start = ssdp_line_clean v start ∧
    (ssdp_line v start).max_age = (ssdp_line_clean v start).max_age ∧
    (ssdp_line v start).max_age =
      (match os_strstr ((start.drop 14).dropWhile (fun c => c == ' ')) "max-age=".toList with
       | none => v.max_age
       | some pos2 => atoi (pos2.drop 8)) ∧
    (¬ "max-age=".toList <:+: start →
      (ssdp_line v start).max_age = v.max_age ∧
      (ssdp_line_clean v start).max_age = v.max_age) := by
  obtain ⟨hs, hnone⟩ := cache_control_strstr start h
  obtain ⟨pre, rest, -, -, -, hloc, hnts⟩ := cache_control_line_shape start h
  have heq : ssdp_line v start = ssdp_line_clean v start := by
    unfold ssdp_line ssdp_line_clean
    simp only [hloc, hnts, h, if_false, if_true, hs]
  have hval : (ssdp_line_clean v start).max_age =
      (match os_strstr ((start.drop 14).dropWhile (fun c => c == ' ')) "max-age=".toList with
       | none => v.max_age
       | some pos2 => atoi (pos2.drop 8)) := by
    unfold ssdp_line_clean
    simp only [hloc, hnts, h, if_false, if_true]
    cases os_strstr ((start.drop 14).dropWhile (fun c => c == ' ')) "max-age=".toList with
    | none => simp only []; split_ifs <;> rfl
    | some pos2 => rfl
  refine ⟨hs, heq, by rw [heq], by rw [heq]; exact hval, fun hno => ?_⟩
  have := hnone hno
  rw [this] at hval
  exact ⟨by rw [heq]; exact hval, hval⟩

/-- C24, witness: the line `Cache-Control: no-cache, max-age=1800`; both
parsers report 1800. -/
theorem cache_control_advance_harmless_witness :
    os_strncasecmp cache_control_line "CACHE-CONTROL:".toList 14 = 0 ∧
    ssdp_line ssdp_vars_init cache_control_line =
      ssdp_line_clean ssdp_vars_init cache_control_line ∧
    (ssdp_line ssdp_vars_init cache_control_line).max_age = 1800 ∧
    (ssdp_line_clean ssdp_vars_init cache_control_line).max_age = 1800 :=
  ⟨by decide,
   (cache_control_advance_harmless ssdp_vars_init cache_control_line (by decide)).2.1,
   by decide, by decide⟩

/-! ## Completion of the description fetch: properties -/

theorem wps_er_subscribe_no_url (X : collab) (s : Sys) (ap : wps_er_ap) (m : ap_req_env)
    (h : ap.event_sub_url = none) : wps_er_subscribe X s ap m = (s, ap) := by
  unfold wps_er_subscribe
  rw [h]

theorem wps_er_subscribe_er (X : collab) (s : Sys) (ap : wps_er_ap) (m : ap_req_env) :
    (wps_er_subscribe X s ap m).1.er = s.er ∧
    (wps_er_subscribe X s ap m).1.timeouts = s.timeouts ∧
    { (wps_er_subscribe X s ap m).2 with http := none } = { ap with http := none } := by
  rcases (wps_er_subscribe_slot X s ap m).2 with h | ⟨h0, -, -, h⟩
  · rw [h]
    exact ⟨rfl, rfl, rfl⟩
  · rw [h]
    exact ⟨rfl, rfl, rfl⟩

theorem dev_desc_switch_subscribe (D : desc_collab) (ap : wps_er_ap)
    (event : http_client_event) (body : Option (List Char)) :
    ((dev_desc_switch D ap event body).2 = true ↔
      event = http_client_event.HTTP_CLIENT_OK ∧ body.isSome = true) ∧
    ((dev_desc_switch D ap event body).2 = false → (dev_desc_switch D ap event body).1 = ap) ∧
    (∀ reply, event = http_client_event.HTTP_CLIENT_OK → body = some reply →
      (dev_desc_switch D ap event body).1 = wps_er_parse_device_description D ap reply) := by
  cases event <;> cases body <;> simp [dev_desc_switch]

theorem http_starts_free (calls : List ext_call) (h : Option http_client) :
    http_starts (http_client_free calls h) = http_starts calls := by
  cases h with
  | none => rfl
  | some c =>
    simp only [http_client_free]
    rw [http_starts_append]
    simp [http_starts]

/-- C22: completion of the description fetch.  Whatever the event, the handle
of the fetch is released and the record that goes on has an empty slot; the
registrar context and the timers are not touched, so the AP stays in the
registry.  `wps_er_subscribe` is called only for the event OK with a body, on
the parsed record with the empty slot, and when the parsed description has no
eventSubURL it sends nothing; a SUBSCRIBE that is started therefore implies
OK, a body and an eventSubURL.  For FAILED, INVALID_REPLY and TIMEOUT (and OK
without body) nothing is sent and the record is the old one with the slot
emptied, so description fields and service URLs that were unset, as they are on
the record `wps_er_ap_add` creates, stay unset. -/
theorem dev_desc_cb_completion (X : collab) (D : desc_collab) (s : Sys) (ap : wps_er_ap)
    (event : http_client_event) (body : Option (List Char)) (m : ap_req_env) :
    ((event ≠ http_client_event.HTTP_CLIENT_OK ∨ body = none) →
      wps_er_http_dev_desc_cb X D s ap event body m =
        ({ s with calls := http_client_free s.calls ap.http }, { ap with http := none })) ∧
    (∀ reply, event = http_client_event.HTTP_CLIENT_OK → body = some reply →
      wps_er_http_dev_desc_cb X D s ap event body m =
        wps_er_subscribe X { s with calls := http_client_free s.calls ap.http }
          { wps_er_parse_device_description D ap reply with http := none } m ∧
      ((wps_er_parse_device_description D ap reply).event_sub_url = none →
        wps_er_http_dev_desc_cb X D s ap event body m =
          ({ s with calls := http_client_free s.calls ap.http },
           { wps_er_parse_device_description D ap reply with http := none }))) ∧
    (http_starts (wps_er_http_dev_desc_cb X D s ap event body m).1.calls ≠ http_starts s.calls →
      event = http_client_event.HTTP_CLIENT_OK ∧
      ∃ reply, body = some reply ∧
        ((wps_er_parse_device_description D ap reply).event_sub_url).isSome = true) ∧
    (wps_er_http_dev_desc_cb X D s ap event body m).1.er = s.er ∧
    (wps_er_http_dev_desc_cb X D s ap event body m).1.timeouts = s.timeouts ∧
    (event ≠ http_client_event.HTTP_CLIENT_OK → ap_desc_unset ap →
      ap_desc_unset (wps_er_http_dev_desc_cb X D s ap event body m).2) ∧
    (∀ p id addr location h, ap_desc_unset (ap_new p id addr location h)) := by
  have hfail : (event ≠ http_client_event.HTTP_CLIENT_OK ∨ body = none) →
      wps_er_http_dev_desc_cb X D s ap event body m =
        ({ s with calls := http_client_free s.calls ap.http }, { ap with http := none }) := by
    intro h
    unfold wps_er_http_dev_desc_cb
    cases event <;> cases body <;> simp [dev_desc_switch] at h ⊢
  have hok : ∀ reply, event = http_client_event.HTTP_CLIENT_OK → body = some reply →
      wps_er_http_dev_desc_cb X D s ap event body m =
        wps_er_subscribe X { s with calls := http_client_free s.calls ap.http }
          { wps_er_parse_device_description D ap reply with http := none } m := by
    intro reply he hb
    subst he hb
    unfold wps_er_http_dev_desc_cb
    simp only [dev_desc_switch, if_true]
    rfl
  refine ⟨hfail, fun reply he hb => ⟨hok reply he hb, fun hu => ?_⟩, ?_, ?_, ?_, ?_, ?_⟩
  · rw [hok reply he hb]
    exact wps_er_subscribe_no_url X _ _ m hu
  · intro hne
    by_cases he : event = http_client_event.HTTP_CLIENT_OK
    · rcases Option.eq_none_or_eq_some body with hb | ⟨reply, hb⟩
      · rw [hfail (Or.inr hb)] at hne
        exact absurd (http_starts_free _ _) hne
      · refine ⟨he, reply, hb, ?_⟩
        cases hu : (wps_er_parse_device_description D ap reply).event_sub_url with
        | some u => rfl
        | none =>
          have e := wps_er_subscribe_no_url X
            { s with calls := http_client_free s.calls ap.http }
            { wps_er_parse_device_description D ap reply with http := none } m hu
          rw [hok reply he hb, e] at hne
          exact absurd (http_starts_free _ _) hne
    · rw [hfail (Or.inl he)] at hne
      exact absurd (http_starts_free _ _) hne
  · by_cases he : event = http_client_event.HTTP_CLIENT_OK
    · rcases Option.eq_none_or_eq_some body with hb | ⟨reply, hb⟩
      · rw [hfail (Or.inr hb)]
      · rw [hok reply he hb, (wps_er_subscribe_er X _ _ m).1]
    · rw [hfail (Or.inl he)]
  · by_cases he : event = http_client_event.HTTP_CLIENT_OK
    · rcases Option.eq_none_or_eq_some body with hb | ⟨reply, hb⟩
      · rw [hfail (Or.inr hb)]
      · rw [hok reply he hb, (wps_er_subscribe_er X _ _ m).2.1]
    · rw [hfail (Or.inl he)]
  · intro he hu
    rw [hfail (Or.inl he)]
    exact hu
  · intro p id addr location h
    exact ⟨rfl, rfl, rfl, rfl, rfl, rfl, rfl, rfl, rfl, rfl, rfl, rfl, rfl⟩

theorem dev_desc_cb_s3 :
    ((wps_er_http_dev_desc_cb collab0 desc_collab0 er1 ap1
      http_client_event.HTTP_CLIENT_OK (some "<root/>".toList)
      { wpabuf_alloc := true, http_client_addr := true }).2.control_url =
        some "http://192.0.2.5:80/ctl".toList) ∧
    ((wps_er_http_dev_desc_cb collab0 desc_collab0 er1 ap1
      http_client_event.HTTP_CLIENT_OK (some "<root/>".toList)
      { wpabuf_alloc := true, http_client_addr := true }).2.http.map (fun h => h.cb) =
        some http_cb.subscribe_cb) ∧
    (wps_er_http_dev_desc_cb collab0 desc_collab0 er1 ap1
      http_client_event.HTTP_CLIENT_TIMEOUT none
      { wpabuf_alloc := true, http_client_addr := true }).2 = { ap1 with http := none } := by
  decide

/-! ## Teardown: properties -/

theorem wps_er_sta_free_calls (s : Sys) (sta : wps_er_sta) :
    (wps_er_sta_free s sta).calls = s.calls ++ sta_teardown_calls sta := by
  unfold wps_er_sta_free sta_teardown_calls
  cases sta.wps <;> cases sta.http <;> simp [http_client_free]

theorem sta_free_foldl_calls (l : List wps_er_sta) (s : Sys) :
    (l.foldl wps_er_sta_free s).calls = s.calls ++ sta_list_teardown_calls l := by
  induction l generalizing s with
  | nil => simp [sta_list_teardown_calls]
  | cons x xs ih =>
    rw [List.foldl_cons, ih, wps_er_sta_free_calls, sta_list_teardown_calls, List.append_assoc]

theorem sta_free_foldl_timeouts (l : List wps_er_sta) (s : Sys) :
    (l.foldl wps_er_sta_free s).timeouts =
      s.timeouts.filter
        (fun t => !(l.any (fun sta => t.is_for eloop_handler.sta_timeout sta.ptr 0))) := by
  induction l generalizing s with
  | nil => simp
  | cons x xs ih =>
    rw [List.foldl_cons, ih]
    simp only [wps_er_sta_free, eloop_cancel_timeout, List.filter_filter, List.any_cons]
    apply List.filter_congr
    intro t _
    cases t.is_for eloop_handler.sta_timeout x.ptr 0 <;> simp

theorem wps_er_ap_free_calls (s : Sys) (ap : wps_er_ap) :
    (wps_er_ap_free s ap).calls = s.calls ++ ap_teardown_calls ap := by
  simp only [wps_er_ap_free, wps_er_sta_remove_all, sta_free_foldl_calls, ap_teardown_calls]
  cases ap.http <;> simp [http_client_free]

theorem wps_er_ap_free_timeouts (s : Sys) (ap : wps_er_ap) :
    (wps_er_ap_free s ap).timeouts =
      s.timeouts.filter (fun t => !(ap_owns_timer s.er.ptr ap t)) := by
  simp only [wps_er_ap_free, wps_er_sta_remove_all, sta_free_foldl_timeouts,
    eloop_cancel_timeout, List.filter_filter, ap_owns_timer]
  apply List.filter_congr
  intro t _
  cases t.is_for eloop_handler.ap_timeout s.er.ptr ap.ptr <;> simp

theorem ap_free_foldl_calls (l : List wps_er_ap) (s : Sys) :
    (l.foldl wps_er_ap_free s).calls = s.calls ++ ap_list_teardown_calls l := by
  induction l generalizing s with
  | nil => simp [ap_list_teardown_calls]
  | cons x xs ih =>
    rw [List.foldl_cons, ih, wps_er_ap_free_calls, ap_list_teardown_calls, List.append_assoc]

theorem ap_free_foldl_timeouts (l : List wps_er_ap) (s : Sys) :
    (l.foldl wps_er_ap_free s).timeouts =
      s.timeouts.filter (fun t => !(l.any (fun ap => ap_owns_timer s.er.ptr ap t))) := by
  induction l generalizing s with
  | nil => simp
  | cons x xs ih =>
    rw [List.foldl_cons, ih, wps_er_ap_free_timeouts, wps_er_ap_free_er]
    simp only [List.filter_filter, List.any_cons]
    apply List.filter_congr
    intro t _
    cases ap_owns_timer s.er.ptr x t <;> simp

theorem sta_list_teardown_mem (l : List wps_er_sta) (sta : wps_er_sta) (h : sta ∈ l)
    (c : ext_call) (hc : c ∈ sta_teardown_calls sta) : c ∈ sta_list_teardown_calls l := by
  induction l with
  | nil => simp at h
  | cons x xs ih =>
    rw [sta_list_teardown_calls, List.mem_append]
    rcases List.mem_cons.mp h with rfl | h
    · exact Or.inl hc
    · exact Or.inr (ih h)

/-- C25: freeing an AP tears down what it owns.  `wps_er_ap_free` leaves the
registrar context as it is and makes exactly these calls, in order: the abort
of the AP's pending exchange if there is one, then for every station of its
list `wps_deinit` of the registrar instance if there is one and the abort of
the pending exchange if there is one.  Of the timers exactly those are kept
that are neither the expiry timer of the AP nor the idle timer of one of its
stations, and the station list of the record is emptied.
`wps_er_ap_remove_all` empties the registry and does the same for every AP of
the list, in list order. -/
theorem ap_free_tears_down (s : Sys) (ap : wps_er_ap) :
    (wps_er_ap_free s ap).er = s.er ∧
    (wps_er_ap_free s ap).calls = s.calls ++ ap_teardown_calls ap ∧
    (wps_er_ap_free s ap).timeouts =
      s.timeouts.filter (fun t => !(ap_owns_timer s.er.ptr ap t)) ∧
    (∀ t ∈ (wps_er_ap_free s ap).timeouts,
      t.is_for eloop_handler.ap_timeout s.er.ptr ap.ptr = false ∧
      ∀ sta ∈ ap.sta, t.is_for eloop_handler.sta_timeout sta.ptr 0 = false) ∧
    (∀ h, ap.http = some h → ext_call.http_free h ∈ (wps_er_ap_free s ap).calls) ∧
    (∀ sta ∈ ap.sta,
      (∀ w, sta.wps = some w → ext_call.wps_deinit w ∈ (wps_er_ap_free s ap).calls) ∧
      (∀ h, sta.http = some h → ext_call.http_free h ∈ (wps_er_ap_free s ap).calls)) ∧
    (wps_er_sta_remove_all s ap).2.sta = [] ∧
    (wps_er_ap_remove_all s).er = { s.er with ap := [] } ∧
    (wps_er_ap_remove_all s).calls = s.calls ++ ap_list_teardown_calls s.er.ap ∧
    (wps_er_ap_remove_all s).timeouts =
      s.timeouts.filter (fun t => !(s.er.ap.any (fun ap => ap_owns_timer s.er.ptr ap t))) := by
  have hc := wps_er_ap_free_calls s ap
  have ht := wps_er_ap_free_timeouts s ap
  refine ⟨wps_er_ap_free_er s ap, hc, ht, ?_, ?_, ?_, rfl, ?_, ?_, ?_⟩
  · intro t htm
    rw [ht, List.mem_filter] at htm
    have h2 := htm.2
    simp only [ap_owns_timer, Bool.not_eq_true', Bool.or_eq_false_iff, List.any_eq_false] at h2
    exact ⟨h2.1, fun sta hsta => by simpa using h2.2 sta hsta⟩
  · intro h hh
    rw [hc, List.mem_append]
    right
    simp [ap_teardown_calls, hh]
  · intro sta hsta
    constructor
    · intro w hw
      rw [hc, List.mem_append]
      right
      rw [ap_teardown_calls, List.mem_append]
      right
      exact sta_list_teardown_mem _ sta hsta _ (by simp [sta_teardown_calls, hw])
    · intro h hh
      rw [hc, List.mem_append]
      right
      rw [ap_teardown_calls, List.mem_append]
      right
      exact sta_list_teardown_mem _ sta hsta _ (by simp [sta_teardown_calls, hh])
  · unfold wps_er_ap_remove_all
    rw [ap_free_foldl_er]
  · unfold wps_er_ap_remove_all
    rw [ap_free_foldl_calls]
  · unfold wps_er_ap_remove_all
    rw [ap_free_foldl_timeouts]

theorem ap_free_busy :
    er_busy.timeouts.length = 2 ∧
    (wps_er_ap_free er_busy ap_busy).timeouts = [] ∧
    (wps_er_ap_free er_busy ap_busy).calls =
      er_busy.calls ++
        [ext_call.http_free (dev_desc_get 12288 loc_s1),
         ext_call.wps_deinit
           { cfg := { wps := 8192, registrar := 1, peer_addr := mac_s4 }, st := 1 },
         ext_call.http_free
           { url := none, dst := some dst_s1, req := some [], arg := 1000,
             cb := http_cb.put_wlan_response_cb, ctx := 20480 }] ∧
    (wps_er_ap_remove_all er_busy).er.ap = [] ∧
    (wps_er_ap_remove_all er_busy).timeouts = [] := by
  decide

/-! ## The address invariant -/

theorem wps_er_ap_remove_er_filter (s : Sys) (a : Nat) (h : ap_addr_unique s.er) :
    (wps_er_ap_remove s a).er =
      { s.er with ap := s.er.ap.filter (fun x => decide (x.addr ≠ a)) } := by
  unfold wps_er_ap_remove
  cases hf : (ap_unlink a s.er.ap).1 with
  | none =>
    rw [ap_unlink_fst, List.find?_eq_none] at hf
    have : s.er.ap.filter (fun x => decide (x.addr ≠ a)) = s.er.ap := by
      rw [List.filter_eq_self]
      intro y hy
      simpa using hf y hy
    show s.er = _
    rw [this]
  | some ap =>
    simp only [wps_er_ap_free_er]
    rw [ap_unlink_snd a s.er.ap h]

/-- C26: no two APs of the registry have the same IPv4 address.  The empty
registry of a fresh registrar has the property; from a registry that has it,
`wps_er_ap_add`, `wps_er_ap_remove` and `wps_er_ap_remove_all` give a registry
that has it, whatever the arguments and the allocation results, and
`wps_er_ap_add` leaves the list as it is when `wps_er_ap_get` finds an AP with
the address.  In such a registry `wps_er_ap_remove` of an address, which
unlinks the first match only, leaves no AP with that address. -/
theorem ap_addr_unique_invariant (s : Sys) (h : ap_addr_unique s.er) :
    (∀ ptr wps ip msd ssd port, ap_addr_unique (er_fresh ptr wps ip msd ssd port).er) ∧
    (∀ a location max_age m, ap_addr_unique (wps_er_ap_add s a location max_age m).er) ∧
    (∀ a location max_age m, (wps_er_ap_get s.er a).isSome = true →
      (wps_er_ap_add s a location max_age m).er = s.er) ∧
    (∀ a, ap_addr_unique (wps_er_ap_remove s a).er) ∧
    ap_addr_unique (wps_er_ap_remove_all s).er ∧
    (∀ a, wps_er_ap_get (wps_er_ap_remove s a).er a = none) ∧
    (∀ a, ∀ x ∈ (wps_er_ap_remove s a).er.ap, x.addr ≠ a) := by
  have hrem : ∀ a, ∀ x ∈ (wps_er_ap_remove s a).er.ap, x.addr ≠ a := by
    intro a x hx
    rw [wps_er_ap_remove_er_filter s a h] at hx
    simpa using (List.mem_filter.mp hx).2
  refine ⟨?_, ?_, ?_, ?_, ?_, ?_, hrem⟩
  · intro ptr wps ip msd ssd port
    exact List.nodup_nil
  · intro a location max_age m
    exact reg_step_addr_unique s (reg_op.add a location max_age m) h
  · intro a location max_age m hg
    unfold wps_er_ap_add
    cases hga : wps_er_ap_get s.er a with
    | none => rw [hga] at hg; exact absurd hg (by simp)
    | some ap => rfl
  · intro a
    exact reg_step_addr_unique s (reg_op.remove a) h
  · exact reg_step_addr_unique s reg_op.remove_all h
  · intro a
    unfold wps_er_ap_get
    rw [List.find?_eq_none]
    intro x hx
    simpa using hrem a x hx

/-- C26, witness: the registry of scenario S6 with its two APs at 192.0.2.6
and 192.0.2.5; after `wps_er_ap_remove` of 192.0.2.5 the lookup of that address
finds nothing and the other AP is still there. -/
theorem ap_addr_unique_invariant_witness :
    ap_addr_unique er_s6.er ∧
    wps_er_ap_get (wps_er_ap_remove er_s6 3221225989).er 3221225989 = none ∧
    (wps_er_ap_remove er_s6 3221225989).er.ap.map (fun ap => ap.addr) = [3221225990] :=
  ⟨by decide, (ap_addr_unique_invariant er_s6 (by decide)).2.2.2.2.2.1 3221225989, by decide⟩

end WpsEr
